import Mathlib

/-!
# The fdo_sys ServiceInfo module (device_modules/fdo_sys/fdo_sys.c)

A shallow embedding of `fdo_sys` and of its three producer helpers
`write_status_cb`, `write_data` and `write_eot`.

* The file-scope `static` variables of the C file become the fields of `Session`.
* The C function is a `switch` whose arms leave through `goto end` (the clean-up
  block runs) or through a plain `return` (it does not); `Ctl` records which.
* Every call into a collaborator (CBOR reader `fdor_*`, CBOR writer `fdow_*`,
  `ModuleAlloc`, the safe_lib memory calls, the file helpers and `process_data`)
  takes its outcome from the record `Env`, one record per call of `fdo_sys`.
  Nothing is assumed about these outcomes unless a theorem says so.
* Constants of the absent header `fdo_sys.h` are the fields of `Consts`.
-/

namespace FdoSys

/-! ## Data model -/

/-- Result codes of `fdo_sys`. -/
inductive Result
  | FDO_SI_SUCCESS
  | FDO_SI_CONTENT_ERROR
  | FDO_SI_FAILURE
  | FDO_SI_INTERNAL_ERROR
  deriving DecidableEq, Repr

/-- Operation kinds the dispatcher passes as `type`; `FDO_SI_OTHER` stands for any
value the `switch` sends to `default`. -/
inductive fdo_sdk_si_type
  | FDO_SI_START
  | FDO_SI_END
  | FDO_SI_FAILURE
  | FDO_SI_HAS_MORE_DSI
  | FDO_SI_IS_MORE_DSI
  | FDO_SI_GET_DSI_COUNT
  | FDO_SI_GET_DSI
  | FDO_SI_SET_OSI
  | FDO_SI_OTHER
  deriving DecidableEq, Repr

/-- Values of `write_type`. -/
inductive fdoSysModMsg
  | FDO_SYS_MOD_MSG_NONE
  | FDO_SYS_MOD_MSG_DATA
  | FDO_SYS_MOD_MSG_EOT
  | FDO_SYS_MOD_MSG_STATUS_CB
  deriving DecidableEq, Repr

/-- One call made on the CBOR writer `fdow`, with the value handed to it. -/
inductive WCall
  | start_array (n : Nat)
  | boolean (b : Bool)
  | signed_int (i : Int)
  | unsigned_int (n : Nat)
  | text_string (t : String)
  | byte_string (bs : List Nat)
  | end_array
  deriving DecidableEq, Repr

/-- Constants of `fdo_sys.h` and safe_lib that the C file uses. -/
structure Consts where
  MOD_MAX_BUFF_SIZE : Nat
  FILE_NAME_LEN : Nat
  SVI_MAP_KEY_LEN : Nat
  MOD_MAX_EXEC_ARG_LEN : Nat
  MOD_MAX_FETCH_ARG_LEN : Nat
  RSIZE_MAX_STR : Nat
  sizeof_ptr : Nat

/-- The file-scope variables of fdo_sys.c (lines 15-52). `fdow` is the list of
writer calls accepted since the last `fdo_block_reset(&fdow->b)`. `filename`,
`svi_map_key` and `exec_result` hold the C string stored in the buffer. -/
structure Session where
  fdow : List WCall
  filename : String
  svi_map_key : String
  file_seek_pos : Nat
  file_sz : Nat
  fetch_data_status : Int
  exec_array_length : Nat
  fetch_array_length : Nat
  status_cb_iscomplete : Bool
  status_cb_resultcode : Int
  status_cb_waitsec : Nat
  exec_result : String
  hasmore : Bool
  ismore : Bool
  write_type : fdoSysModMsg
  deriving DecidableEq, Repr

/-- The initial values of the file-scope variables (lines 15-52);
`status_cb_waitsec` starts as `(uint64_t)-1`. -/
def Session.init : Session where
  fdow := []
  filename := ""
  svi_map_key := ""
  file_seek_pos := 0
  file_sz := 0
  fetch_data_status := 1
  exec_array_length := 0
  fetch_array_length := 0
  status_cb_iscomplete := false
  status_cb_resultcode := -1
  status_cb_waitsec := 2 ^ 64 - 1
  exec_result := ""
  hasmore := false
  ismore := false
  write_type := fdoSysModMsg.FDO_SYS_MOD_MSG_NONE

/-- What `process_data(FDO_SYS_MOD_MSG_EXEC_CB, ...)` hands back: its boolean
result and the values it leaves behind the four pointers it was given. -/
structure ExecCb where
  ok : Bool
  iscomplete : Bool
  resultcode : Int
  waitsec : Nat
  exec_result : String

/-- Outcomes of the collaborator calls made during one call of `fdo_sys`.
Reader calls on array elements are indexed by the element position; the
allocations are indexed by their order within the call. -/
structure Env where
  /-- Line 86: `fdow_init(fdow) && fdo_block_alloc_with_size(&fdow->b, ..)`. -/
  start_fdow : Bool
  /-- Lines 96-97: the same for `fdor`. -/
  start_fdor : Bool
  /-- Line 108: `process_data(FDO_SYS_MOD_MSG_EXIT, ...)`. -/
  process_data_EXIT : Bool
  /-- `ModuleAlloc`: k-th allocation of this call, for the given size; true when non-NULL. -/
  ModuleAlloc : Nat → Nat → Bool
  /-- `memset_s(bin_data, bin_len, 0) == 0`, by length. -/
  memset_s_bin : Nat → Bool
  /-- `memset_s(filename, sizeof(filename), 0) == 0`. -/
  memset_s_filename : Bool
  /-- `memset_s(svi_map_key, SVI_MAP_KEY_LEN, 0) == 0`. -/
  memset_s_svi_map_key : Bool
  /-- `memset_s(exec_instr[i], ..) == 0` and `memset_s(fetch_instr[i], ..) == 0`, by index. -/
  memset_s_instr : Nat → Bool
  /-- `memcpy_s(module_message, sizeof(message), message, sizeof(message)) == 0`, by label. -/
  memcpy_s_label : String → Bool
  /-- `memcpy_s(module_val, n, fdow->b.block, n) == 0`, by length. -/
  memcpy_s_out : Nat → Bool
  /-- `memcpy_s(fdor->b.block, n, module_val, n) == 0`, by length. -/
  memcpy_s_in : Nat → Bool
  fdow_encoder_init : Bool
  /-- A writer call: accepted or not, given the calls accepted before it. -/
  fdow_write : List WCall → WCall → Bool
  fdow_encoded_length : List WCall → Option Nat
  fdor_parser_init : Bool
  /-- `fdor_string_length(fdor, &len)` on element i (0 for a value that is one string). -/
  fdor_string_length : Nat → Option Nat
  /-- `fdor_text_string(fdor, buf, len)` on element i with buffer length len. -/
  fdor_text_string : Nat → Nat → Option String
  /-- `fdor_byte_string(fdor, buf, len)`, by buffer length. -/
  fdor_byte_string : Nat → Option (List Nat)
  fdor_next : Bool
  fdor_array_length : Option Nat
  fdor_start_array : Bool
  fdor_end_array : Bool
  fdor_boolean : Option Bool
  fdor_signed_int : Option Int
  fdor_unsigned_int : Option Nat
  get_file_sz : String → Nat
  /-- `read_buffer_from_file_from_pos(filename, buf, len, pos)`: the bytes read, or failure. -/
  read_buffer_from_file_from_pos : String → Nat → Nat → Option (List Nat)
  delete_old_file : String → Bool
  /-- `process_data(FDO_SYS_MOD_MSG_WRITE, bin_data, bin_len, filename, ...)`. -/
  process_data_WRITE : String → List Nat → Bool
  /-- `process_data(FDO_SYS_MOD_MSG_EXEC, NULL, 0, filename, exec_instr, ...)`. -/
  process_data_EXEC : String → List String → Bool
  /-- `process_data(FDO_SYS_MOD_MSG_EXEC_CB, NULL, 0, filename, exec_instr, &status_cb_..)`. -/
  process_data_EXEC_CB : String → List String → ExecCb
  /-- Modelled from the spec: `process_data(FDO_SYS_MOD_MSG_STATUS_CB, ...)` (fdo_sys_utils,
  not in this file) is handed the decoded triple "for bookkeeping" and reports success or
  failure; it does not write through the three pointers. -/
  process_data_STATUS_CB : Bool → Int → Nat → Bool

/-- Arguments of one call. A pointer argument is `none`/`false` when NULL. The bytes
behind `module_val` are seen only through the reader outcomes of `Env`. -/
structure Args where
  type : fdo_sdk_si_type
  module_message : Option String
  module_val : Bool
  module_val_sz : Option Nat
  num_module_messages : Bool
  has_more : Bool
  is_more : Bool
  mtu : Nat

/-- What the call leaves in the caller's buffers: `module_message` is the label buffer
after the call; the other fields are `some v` exactly when the call stored `v` there. -/
structure Output where
  module_message : Option String
  module_val : Option (List WCall)
  module_val_sz : Option Nat
  num_module_messages : Option Nat
  has_more : Option Bool
  is_more : Option Bool
  deriving DecidableEq, Repr

/-- Nothing written yet. -/
def Output.start (a : Args) : Output where
  module_message := a.module_message
  module_val := none
  module_val_sz := none
  num_module_messages := none
  has_more := none
  is_more := none

/-- How an arm of the `switch` is left: `goto end` with the current `result` and with
`exec_instr`/`fetch_instr` non-NULL or not, or a `return` that skips the `end:` block. -/
inductive Ctl
  | goto_end (result : Result) (exec_instr : Bool) (fetch_instr : Bool)
  | ret (result : Result)
  deriving DecidableEq, Repr

/-- What one call of `fdo_sys` yields. -/
structure Ret where
  result : Result
  state : Session
  out : Output
  deriving DecidableEq, Repr

open Result fdo_sdk_si_type fdoSysModMsg

/-! ## safe_lib string copy -/

/-- The C string held in a buffer filled with `t`: the characters before the first NUL. -/
def cstr (t : String) : List Char :=
  t.data.takeWhile (fun c => c ≠ Char.ofNat 0)

/-- safe_lib `strncpy_s(dest, dmax, src, slen)` into a zeroed `dest`: `some d` when it
returns 0 and leaves `d` in `dest`, `none` when it fails (`dest` stays empty). It fails
when `dmax` or `slen` is 0 or above `RSIZE_MAX_STR`, or when the at most `slen`
characters of `src` do not fit in `dmax` bytes together with their terminator. -/
def strncpy_s (K : Consts) (dmax : Nat) (src : String) (slen : Nat) : Option String :=
  if dmax = 0 ∨ dmax > K.RSIZE_MAX_STR ∨ slen = 0 ∨ slen > K.RSIZE_MAX_STR then none
  else if ((cstr src).take slen).length < dmax then some (String.mk ((cstr src).take slen))
  else none

/-- Lines 402-415, 545-559, 761-775: clear `filename`, then copy into it. -/
def store_filename (K : Consts) (env : Env) (src : String) (slen : Nat) (s : Session) :
    Bool × Session :=
  if env.memset_s_filename = false then (false, s)
  else
    match strncpy_s K K.FILE_NAME_LEN src slen with
    | none => (false, { s with filename := "" })
    | some f => (true, { s with filename := f })

/-- Lines 564-579, 780-795: clear `svi_map_key`, then copy into it. -/
def store_svi_map_key (K : Consts) (env : Env) (src : String) (slen : Nat) (s : Session) :
    Bool × Session :=
  if env.memset_s_svi_map_key = false then (false, s)
  else
    match strncpy_s K K.SVI_MAP_KEY_LEN src slen with
    | none => (false, { s with svi_map_key := "" })
    | some k => (true, { s with svi_map_key := k })

/-! ## Producer helpers (lines 849-1015) -/

/-- The writer calls a helper makes, in order: the first call the writer rejects ends the
helper with `return false`. Yields whether all were accepted, and the writer contents. -/
def fdow_calls (env : Env) : List WCall → List WCall → Bool × List WCall
  | w, [] => (true, w)
  | w, c :: cs =>
    if env.fdow_write w c = false then (false, w) else fdow_calls env (w ++ [c]) cs

/-- The writer accepts the calls `cs` one after the other, starting from contents `w`. -/
def accepts (env : Env) : List WCall → List WCall → Bool
  | _, [] => true
  | w, c :: cs => env.fdow_write w c && accepts env (w ++ [c]) cs

/-- The writer calls of `write_status_cb` (lines 869-921): `fdow_start_array(fdow, 5)`,
`fdow_boolean`, `fdow_signed_int`, `fdow_unsigned_int`, `fdow_text_string` twice and
`fdow_end_array`. `strnlen_s` of a whole buffer is the length of the string it holds. -/
def status_cb_val (s : Session) : List WCall :=
  [WCall.start_array 5, WCall.boolean s.status_cb_iscomplete,
    WCall.signed_int s.status_cb_resultcode, WCall.unsigned_int s.status_cb_waitsec,
    WCall.text_string s.exec_result, WCall.text_string s.svi_map_key, WCall.end_array]

/-- The writer calls of `write_data` (lines 948-967): `fdow_start_array(fdow, 2)`,
`fdow_byte_string` and `fdow_text_string`; the function makes no `fdow_end_array` call. -/
def data_val (bytes : List Nat) (key : String) : List WCall :=
  [WCall.start_array 2, WCall.byte_string bytes, WCall.text_string key]

/-- The writer calls of `write_eot` (lines 993-1012): `fdow_start_array(fdow, 1)`,
`fdow_signed_int` and `fdow_end_array`. -/
def eot_val (status : Int) : List WCall :=
  [WCall.start_array 1, WCall.signed_int status, WCall.end_array]

/-- Lines 849-924. Returns the boolean result, the label buffer and the writer contents. -/
def write_status_cb (env : Env) (module_message : Option String) (s : Session) :
    Bool × Option String × List WCall :=
  if module_message.isNone then (false, module_message, s.fdow)
  else if env.memcpy_s_label "status_cb" = false then (false, module_message, s.fdow)
  else
    ((fdow_calls env s.fdow (status_cb_val s)).1, some "status_cb",
      (fdow_calls env s.fdow (status_cb_val s)).2)

/-- Lines 929-970. `bin_data` is `none` for a NULL pointer. -/
def write_data (env : Env) (module_message : Option String) (bin_data : Option (List Nat))
    (s : Session) : Bool × Option String × List WCall :=
  match bin_data with
  | none => (false, module_message, s.fdow)
  | some bytes =>
    if module_message.isNone then (false, module_message, s.fdow)
    else if env.memcpy_s_label "data" = false then (false, module_message, s.fdow)
    else
      ((fdow_calls env s.fdow (data_val bytes s.svi_map_key)).1, some "data",
        (fdow_calls env s.fdow (data_val bytes s.svi_map_key)).2)

/-- Lines 975-1015. -/
def write_eot (env : Env) (module_message : Option String) (status : Int) (s : Session) :
    Bool × Option String × List WCall :=
  if module_message.isNone then (false, module_message, s.fdow)
  else if env.memcpy_s_label "eot" = false then (false, module_message, s.fdow)
  else
    ((fdow_calls env s.fdow (eot_val status)).1, some "eot",
      (fdow_calls env s.fdow (eot_val status)).2)

/-! ## FDO_SI_GET_DSI (lines 167-319) -/

/-- Lines 304-319: query the encoded length, store it, copy the block out. `result` is
the value the variable `result` holds on arrival. -/
def get_dsi_tail (env : Env) (result : Result) (s : Session) (out : Output) :
    Ctl × Session × Output :=
  match env.fdow_encoded_length s.fdow with
  | none => (Ctl.goto_end result false false, s, out)
  | some n =>
    if env.memcpy_s_out n = false then
      (Ctl.goto_end result false false, s, { out with module_val_sz := some n })
    else
      (Ctl.goto_end FDO_SI_SUCCESS false false, s,
        { out with module_val_sz := some n, module_val := some s.fdow })

/-- Lines 224-230 and 254-260: `write_eot` inside the data arm, where `result` is
already `FDO_SI_SUCCESS`. -/
def get_dsi_data_eot (env : Env) (a : Args) (s : Session) (out : Output) :
    Ctl × Session × Output :=
  match write_eot env a.module_message s.fetch_data_status s with
  | (false, mm, w) =>
    (Ctl.goto_end FDO_SI_SUCCESS false false, { s with fdow := w },
      { out with module_message := mm })
  | (true, mm, w) =>
    get_dsi_tail env FDO_SI_SUCCESS { s with fdow := w } { out with module_message := mm }

/-- The buffer `bin_data` after the read: `bin_len` bytes, zeroed by `memset_s` and then
filled from the front with what the file helper delivered. -/
def fill_buffer (bin_len : Nat) (bytes : List Nat) : List Nat :=
  (bytes ++ List.replicate bin_len 0).take bin_len

/-- Lines 206-279: the arm `write_type == FDO_SYS_MOD_MSG_DATA`. -/
def get_dsi_data (env : Env) (a : Args) (s0 : Session) (out : Output) :
    Ctl × Session × Output :=
  let s : Session := { s0 with fetch_data_status := 1 }
  if s.file_sz = 0 ∨ s.file_sz ≠ env.get_file_sz s.filename ∨ s.file_seek_pos > s.file_sz then
    get_dsi_data_eot env a s out
  else
    let file_remaining := s.file_sz - s.file_seek_pos
    let bin_len := if file_remaining > a.mtu then a.mtu else file_remaining
    if env.ModuleAlloc 0 bin_len = false then (Ctl.goto_end FDO_SI_SUCCESS false false, s, out)
    else if env.memset_s_bin bin_len = false then
      (Ctl.goto_end FDO_SI_SUCCESS false false, s, out)
    else
      match env.read_buffer_from_file_from_pos s.filename bin_len s.file_seek_pos with
      | none => get_dsi_data_eot env a s out
      | some bytes =>
        let bin_data := fill_buffer bin_len bytes
        let s1 : Session := { s with file_seek_pos := s.file_seek_pos + bin_len }
        match write_data env a.module_message (some bin_data) s1 with
        | (false, mm, w) =>
          (Ctl.goto_end FDO_SI_SUCCESS false false, { s1 with fdow := w },
            { out with module_message := mm })
        | (true, mm, w) =>
          let s2 : Session := { s1 with fdow := w, hasmore := true, fetch_data_status := 0 }
          let s3 : Session :=
            if s2.file_sz = s2.file_seek_pos then { s2 with write_type := FDO_SYS_MOD_MSG_EOT }
            else s2
          get_dsi_tail env FDO_SI_SUCCESS s3 { out with module_message := mm }

/-- Lines 167-319: the arm `case FDO_SI_GET_DSI`. -/
def get_dsi (env : Env) (a : Args) (s0 : Session) : Ctl × Session × Output :=
  let out := Output.start a
  if a.mtu = 0 ∨ a.module_message.isNone ∨ a.module_val = false ∨ a.module_val_sz.isNone then
    (Ctl.goto_end FDO_SI_CONTENT_ERROR false false, s0, out)
  else
    let s : Session := { s0 with fdow := [] }
    if env.fdow_encoder_init = false then (Ctl.goto_end FDO_SI_INTERNAL_ERROR false false, s, out)
    else if s.hasmore = false ∨ s.write_type = FDO_SYS_MOD_MSG_NONE then
      (Ctl.goto_end FDO_SI_INTERNAL_ERROR false false, s, out)
    else
      match s.write_type with
      | FDO_SYS_MOD_MSG_STATUS_CB =>
        match write_status_cb env a.module_message s with
        | (false, mm, w) =>
          (Ctl.goto_end FDO_SI_INTERNAL_ERROR false false, { s with fdow := w },
            { out with module_message := mm })
        | (true, mm, w) =>
          get_dsi_tail env FDO_SI_INTERNAL_ERROR { s with fdow := w, hasmore := false }
            { out with module_message := mm }
      | FDO_SYS_MOD_MSG_DATA => get_dsi_data env a s out
      | FDO_SYS_MOD_MSG_EOT =>
        match write_eot env a.module_message s.fetch_data_status s with
        | (false, mm, w) =>
          (Ctl.goto_end FDO_SI_INTERNAL_ERROR false false, { s with fdow := w },
            { out with module_message := mm })
        | (true, mm, w) =>
          get_dsi_tail env FDO_SI_INTERNAL_ERROR { s with fdow := w, hasmore := false }
            { out with module_message := mm }
      | FDO_SYS_MOD_MSG_NONE => (Ctl.goto_end FDO_SI_INTERNAL_ERROR false false, s, out)

/-! ## FDO_SI_SET_OSI (lines 320-807) -/

/-- Lines 363-422: the arm for the label `filedesc`. -/
def set_osi_filedesc (K : Consts) (env : Env) (s : Session) (out : Output) :
    Ctl × Session × Output :=
  match env.fdor_string_length 0 with
  | none => (Ctl.goto_end FDO_SI_INTERNAL_ERROR false false, s, out)
  | some bin_len =>
    if bin_len = 0 then (Ctl.ret FDO_SI_CONTENT_ERROR, s, out)
    else if env.ModuleAlloc 0 bin_len = false then
      (Ctl.goto_end FDO_SI_INTERNAL_ERROR false false, s, out)
    else if env.memset_s_bin bin_len = false then
      (Ctl.goto_end FDO_SI_INTERNAL_ERROR false false, s, out)
    else
      match env.fdor_text_string 0 bin_len with
      | none => (Ctl.goto_end FDO_SI_INTERNAL_ERROR false false, s, out)
      | some txt =>
        match store_filename K env txt bin_len s with
        | (false, s1) => (Ctl.goto_end FDO_SI_INTERNAL_ERROR false false, s1, out)
        | (true, s1) =>
          if env.delete_old_file s1.filename = true then
            (Ctl.goto_end FDO_SI_SUCCESS false false, s1, out)
          else (Ctl.goto_end FDO_SI_INTERNAL_ERROR false false, s1, out)

/-- Lines 423-476: the arm for the label `write`. -/
def set_osi_write (env : Env) (s : Session) (out : Output) : Ctl × Session × Output :=
  match env.fdor_string_length 0 with
  | none => (Ctl.goto_end FDO_SI_INTERNAL_ERROR false false, s, out)
  | some bin_len =>
    if bin_len = 0 then
      if env.fdor_next = false then (Ctl.goto_end FDO_SI_INTERNAL_ERROR false false, s, out)
      else (Ctl.ret FDO_SI_SUCCESS, s, out)
    else if env.ModuleAlloc 0 bin_len = false then
      (Ctl.goto_end FDO_SI_INTERNAL_ERROR false false, s, out)
    else if env.memset_s_bin bin_len = false then
      (Ctl.goto_end FDO_SI_INTERNAL_ERROR false false, s, out)
    else
      match env.fdor_byte_string bin_len with
      | none => (Ctl.goto_end FDO_SI_INTERNAL_ERROR false false, s, out)
      | some bytes =>
        if env.process_data_WRITE s.filename (fill_buffer bin_len bytes) = false then
          (Ctl.goto_end FDO_SI_INTERNAL_ERROR false false, s, out)
        else (Ctl.goto_end FDO_SI_SUCCESS false false, s, out)

/-- Lines 512-580: one pass through the body of the `exec`/`exec_cb` loop at index `i`,
`len` being `exec_array_length`. Yields the decoded argument `exec_instr[i]`, or `none`
where the C code leaves through `goto end`, and the session as it stands then. -/
def exec_item (K : Consts) (env : Env) (len i : Nat) (s : Session) : Option String × Session :=
  if env.ModuleAlloc (i + 1) K.MOD_MAX_EXEC_ARG_LEN = false then (none, s)
  else if env.memset_s_instr i = false then (none, s)
  else
    match env.fdor_string_length i with
    | none => (none, s)
    | some exec_instructions_sz =>
      if exec_instructions_sz > K.MOD_MAX_EXEC_ARG_LEN then (none, s)
      else
        match env.fdor_text_string i exec_instructions_sz with
        | none => (none, s)
        | some txt =>
          let r1 : Bool × Session :=
            if i = 1 then store_filename K env txt exec_instructions_sz s else (true, s)
          if r1.1 = false then (none, r1.2)
          else
            let r2 : Bool × Session :=
              if i = len - 1 then store_svi_map_key K env txt exec_instructions_sz r1.2
              else (true, r1.2)
            if r2.1 = false then (none, r2.2) else (some txt, r2.2)

/-- Lines 511-582: the loop `for (exec_array_index = 0; exec_array_index <
exec_array_length; exec_array_index++)`, `todo` passes from index `i` on. Returns false
where the C code leaves the loop through `goto end`; `argv` collects `exec_instr[0..]`. -/
def exec_loop (K : Consts) (env : Env) (len : Nat) :
    Nat → Nat → Session → List String → Bool × Session × List String
  | 0, _, s, argv => (true, s, argv)
  | todo + 1, i, s, argv =>
    match exec_item K env len i s with
    | (none, s1) => (false, s1, argv)
    | (some txt, s1) => exec_loop K env len todo (i + 1) s1 (argv ++ [txt])

/-- Lines 477-615: the arm for the labels `exec` and `exec_cb`; `is_exec` says which. -/
def set_osi_exec (K : Consts) (env : Env) (is_exec : Bool) (s0 : Session) (out : Output) :
    Ctl × Session × Output :=
  match env.fdor_array_length with
  | none => (Ctl.goto_end FDO_SI_INTERNAL_ERROR false false, s0, out)
  | some len =>
    let s : Session := { s0 with exec_array_length := len }
    if len = 0 then (Ctl.goto_end FDO_SI_CONTENT_ERROR false false, s, out)
    else if env.fdor_start_array = false then
      (Ctl.goto_end FDO_SI_INTERNAL_ERROR false false, s, out)
    else if env.ModuleAlloc 0 (K.sizeof_ptr * (len + 1)) = false then
      (Ctl.goto_end FDO_SI_INTERNAL_ERROR false false, s, out)
    else
      match exec_loop K env len len 0 s [] with
      | (false, s1, _) => (Ctl.goto_end FDO_SI_INTERNAL_ERROR true false, s1, out)
      | (true, s1, argv) =>
        if env.fdor_end_array = false then
          (Ctl.goto_end FDO_SI_INTERNAL_ERROR true false, s1, out)
        else if is_exec then
          if env.process_data_EXEC s1.filename argv = false then
            (Ctl.goto_end FDO_SI_INTERNAL_ERROR true false, s1, out)
          else (Ctl.goto_end FDO_SI_SUCCESS true false, s1, out)
        else
          let r := env.process_data_EXEC_CB s1.filename argv
          let s2 : Session :=
            { s1 with status_cb_iscomplete := r.iscomplete, status_cb_resultcode := r.resultcode,
                      status_cb_waitsec := r.waitsec, exec_result := r.exec_result }
          if r.ok = false then (Ctl.goto_end FDO_SI_INTERNAL_ERROR true false, s2, out)
          else
            (Ctl.goto_end FDO_SI_SUCCESS true false,
              { s2 with hasmore := true, write_type := FDO_SYS_MOD_MSG_STATUS_CB }, out)

/-- Lines 617-690: the arm for the label `status_cb`. -/
def set_osi_status_cb (env : Env) (s : Session) (out : Output) : Ctl × Session × Output :=
  match env.fdor_array_length with
  | none => (Ctl.goto_end FDO_SI_INTERNAL_ERROR false false, s, out)
  | some status_cb_array_length =>
    if status_cb_array_length ≠ 3 then (Ctl.goto_end FDO_SI_INTERNAL_ERROR false false, s, out)
    else if env.fdor_start_array = false then
      (Ctl.goto_end FDO_SI_INTERNAL_ERROR false false, s, out)
    else
      match env.fdor_boolean with
      | none => (Ctl.goto_end FDO_SI_INTERNAL_ERROR false false, s, out)
      | some b =>
        let s1 : Session := { s with status_cb_iscomplete := b }
        match env.fdor_signed_int with
        | none => (Ctl.goto_end FDO_SI_INTERNAL_ERROR false false, s1, out)
        | some rc =>
          let s2 : Session := { s1 with status_cb_resultcode := rc }
          match env.fdor_unsigned_int with
          | none => (Ctl.goto_end FDO_SI_INTERNAL_ERROR false false, s2, out)
          | some ws =>
            let s3 : Session := { s2 with status_cb_waitsec := ws }
            if env.fdor_end_array = false then
              (Ctl.goto_end FDO_SI_INTERNAL_ERROR false false, s3, out)
            else
              let s4 : Session :=
                if s3.status_cb_iscomplete then
                  { s3 with hasmore := false, write_type := FDO_SYS_MOD_MSG_NONE }
                else { s3 with hasmore := true, write_type := FDO_SYS_MOD_MSG_STATUS_CB }
              if env.process_data_STATUS_CB s4.status_cb_iscomplete s4.status_cb_resultcode
                  s4.status_cb_waitsec = false then
                (Ctl.goto_end FDO_SI_INTERNAL_ERROR false false, s4, out)
              else (Ctl.goto_end FDO_SI_SUCCESS false false, s4, out)

/-- Lines 728-796: one pass through the body of the `fetch` loop at index `i`. Yields
false where the C code leaves through `goto end`, and the session as it stands then. -/
def fetch_item (K : Consts) (env : Env) (i : Nat) (s : Session) : Bool × Session :=
  if env.ModuleAlloc (i + 1) K.MOD_MAX_FETCH_ARG_LEN = false then (false, s)
  else if env.memset_s_instr i = false then (false, s)
  else
    match env.fdor_string_length i with
    | none => (false, s)
    | some fetch_instructions_sz =>
      if fetch_instructions_sz > K.MOD_MAX_FETCH_ARG_LEN then (false, s)
      else
        match env.fdor_text_string i fetch_instructions_sz with
        | none => (false, s)
        | some txt =>
          let r1 : Bool × Session :=
            if i = 0 then store_filename K env txt fetch_instructions_sz s else (true, s)
          if r1.1 = false then (false, r1.2)
          else if i = 1 then store_svi_map_key K env txt fetch_instructions_sz r1.2
          else (true, r1.2)

/-- Lines 727-797: the loop `for (fetch_array_index = 0; fetch_array_index <
fetch_array_length; fetch_array_index++)`, `todo` passes from index `i` on. Returns false
where the C code leaves the loop through `goto end`. -/
def fetch_loop (K : Consts) (env : Env) : Nat → Nat → Session → Bool × Session
  | 0, _, s => (true, s)
  | todo + 1, i, s =>
    match fetch_item K env i s with
    | (false, s1) => (false, s1)
    | (true, s1) => fetch_loop K env todo (i + 1) s1

/-- Lines 692-807: the arm for the label `fetch`. -/
def set_osi_fetch (K : Consts) (env : Env) (s0 : Session) (out : Output) :
    Ctl × Session × Output :=
  match env.fdor_array_length with
  | none => (Ctl.goto_end FDO_SI_INTERNAL_ERROR false false, s0, out)
  | some len =>
    let s : Session := { s0 with fetch_array_length := len }
    if len = 0 then (Ctl.goto_end FDO_SI_CONTENT_ERROR false false, s, out)
    else if env.fdor_start_array = false then
      (Ctl.goto_end FDO_SI_INTERNAL_ERROR false false, s, out)
    else if env.ModuleAlloc 0 (K.sizeof_ptr * (len + 1)) = false then
      (Ctl.goto_end FDO_SI_INTERNAL_ERROR false false, s, out)
    else
      match fetch_loop K env len 0 s with
      | (false, s1) => (Ctl.goto_end FDO_SI_INTERNAL_ERROR false true, s1, out)
      | (true, s1) =>
        (Ctl.goto_end FDO_SI_SUCCESS false true,
          { s1 with file_sz := env.get_file_sz s1.filename, hasmore := true,
                    file_seek_pos := 0, write_type := FDO_SYS_MOD_MSG_DATA }, out)

/-- Lines 320-811: the arm `case FDO_SI_SET_OSI`. `strcmp_s` against each of the six
literals is equality of the label with the literal. -/
def set_osi (K : Consts) (env : Env) (a : Args) (s : Session) : Ctl × Session × Output :=
  let out := Output.start a
  match a.module_message, a.module_val, a.module_val_sz with
  | some msg, true, some sz =>
    if sz > K.MOD_MAX_BUFF_SIZE then (Ctl.goto_end FDO_SI_CONTENT_ERROR false false, s, out)
    else if msg ≠ "filedesc" ∧ msg ≠ "exec" ∧ msg ≠ "write" ∧ msg ≠ "exec_cb" ∧
        msg ≠ "status_cb" ∧ msg ≠ "fetch" then (Ctl.ret FDO_SI_CONTENT_ERROR, s, out)
    else if env.memcpy_s_in sz = false then
      (Ctl.goto_end FDO_SI_INTERNAL_ERROR false false, s, out)
    else if env.fdor_parser_init = false then
      (Ctl.goto_end FDO_SI_INTERNAL_ERROR false false, s, out)
    else if msg = "filedesc" then set_osi_filedesc K env s out
    else if msg = "write" then set_osi_write env s out
    else if msg = "exec" ∨ msg = "exec_cb" then
      set_osi_exec K env (decide (msg = "exec")) s out
    else if msg = "status_cb" then set_osi_status_cb env s out
    else if msg = "fetch" then set_osi_fetch K env s out
    else (Ctl.goto_end FDO_SI_FAILURE false false, s, out)
  | _, _, _ => (Ctl.goto_end FDO_SI_CONTENT_ERROR false false, s, out)

/-! ## The function `fdo_sys` -/

/-- Lines 813-843: the block behind the label `end:`. Freeing memory leaves no trace in
the session; the two array lengths are cleared when their vector was allocated, and a
result other than success resets the five transient variables. -/
def end_block (result : Result) (exec_instr fetch_instr : Bool) (s0 : Session) : Session :=
  let s1 : Session :=
    if exec_instr = true ∧ s0.exec_array_length > 0 then { s0 with exec_array_length := 0 }
    else s0
  let s2 : Session :=
    if fetch_instr = true ∧ s1.fetch_array_length > 0 then { s1 with fetch_array_length := 0 }
    else s1
  if result ≠ FDO_SI_SUCCESS then
    { s2 with hasmore := false, file_sz := 0, file_seek_pos := 0, fetch_data_status := 1,
              write_type := FDO_SYS_MOD_MSG_NONE }
  else s2

/-- Lines 82-811: the `switch` on `type`. -/
def fdo_sys_switch (K : Consts) (env : Env) (a : Args) (s : Session) :
    Ctl × Session × Output :=
  let out := Output.start a
  match a.type with
  | FDO_SI_START =>
    if env.start_fdow = false then (Ctl.goto_end FDO_SI_CONTENT_ERROR false false, s, out)
    else if env.start_fdor = false then
      (Ctl.goto_end FDO_SI_INTERNAL_ERROR false false, { s with fdow := [] }, out)
    else (Ctl.goto_end FDO_SI_SUCCESS false false, { s with fdow := [] }, out)
  | FDO_SI_END | fdo_sdk_si_type.FDO_SI_FAILURE =>
    if env.process_data_EXIT = false then
      (Ctl.goto_end FDO_SI_INTERNAL_ERROR false false, s, out)
    else (Ctl.goto_end FDO_SI_SUCCESS false false, s, out)
  | FDO_SI_HAS_MORE_DSI =>
    if a.has_more = false then (Ctl.goto_end FDO_SI_CONTENT_ERROR false false, s, out)
    else (Ctl.goto_end FDO_SI_SUCCESS false false, s, { out with has_more := some s.hasmore })
  | FDO_SI_IS_MORE_DSI =>
    if a.is_more = false then (Ctl.goto_end FDO_SI_CONTENT_ERROR false false, s, out)
    else (Ctl.goto_end FDO_SI_SUCCESS false false, s, { out with is_more := some s.ismore })
  | FDO_SI_GET_DSI_COUNT =>
    if a.num_module_messages = false then
      (Ctl.goto_end FDO_SI_CONTENT_ERROR false false, s, out)
    else (Ctl.goto_end FDO_SI_SUCCESS false false, s, { out with num_module_messages := some 1 })
  | FDO_SI_GET_DSI => get_dsi env a s
  | FDO_SI_SET_OSI => set_osi K env a s
  | FDO_SI_OTHER => (Ctl.goto_end Result.FDO_SI_FAILURE false false, s, out)

/-- The function `fdo_sys` (lines 59-844): the `switch`, then the `end:` block unless the
arm returned directly. -/
def fdo_sys (K : Consts) (env : Env) (a : Args) (s : Session) : Ret :=
  match fdo_sys_switch K env a s with
  | (Ctl.goto_end result exec_instr fetch_instr, s1, out) =>
    { result := result, state := end_block result exec_instr fetch_instr s1, out := out }
  | (Ctl.ret result, s1, out) => { result := result, state := s1, out := out }

/-! ## The dispatcher's GetDsi loop and what a round emits -/

/-- The message a call handed to the caller: the label and the encoded value, present
when the call returned success and copied a value into `module_val`. -/
def emitted (r : Ret) : Option (String × List WCall) :=
  if r.result = FDO_SI_SUCCESS then
    match r.out.module_message, r.out.module_val with
    | some label, some val => some (label, val)
    | _, _ => none
  else none

/-- The dispatcher repeating `FDO_SI_GET_DSI` while `hasmore` is set, at most `fuel`
times; round `i` runs against the collaborator outcomes `envs i`. Yields the rounds made. -/
def get_dsi_rounds (K : Consts) (envs : Nat → Env) (a : Args) : Nat → Nat → Session → List Ret
  | 0, _, _ => []
  | fuel + 1, i, s =>
    if s.hasmore = true then
      (fdo_sys K (envs i) a s) :: get_dsi_rounds K envs a fuel (i + 1) (fdo_sys K (envs i) a s).state
    else []

/-- A sequence of calls, each with its own collaborator outcomes, from state `s`. -/
def run (K : Consts) : List (Env × Args) → Session → Session
  | [], s => s
  | (env, a) :: rest, s => run K rest (fdo_sys K env a s).state

/-- The i-th slice of `B` of width `mtu`. -/
def chunk (mtu : Nat) (B : List Nat) (i : Nat) : List Nat :=
  (B.drop (i * mtu)).take mtu

/-- Every collaborator call a GetDsi round can make succeeds, and the file named `f`
holds exactly the bytes `B` (its size is reported as such and reads deliver its slices). -/
def GoodRound (env : Env) (f : String) (B : List Nat) : Prop :=
  env.fdow_encoder_init = true ∧
  env.get_file_sz f = B.length ∧
  (∀ k n, 0 < n → env.ModuleAlloc k n = true) ∧
  (∀ n, 0 < n → env.memset_s_bin n = true) ∧
  (∀ len pos, env.read_buffer_from_file_from_pos f len pos = some ((B.drop pos).take len)) ∧
  (∀ l, env.memcpy_s_label l = true) ∧
  (∀ w c, env.fdow_write w c = true) ∧
  (∀ w, ∃ n, env.fdow_encoded_length w = some n ∧ env.memcpy_s_out n = true)

/-- The GetDsi arguments are usable: the three output slots are present and mtu is positive. -/
def GoodGetDsiArgs (a : Args) : Prop :=
  a.type = FDO_SI_GET_DSI ∧ 0 < a.mtu ∧ a.module_message.isSome = true ∧ a.module_val = true ∧
    a.module_val_sz.isSome = true

/-! ## Predicates and views used in the statements -/

/-- The session `s1` differs from `s` at most in `filename` and `svi_map_key`. -/
def SameButNames (s1 s : Session) : Prop :=
  s1 = { s with filename := s1.filename, svi_map_key := s1.svi_map_key }

/-- The five transient variables (the ones the `end:` block resets) agree in both sessions. -/
def Frame (s1 s : Session) : Prop :=
  s1.hasmore = s.hasmore ∧ s1.write_type = s.write_type ∧ s1.file_sz = s.file_sz ∧
    s1.file_seek_pos = s.file_seek_pos ∧ s1.fetch_data_status = s.fetch_data_status

/-- The producer has nothing to send: a GetDsi call in this state is refused. -/
def Idle (s : Session) : Prop :=
  s.hasmore = false ∨ s.write_type = FDO_SYS_MOD_MSG_NONE

/-- The call is a SetOsi round carrying one of the labels that arm the producer. -/
def arms_producer (a : Args) : Prop :=
  a.type = FDO_SI_SET_OSI ∧
    (a.module_message = some "exec_cb" ∨ a.module_message = some "fetch" ∨
      a.module_message = some "status_cb")

/-- The per-argument length limit that applies to the label `l`. -/
def arg_limit (K : Consts) (l : String) : Nat :=
  if l = "fetch" then K.MOD_MAX_FETCH_ARG_LEN else K.MOD_MAX_EXEC_ARG_LEN

/-- The label is one of the six owner message kinds. -/
def recognised (l : String) : Prop :=
  l = "filedesc" ∨ l = "write" ∨ l = "exec" ∨ l = "exec_cb" ∨ l = "status_cb" ∨ l = "fetch"

/-- What the dispatcher sees of a round: the message handed over, and `hasmore` afterwards. -/
def round_view (r : Ret) : Option (String × List WCall) × Bool :=
  (emitted r, r.state.hasmore)

/-- The view of the j-th data round of a transfer of `B` with chunk width `mtu`. -/
def data_view (mtu : Nat) (B : List Nat) (key : String) (j : Nat) :
    Option (String × List WCall) × Bool :=
  (some ("data", data_val (chunk mtu B j) key), true)

/-- The view of the closing eot round with the given status. -/
def eot_view (status : Int) : Option (String × List WCall) × Bool :=
  (some ("eot", eot_val status), false)

/-- The number of chunks of width `mtu` that cover `F` bytes: F / mtu rounded up. -/
def ceil_div (F mtu : Nat) : Nat :=
  (F + mtu - 1) / mtu

/-- The session `s1` differs from `s` at most in the variables the GetDsi arm writes:
the writer contents, `fetch_data_status`, `file_seek_pos`, `hasmore` and `write_type`. -/
def SameButProducer (s1 s : Session) : Prop :=
  s1 = { s with fdow := s1.fdow, fetch_data_status := s1.fetch_data_status,
                file_seek_pos := s1.file_seek_pos, hasmore := s1.hasmore,
                write_type := s1.write_type }

/-- The session after the reset of lines 835-842. -/
def reset_transient (s : Session) : Session :=
  { s with hasmore := false, file_sz := 0, file_seek_pos := 0, fetch_data_status := 1,
           write_type := FDO_SYS_MOD_MSG_NONE }

/-- Whether the output slot of a query operation is present (non-NULL). -/
def query_slot (a : Args) : Bool :=
  match a.type with
  | FDO_SI_HAS_MORE_DSI => a.has_more
  | FDO_SI_IS_MORE_DSI => a.is_more
  | FDO_SI_GET_DSI_COUNT => a.num_module_messages
  | _ => true

/-- The session `s1` agrees with `s` on the variables no owner message but fetch touches:
`ismore`, `file_sz`, `file_seek_pos`, `fetch_data_status` and the writer contents. -/
def KeepsFile (s1 s : Session) : Prop :=
  s1.ismore = s.ismore ∧ s1.file_sz = s.file_sz ∧ s1.file_seek_pos = s.file_seek_pos ∧
    s1.fetch_data_status = s.fetch_data_status ∧ s1.fdow = s.fdow

/-- The text `t` can be copied by `strncpy_s` into a buffer of `dmax` bytes: it is a C
string (no NUL inside), it is not empty, and it fits with its terminator. -/
def Fits (K : Consts) (dmax : Nat) (t : String) : Prop :=
  0 < t.length ∧ t.length < dmax ∧ dmax ≤ K.RSIZE_MAX_STR ∧ ∀ c ∈ t.data, c ≠ Char.ofNat 0

/-- The owner message with label `label` reaches the reader: the three slots are present,
the declared size is within MOD_MAX_BUFF_SIZE, the value is copied into the reader block
and the parser is set up (lines 322-361). -/
def MessageArrives (K : Consts) (env : Env) (a : Args) (label : String) : Prop :=
  a.type = FDO_SI_SET_OSI ∧ a.module_message = some label ∧ a.module_val = true ∧
    ∃ sz, a.module_val_sz = some sz ∧ sz ≤ K.MOD_MAX_BUFF_SIZE ∧ env.memcpy_s_in sz = true ∧
      env.fdor_parser_init = true

/-- The value is the array of text items `args`, each no longer than `limit`, and every
call the argument loop makes to obtain them succeeds: the array length and start, the
vector and per-argument allocations, the clearing, the length and the text of each item. -/
def ArrayDecodes (K : Consts) (env : Env) (limit : Nat) (args : List String) : Prop :=
  env.fdor_array_length = some args.length ∧ env.fdor_start_array = true ∧
    env.ModuleAlloc 0 (K.sizeof_ptr * (args.length + 1)) = true ∧
    ∀ i t, args.get? i = some t →
      env.ModuleAlloc (i + 1) limit = true ∧ env.memset_s_instr i = true ∧
      env.fdor_string_length i = some t.length ∧ t.length ≤ limit ∧
      env.fdor_text_string i t.length = some t

/-- The text the reader delivers for array element `k` when asked for its length and then
for its content. -/
def element_text (env : Env) (k : Nat) : Option String :=
  (env.fdor_string_length k).bind (fun sz => env.fdor_text_string k sz)

/-- The C string a successful `strncpy_s(dest, dmax, instr[k], sz)` leaves in `dest`, `sz`
being the length the reader reported for element `k`. -/
def element_copy (env : Env) (k : Nat) : String :=
  match env.fdor_string_length k with
  | none => ""
  | some sz =>
    match env.fdor_text_string k sz with
    | none => ""
    | some t => String.mk ((cstr t).take sz)

/-- What one call from `s` with result `r` does to the offset: it keeps it within the
frozen size, and it moves it forward or leaves it, unless the call is a successful fetch
(the offset is back at 0) or the call fails and the `end:` block resets the transfer. -/
def offset_step (a : Args) (s : Session) (r : Ret) : Prop :=
  (s.file_seek_pos ≤ s.file_sz → r.state.file_seek_pos ≤ r.state.file_sz) ∧
  (s.file_seek_pos ≤ r.state.file_seek_pos ∨
    (a.type = FDO_SI_SET_OSI ∧ a.module_message = some "fetch" ∧
      r.result = FDO_SI_SUCCESS ∧ r.state.file_seek_pos = 0) ∨
    (r.result ≠ FDO_SI_SUCCESS ∧ r.state.file_seek_pos = 0 ∧ r.state.file_sz = 0 ∧
      r.state.hasmore = false ∧ r.state.write_type = FDO_SYS_MOD_MSG_NONE))

/-- A writer call that writes one item: it neither opens nor closes an array. -/
def WCall.is_item : WCall → Bool
  | WCall.start_array _ => false
  | WCall.end_array => false
  | _ => true

/-- The calls `cs` are one `start_array n`, then exactly `n` item writes, then one
`end_array`. -/
def well_bracketed (n : Nat) (cs : List WCall) : Bool :=
  match cs with
  | WCall.start_array m :: rest =>
    decide (m = n) && decide (rest.length = n + 1) && (rest.take n).all WCall.is_item &&
      decide (rest.drop n = [WCall.end_array])
  | _ => false

/-- The session `s` has no producer armed without a message kind: `hasmore` set implies
`write_type` is not NONE. -/
def Armed (s : Session) : Prop :=
  s.hasmore = true → s.write_type ≠ FDO_SYS_MOD_MSG_NONE

/-! ## Worked inputs -/

/-- Sample values for the constants of the header, for the worked inputs. -/
def K0 : Consts where
  MOD_MAX_BUFF_SIZE := 8192
  FILE_NAME_LEN := 150
  SVI_MAP_KEY_LEN := 32
  MOD_MAX_EXEC_ARG_LEN := 100
  MOD_MAX_FETCH_ARG_LEN := 100
  RSIZE_MAX_STR := 4096
  sizeof_ptr := 8

/-- A file system with one five-byte file. -/
def files0 (f : String) : List Nat :=
  if f = "a.bin" then [1, 2, 3, 4, 5] else []

/-- Collaborators that always succeed: the owner message decodes to the text items
`items` (or to their array), files are read from `files`. -/
def env_ok (files : String → List Nat) (items : List String) : Env where
  start_fdow := true
  start_fdor := true
  process_data_EXIT := true
  ModuleAlloc := fun _ _ => true
  memset_s_bin := fun _ => true
  memset_s_filename := true
  memset_s_svi_map_key := true
  memset_s_instr := fun _ => true
  memcpy_s_label := fun _ => true
  memcpy_s_out := fun _ => true
  memcpy_s_in := fun _ => true
  fdow_encoder_init := true
  fdow_write := fun _ _ => true
  fdow_encoded_length := fun w => some w.length
  fdor_parser_init := true
  fdor_string_length := fun i => (items.get? i).map String.length
  fdor_text_string := fun i _ => items.get? i
  fdor_byte_string := fun _ => some []
  fdor_next := true
  fdor_array_length := some items.length
  fdor_start_array := true
  fdor_end_array := true
  fdor_boolean := some false
  fdor_signed_int := some 0
  fdor_unsigned_int := some 0
  get_file_sz := fun f => (files f).length
  read_buffer_from_file_from_pos := fun f len pos => some (((files f).drop pos).take len)
  delete_old_file := fun _ => true
  process_data_WRITE := fun _ _ => true
  process_data_EXEC := fun _ _ => true
  process_data_EXEC_CB := fun _ _ =>
    { ok := true, iscomplete := false, resultcode := 0, waitsec := 1, exec_result := "" }
  process_data_STATUS_CB := fun _ _ _ => true

/-- GetDsi arguments with every slot present. -/
def args_get_dsi (mtu : Nat) : Args where
  type := FDO_SI_GET_DSI
  module_message := some ""
  module_val := true
  module_val_sz := some 0
  num_module_messages := false
  has_more := false
  is_more := false
  mtu := mtu

/-- SetOsi arguments carrying the label `label` and a value of `sz` bytes. -/
def args_set_osi (label : String) (sz : Nat) : Args where
  type := FDO_SI_SET_OSI
  module_message := some label
  module_val := true
  module_val_sz := some sz
  num_module_messages := false
  has_more := false
  is_more := false
  mtu := 1300

/-- A session in the middle of a fetch of the file `a.bin` (5 bytes, none sent yet). -/
def session_fetching : Session :=
  { Session.init with filename := "a.bin", svi_map_key := "k", file_sz := 5, hasmore := true,
                      write_type := FDO_SYS_MOD_MSG_DATA }

/-- The file system of `files0` after `a.bin` has shrunk to three bytes. -/
def files_shrunk (f : String) : List Nat :=
  if f = "a.bin" then [1, 2, 3] else []

/-- An owner message `["new.bin", x..x]` whose second argument has 101 characters. -/
def items_long_second : List String :=
  ["new.bin", String.mk (List.replicate 101 'x')]

/-- The collaborators of `env_ok files0 []`, except that every allocation fails. -/
def env_alloc_fails : Env :=
  { env_ok files0 [] with ModuleAlloc := fun _ _ => false }

/-- A session whose fetch of `a.bin` has delivered all five bytes: the terminator is due. -/
def session_eot : Session :=
  { session_fetching with file_seek_pos := 5, fetch_data_status := 0,
                          write_type := FDO_SYS_MOD_MSG_EOT }

/-- Collaborators of an owner status_cb message `[b, 0, 5]`, every call succeeding. -/
def env_status_cb (b : Bool) : Env :=
  { env_ok files0 ["", "", ""] with fdor_boolean := some b, fdor_unsigned_int := some 5 }

/-- The session after a successful fetch of `a.bin` with key `k`, from the initial session. -/
def session_after_fetch : Session :=
  (fdo_sys K0 (env_ok files0 ["a.bin", "k"]) (args_set_osi "fetch" 10) Session.init).state

/-- The session after a successful fetch of the empty file `empty.bin`. -/
def session_after_fetch_empty : Session :=
  (fdo_sys K0 (env_ok files0 ["empty.bin", "k"]) (args_set_osi "fetch" 14) Session.init).state

/-- Arguments of a query operation of kind `t`, with all three query slots present or all
three absent. -/
def args_query (t : fdo_sdk_si_type) (slot : Bool) : Args where
  type := t
  module_message := none
  module_val := false
  module_val_sz := none
  num_module_messages := slot
  has_more := slot
  is_more := slot
  mtu := 1300

/-- The collaborators of `env_ok files0 []`, except that every file read fails. -/
def env_read_fails : Env :=
  { env_ok files0 [] with read_buffer_from_file_from_pos := fun _ _ _ => none }

/-- The collaborators of `env_ok files0 []`, except that the writer rejects every call. -/
def env_encode_fails : Env :=
  { env_ok files0 [] with fdow_write := fun _ _ => false }

/-- The session after a successful fetch of `a.bin` (5 bytes, key `k`) from the initial
session, followed by one GetDsi round with `mtu = 5` in which the writer rejects the data
message. -/
def session_encode_failed : Session :=
  run K0 [(env_ok files0 ["a.bin", "k"], args_set_osi "fetch" 10),
    (env_encode_fails, args_get_dsi 5)] Session.init

/-- The session after the owner message `status_cb [true, 0, 5]`, from the initial
session. -/
def session_complete : Session :=
  (fdo_sys K0 (env_status_cb true) (args_set_osi "status_cb" 4) Session.init).state

/-- An owner message `status_cb` whose first element decodes to false and whose second
element fails to decode. -/
def env_status_cb_truncated : Env :=
  { env_status_cb false with fdor_signed_int := none }

/-! ## Lemmas on the control skeleton -/

theorem fdo_sys_of_goto_end {K : Consts} {env : Env} {a : Args} {s s1 : Session} {r : Result}
    {e f : Bool} {out : Output}
    (h : fdo_sys_switch K env a s = (Ctl.goto_end r e f, s1, out)) :
    fdo_sys K env a s = { result := r, state := end_block r e f s1, out := out } := by
  simp [fdo_sys, h]

theorem fdo_sys_of_ret {K : Consts} {env : Env} {a : Args} {s s1 : Session} {r : Result}
    {out : Output} (h : fdo_sys_switch K env a s = (Ctl.ret r, s1, out)) :
    fdo_sys K env a s = { result := r, state := s1, out := out } := by
  simp [fdo_sys, h]

theorem end_block_fail (r : Result) (e f : Bool) (s : Session) (h : r ≠ FDO_SI_SUCCESS) :
    (end_block r e f s).hasmore = false ∧ (end_block r e f s).write_type = FDO_SYS_MOD_MSG_NONE
    ∧ (end_block r e f s).file_sz = 0 ∧ (end_block r e f s).file_seek_pos = 0
    ∧ (end_block r e f s).fetch_data_status = 1 := by
  simp [end_block, h]

theorem end_block_fdow (r : Result) (e f : Bool) (s : Session) :
    (end_block r e f s).fdow = s.fdow := by
  unfold end_block
  simp only []
  split_ifs <;> rfl

theorem end_block_filename (r : Result) (e f : Bool) (s : Session) :
    (end_block r e f s).filename = s.filename := by
  unfold end_block
  simp only []
  split_ifs <;> rfl

theorem end_block_svi_map_key (r : Result) (e f : Bool) (s : Session) :
    (end_block r e f s).svi_map_key = s.svi_map_key := by
  unfold end_block
  simp only []
  split_ifs <;> rfl

theorem end_block_success_none (s : Session) :
    end_block FDO_SI_SUCCESS false false s = s := by
  simp [end_block]

/-! ## GetDsi preconditions -/

theorem get_dsi_pre_switch (env : Env) (a : Args) (s : Session)
    (hpre : a.mtu = 0 ∨ a.module_message = none ∨ a.module_val = false ∨ a.module_val_sz = none ∨
      s.hasmore = false ∨ s.write_type = FDO_SYS_MOD_MSG_NONE) :
    ∃ r s1, get_dsi env a s = (Ctl.goto_end r false false, s1, Output.start a) ∧
      r ≠ FDO_SI_SUCCESS ∧ (s1.fdow = [] ∨ s1.fdow = s.fdow) ∧
      ((a.mtu = 0 ∨ a.module_message = none ∨ a.module_val = false ∨ a.module_val_sz = none) →
        r = FDO_SI_CONTENT_ERROR) := by
  by_cases h1 : a.mtu = 0 ∨ a.module_message = none ∨ a.module_val = false ∨ a.module_val_sz = none
  · refine ⟨FDO_SI_CONTENT_ERROR, s, ?_, by decide, Or.inr rfl, fun _ => rfl⟩
    simp [get_dsi, h1]
  · have h2 : s.hasmore = false ∨ s.write_type = FDO_SYS_MOD_MSG_NONE := by tauto
    refine ⟨FDO_SI_INTERNAL_ERROR, { s with fdow := [] }, ?_, by decide, Or.inl rfl,
      fun h => absurd h h1⟩
    by_cases h3 : env.fdow_encoder_init = false
    · simp [get_dsi, h1, h3]
    · simp [get_dsi, h1, h3, h2]

/-- C10. A GetDsi call with mtu = 0 or with an absent label, value or size slot returns
ContentError; a GetDsi call with hasmore = false or write_type = NONE returns a result
other than Success. In all these cases nothing is written to the caller's buffers, the
writer block holds no new item, and afterwards hasmore = false and write_type = NONE. -/
theorem get_dsi_preconditions (K : Consts) (env : Env) (a : Args) (s : Session)
    (htype : a.type = FDO_SI_GET_DSI)
    (hpre : a.mtu = 0 ∨ a.module_message = none ∨ a.module_val = false ∨ a.module_val_sz = none ∨
      s.hasmore = false ∨ s.write_type = FDO_SYS_MOD_MSG_NONE) :
    ((a.mtu = 0 ∨ a.module_message = none ∨ a.module_val = false ∨ a.module_val_sz = none) →
        (fdo_sys K env a s).result = FDO_SI_CONTENT_ERROR) ∧
    (fdo_sys K env a s).result ≠ FDO_SI_SUCCESS ∧
    (fdo_sys K env a s).out = Output.start a ∧
    emitted (fdo_sys K env a s) = none ∧
    ((fdo_sys K env a s).state.fdow = [] ∨ (fdo_sys K env a s).state.fdow = s.fdow) ∧
    (fdo_sys K env a s).state.hasmore = false ∧
    (fdo_sys K env a s).state.write_type = FDO_SYS_MOD_MSG_NONE := by
  obtain ⟨r, s1, hsw, hr, hw, hc⟩ := get_dsi_pre_switch env a s hpre
  have hsw' : fdo_sys_switch K env a s = (Ctl.goto_end r false false, s1, Output.start a) := by
    simp [fdo_sys_switch, htype, hsw]
  rw [fdo_sys_of_goto_end hsw']
  have hf := end_block_fail r false false s1 hr
  refine ⟨hc, hr, rfl, ?_, ?_, hf.1, hf.2.1⟩
  · simp [emitted, hr]
  · simpa [end_block_fdow] using hw

/-- C10, worked input: GetDsi with mtu = 0 in the middle of a fetch. -/
theorem get_dsi_preconditions_witness :
    (fdo_sys K0 (env_ok files0 []) (args_get_dsi 0) session_fetching).result
        = FDO_SI_CONTENT_ERROR ∧
      (fdo_sys K0 (env_ok files0 []) (args_get_dsi 0) session_fetching).state.hasmore = false ∧
      (fdo_sys K0 (env_ok files0 []) (args_get_dsi 0) session_fetching).state.write_type
        = FDO_SYS_MOD_MSG_NONE :=
  have h := get_dsi_preconditions K0 (env_ok files0 []) (args_get_dsi 0) session_fetching rfl
    (Or.inl rfl)
  ⟨h.1 (Or.inl rfl), h.2.2.2.2.2.1, h.2.2.2.2.2.2⟩

theorem set_osi_empty_array_switch (K : Consts) (env : Env) (a : Args) (s : Session) (l : String)
    (sz : Nat) (hl : l = "exec" ∨ l = "exec_cb" ∨ l = "fetch")
    (hmsg : a.module_message = some l) (hval : a.module_val = true)
    (hsz : a.module_val_sz = some sz) (hle : sz ≤ K.MOD_MAX_BUFF_SIZE)
    (hcopy : env.memcpy_s_in sz = true) (hinit : env.fdor_parser_init = true)
    (hlen : env.fdor_array_length = some 0) :
    ∃ s1, set_osi K env a s = (Ctl.goto_end FDO_SI_CONTENT_ERROR false false, s1, Output.start a) ∧
      s1.filename = s.filename ∧ s1.svi_map_key = s.svi_map_key := by
  have hnot : ¬ (sz > K.MOD_MAX_BUFF_SIZE) := by omega
  rcases hl with h | h | h <;> subst h
  · exact ⟨{ s with exec_array_length := 0 }, by
      simp [set_osi, hmsg, hval, hsz, hnot, hcopy, hinit, set_osi_exec, hlen], rfl, rfl⟩
  · exact ⟨{ s with exec_array_length := 0 }, by
      simp [set_osi, hmsg, hval, hsz, hnot, hcopy, hinit, set_osi_exec, hlen], rfl, rfl⟩
  · exact ⟨{ s with fetch_array_length := 0 }, by
      simp [set_osi, hmsg, hval, hsz, hnot, hcopy, hinit, set_osi_fetch, hlen], rfl, rfl⟩

/-- C5. A SetOsi call with label exec, exec_cb or fetch whose value decodes to an array of
length 0 returns ContentError, and filename and svi_map_key keep their values. -/
theorem set_osi_empty_array (K : Consts) (env : Env) (a : Args) (s : Session) (l : String)
    (sz : Nat) (htype : a.type = FDO_SI_SET_OSI)
    (hl : l = "exec" ∨ l = "exec_cb" ∨ l = "fetch")
    (hmsg : a.module_message = some l) (hval : a.module_val = true)
    (hsz : a.module_val_sz = some sz) (hle : sz ≤ K.MOD_MAX_BUFF_SIZE)
    (hcopy : env.memcpy_s_in sz = true) (hinit : env.fdor_parser_init = true)
    (hlen : env.fdor_array_length = some 0) :
    (fdo_sys K env a s).result = FDO_SI_CONTENT_ERROR ∧
    (fdo_sys K env a s).state.filename = s.filename ∧
    (fdo_sys K env a s).state.svi_map_key = s.svi_map_key := by
  obtain ⟨s1, hsw, hf, hk⟩ :=
    set_osi_empty_array_switch K env a s l sz hl hmsg hval hsz hle hcopy hinit hlen
  have hsw' : fdo_sys_switch K env a s =
      (Ctl.goto_end FDO_SI_CONTENT_ERROR false false, s1, Output.start a) := by
    simp [fdo_sys_switch, htype, hsw]
  rw [fdo_sys_of_goto_end hsw']
  exact ⟨rfl, by rw [end_block_filename, hf], by rw [end_block_svi_map_key, hk]⟩

/-- C5, worked input: an exec_cb message carrying the empty array. -/
theorem set_osi_empty_array_witness :
    (fdo_sys K0 (env_ok files0 []) (args_set_osi "exec_cb" 1) session_fetching).result
        = FDO_SI_CONTENT_ERROR ∧
    (fdo_sys K0 (env_ok files0 []) (args_set_osi "exec_cb" 1) session_fetching).state.filename
        = "a.bin" ∧
    (fdo_sys K0 (env_ok files0 []) (args_set_osi "exec_cb" 1) session_fetching).state.svi_map_key
        = "k" :=
  set_osi_empty_array K0 (env_ok files0 []) (args_set_osi "exec_cb" 1) session_fetching "exec_cb" 1
    rfl (Or.inr (Or.inl rfl)) rfl rfl rfl (by decide) rfl rfl rfl

/-! ## Non-success results and the reset of the transient variables -/

/-- C6. At the failing input: SetOsi with the unknown label "bogus" (and likewise a
filedesc message whose name is empty) during a fetch returns ContentError through the
direct `return` of lines 342 and 377, so the `end:` block does not run and the whole
session, hasmore = true, write_type = DATA and file_sz = 5 included, is left as it was. -/
theorem early_return_skips_reset :
    fdo_sys K0 (env_ok files0 []) (args_set_osi "bogus" 1) session_fetching
        = ⟨FDO_SI_CONTENT_ERROR, session_fetching, Output.start (args_set_osi "bogus" 1)⟩ ∧
    fdo_sys K0 (env_ok files0 [""]) (args_set_osi "filedesc" 1) session_fetching
        = ⟨FDO_SI_CONTENT_ERROR, session_fetching, Output.start (args_set_osi "filedesc" 1)⟩ ∧
    session_fetching.hasmore = true ∧ session_fetching.file_sz = 5 ∧
    session_fetching.write_type = FDO_SYS_MOD_MSG_DATA := by
  decide

/-- C3. At the failing input: the file shrank from 5 to 3 bytes after the fetch. The
GetDsi round returns Success and emits eot with status 1, but hasmore is still true and
write_type is still DATA after the round. -/
theorem shrunk_file_round_keeps_hasmore :
    (fdo_sys K0 (env_ok files_shrunk []) (args_get_dsi 2) session_fetching).result
        = FDO_SI_SUCCESS ∧
    emitted (fdo_sys K0 (env_ok files_shrunk []) (args_get_dsi 2) session_fetching)
        = some ("eot", eot_val 1) ∧
    (fdo_sys K0 (env_ok files_shrunk []) (args_get_dsi 2) session_fetching).state.hasmore
        = true ∧
    (fdo_sys K0 (env_ok files_shrunk []) (args_get_dsi 2) session_fetching).state.write_type
        = FDO_SYS_MOD_MSG_DATA := by
  decide

/-! ## Frame lemmas for the argument loops -/

theorem SameButNames.same_refl (s : Session) : SameButNames s s := by
  simp [SameButNames]

theorem SameButNames.same_trans {s2 s1 s : Session} (h2 : SameButNames s2 s1)
    (h1 : SameButNames s1 s) : SameButNames s2 s := by
  unfold SameButNames at *
  rw [h2, h1]

theorem store_filename_frame (K : Consts) (env : Env) (src : String) (n : Nat) (s : Session) :
    SameButNames (store_filename K env src n s).2 s ∧
      (store_filename K env src n s).2.svi_map_key = s.svi_map_key := by
  unfold store_filename
  split_ifs
  · exact ⟨SameButNames.same_refl s, rfl⟩
  · split <;> exact ⟨by simp [SameButNames], rfl⟩

theorem store_svi_map_key_frame (K : Consts) (env : Env) (src : String) (n : Nat)
    (s : Session) :
    SameButNames (store_svi_map_key K env src n s).2 s ∧
      (store_svi_map_key K env src n s).2.filename = s.filename := by
  unfold store_svi_map_key
  split_ifs
  · exact ⟨SameButNames.same_refl s, rfl⟩
  · split <;> exact ⟨by simp [SameButNames], rfl⟩

theorem exec_item_frame (K : Consts) (env : Env) (len i : Nat) (s : Session) :
    SameButNames (exec_item K env len i s).2 s := by
  have hf := fun t n s => (store_filename_frame K env t n s).1
  have hk := fun t n s => (store_svi_map_key_frame K env t n s).1
  unfold exec_item
  repeat' first
    | split
    | (dsimp only; split)
  all_goals
    try dsimp only
    first
    | exact SameButNames.same_refl s
    | exact hf _ _ _
    | exact (hk _ _ _).same_trans (hf _ _ _)
    | exact hk _ _ _

theorem exec_loop_frame (K : Consts) (env : Env) (len : Nat) :
    ∀ (todo i : Nat) (s : Session) (argv : List String),
      SameButNames (exec_loop K env len todo i s argv).2.1 s := by
  intro todo
  induction todo with
  | zero => intro i s argv; simp [exec_loop, SameButNames.same_refl]
  | succ todo ih =>
    intro i s argv
    have h := exec_item_frame K env len i s
    unfold exec_loop
    split
    · rename_i heq; rw [heq] at h; exact h
    · rename_i heq; rw [heq] at h; exact (ih _ _ _).same_trans h

theorem fetch_item_frame (K : Consts) (env : Env) (i : Nat) (s : Session) :
    SameButNames (fetch_item K env i s).2 s := by
  have hf := fun t n s => (store_filename_frame K env t n s).1
  have hk := fun t n s => (store_svi_map_key_frame K env t n s).1
  unfold fetch_item
  repeat' first
    | split
    | (dsimp only; split)
  all_goals
    try dsimp only
    first
    | exact SameButNames.same_refl s
    | exact hf _ _ _
    | exact (hk _ _ _).same_trans (hf _ _ _)
    | exact hk _ _ _

theorem fetch_loop_frame (K : Consts) (env : Env) :
    ∀ (todo i : Nat) (s : Session), SameButNames (fetch_loop K env todo i s).2 s := by
  intro todo
  induction todo with
  | zero => intro i s; simp [fetch_loop, SameButNames.same_refl]
  | succ todo ih =>
    intro i s
    have h := fetch_item_frame K env i s
    unfold fetch_loop
    split
    · rename_i heq; rw [heq] at h; exact h
    · rename_i heq; rw [heq] at h; exact (ih _ _).same_trans h

/-! ## An argument longer than its limit -/

theorem exec_item_oversize (K : Consts) (env : Env) (len k m : Nat) (s : Session)
    (hm : env.fdor_string_length k = some m) (hgt : m > K.MOD_MAX_EXEC_ARG_LEN) :
    exec_item K env len k s = (none, s) := by
  unfold exec_item
  split_ifs <;> simp [hm, hgt]

theorem exec_item_filename (K : Consts) (env : Env) (len i : Nat) (s : Session) (hi : i ≠ 1) :
    (exec_item K env len i s).2.filename = s.filename := by
  have hk := fun t n s => (store_svi_map_key_frame K env t n s).2
  unfold exec_item
  simp only [hi, if_false]
  repeat' split
  all_goals
    first
    | rfl
    | exact hk _ _ _

theorem exec_item_svi_map_key (K : Consts) (env : Env) (len i : Nat) (s : Session)
    (hi : i ≠ len - 1) : (exec_item K env len i s).2.svi_map_key = s.svi_map_key := by
  have hf := fun t n s => (store_filename_frame K env t n s).2
  unfold exec_item
  simp only [hi, if_false]
  repeat' split
  all_goals
    first
    | rfl
    | exact hf _ _ _

theorem exec_loop_oversize (K : Consts) (env : Env) (len k m : Nat)
    (hm : env.fdor_string_length k = some m) (hgt : m > K.MOD_MAX_EXEC_ARG_LEN) :
    ∀ (todo i : Nat) (s : Session) (argv : List String), i ≤ k → k < i + todo →
      i + todo = len →
      (exec_loop K env len todo i s argv).1 = false ∧
      (exec_loop K env len todo i s argv).2.1.svi_map_key = s.svi_map_key ∧
      (k ≤ 1 → (exec_loop K env len todo i s argv).2.1.filename = s.filename) := by
  intro todo
  induction todo with
  | zero => intro i s argv h1 h2; omega
  | succ todo ih =>
    intro i s argv h1 h2 h3
    have hsvi : i ≠ k → (exec_item K env len i s).2.svi_map_key = s.svi_map_key :=
      fun hne => exec_item_svi_map_key K env len i s (by omega)
    have hfn : i ≠ k → k ≤ 1 → (exec_item K env len i s).2.filename = s.filename :=
      fun hne hk1 => exec_item_filename K env len i s (by omega)
    unfold exec_loop
    by_cases hik : i = k
    · subst hik
      rw [exec_item_oversize K env len i m s hm hgt]
      exact ⟨rfl, rfl, fun _ => rfl⟩
    · have hsvi' := hsvi hik
      have hfn' := hfn hik
      split
      · rename_i heq
        rw [heq] at hsvi' hfn'
        exact ⟨rfl, hsvi', hfn'⟩
      · rename_i txt s1 heq
        rw [heq] at hsvi' hfn'
        have := ih (i + 1) s1 (argv ++ [txt]) (by omega) (by omega) (by omega)
        exact ⟨this.1, this.2.1.trans hsvi', fun hk1 => (this.2.2 hk1).trans (hfn' hk1)⟩

theorem fetch_item_oversize (K : Consts) (env : Env) (k m : Nat) (s : Session)
    (hm : env.fdor_string_length k = some m) (hgt : m > K.MOD_MAX_FETCH_ARG_LEN) :
    fetch_item K env k s = (false, s) := by
  unfold fetch_item
  split_ifs <;> simp [hm, hgt]

theorem fetch_item_filename (K : Consts) (env : Env) (i : Nat) (s : Session) (hi : i ≠ 0) :
    (fetch_item K env i s).2.filename = s.filename := by
  have hk := fun t n s => (store_svi_map_key_frame K env t n s).2
  unfold fetch_item
  simp only [hi, if_false]
  repeat' split
  all_goals
    first
    | rfl
    | exact hk _ _ _

theorem fetch_item_svi_map_key (K : Consts) (env : Env) (i : Nat) (s : Session)
    (hi : i ≠ 1) : (fetch_item K env i s).2.svi_map_key = s.svi_map_key := by
  have hf := fun t n s => (store_filename_frame K env t n s).2
  unfold fetch_item
  simp only [hi, if_false]
  repeat' split
  all_goals
    first
    | rfl
    | exact hf _ _ _

theorem fetch_loop_oversize (K : Consts) (env : Env) (k m : Nat)
    (hm : env.fdor_string_length k = some m) (hgt : m > K.MOD_MAX_FETCH_ARG_LEN) :
    ∀ (todo i : Nat) (s : Session), i ≤ k → k < i + todo →
      (fetch_loop K env todo i s).1 = false ∧
      (k = 0 → (fetch_loop K env todo i s).2.filename = s.filename) ∧
      (k ≤ 1 → (fetch_loop K env todo i s).2.svi_map_key = s.svi_map_key) := by
  intro todo
  induction todo with
  | zero => intro i s h1 h2; omega
  | succ todo ih =>
    intro i s h1 h2
    have hsvi : i ≠ k → k ≤ 1 → (fetch_item K env i s).2.svi_map_key = s.svi_map_key :=
      fun hne hk1 => fetch_item_svi_map_key K env i s (by omega)
    have hfn : i ≠ k → k = 0 → (fetch_item K env i s).2.filename = s.filename :=
      fun hne hk0 => fetch_item_filename K env i s (by omega)
    unfold fetch_loop
    by_cases hik : i = k
    · subst hik
      rw [fetch_item_oversize K env i m s hm hgt]
      exact ⟨rfl, fun _ => rfl, fun _ => rfl⟩
    · have hsvi' := hsvi hik
      have hfn' := hfn hik
      split
      · rename_i heq
        rw [heq] at hsvi' hfn'
        exact ⟨rfl, hfn', hsvi'⟩
      · rename_i s1 heq
        rw [heq] at hsvi' hfn'
        have := ih (i + 1) s1 (by omega) (by omega)
        exact ⟨this.1, fun hk0 => (this.2.1 hk0).trans (hfn' hk0),
          fun hk1 => (this.2.2 hk1).trans (hsvi' hk1)⟩

theorem set_osi_exec_oversize (K : Consts) (env : Env) (b : Bool) (s : Session) (out : Output)
    (n k m : Nat) (hlen : env.fdor_array_length = some n) (hk : k < n)
    (hm : env.fdor_string_length k = some m) (hgt : m > K.MOD_MAX_EXEC_ARG_LEN) :
    ∃ e s1, set_osi_exec K env b s out = (Ctl.goto_end FDO_SI_INTERNAL_ERROR e false, s1, out) ∧
      s1.svi_map_key = s.svi_map_key ∧ (k ≤ 1 → s1.filename = s.filename) := by
  have hn : n ≠ 0 := by omega
  have hloop := exec_loop_oversize K env n k m hm hgt n 0 { s with exec_array_length := n } []
    (by omega) (by omega) (by omega)
  unfold set_osi_exec
  simp only [hlen, hn, if_false]
  by_cases h1 : env.fdor_start_array = false
  · simp only [h1, if_true]
    exact ⟨false, _, rfl, rfl, fun _ => rfl⟩
  · by_cases h2 : env.ModuleAlloc 0 (K.sizeof_ptr * (n + 1)) = false
    · simp only [h1, h2, if_true, if_false]
      exact ⟨false, _, rfl, rfl, fun _ => rfl⟩
    · simp only [h1, h2, if_false]
      rcases hres : exec_loop K env n n 0 { s with exec_array_length := n } [] with ⟨ok, s1, argv⟩
      rw [hres] at hloop
      obtain ⟨hok, hsvi, hfn⟩ := hloop
      simp only at hok hsvi hfn
      subst hok
      exact ⟨true, s1, rfl, hsvi, hfn⟩

theorem set_osi_fetch_oversize (K : Consts) (env : Env) (s : Session) (out : Output)
    (n k m : Nat) (hlen : env.fdor_array_length = some n) (hk : k < n)
    (hm : env.fdor_string_length k = some m) (hgt : m > K.MOD_MAX_FETCH_ARG_LEN) :
    ∃ f s1, set_osi_fetch K env s out = (Ctl.goto_end FDO_SI_INTERNAL_ERROR false f, s1, out) ∧
      (k = 0 → s1.filename = s.filename) ∧ (k ≤ 1 → s1.svi_map_key = s.svi_map_key) := by
  have hn : n ≠ 0 := by omega
  have hloop := fetch_loop_oversize K env k m hm hgt n 0 { s with fetch_array_length := n }
    (by omega) (by omega)
  unfold set_osi_fetch
  simp only [hlen, hn, if_false]
  by_cases h1 : env.fdor_start_array = false
  · simp only [h1, if_true]
    exact ⟨false, _, rfl, fun _ => rfl, fun _ => rfl⟩
  · by_cases h2 : env.ModuleAlloc 0 (K.sizeof_ptr * (n + 1)) = false
    · simp only [h1, h2, if_true, if_false]
      exact ⟨false, _, rfl, fun _ => rfl, fun _ => rfl⟩
    · simp only [h1, h2, if_false]
      rcases hres : fetch_loop K env n 0 { s with fetch_array_length := n } with ⟨ok, s1⟩
      rw [hres] at hloop
      obtain ⟨hok, hfn, hsvi⟩ := hloop
      simp only at hok hsvi hfn
      subst hok
      exact ⟨true, s1, rfl, hfn, hsvi⟩

theorem set_osi_oversize (K : Consts) (env : Env) (a : Args) (s : Session) (l : String)
    (n k m : Nat) (hl : l = "exec" ∨ l = "exec_cb" ∨ l = "fetch")
    (hmsg : a.module_message = some l)
    (hlen : env.fdor_array_length = some n) (hk : k < n)
    (hm : env.fdor_string_length k = some m) (hgt : m > arg_limit K l) :
    ∃ r e f s1, set_osi K env a s = (Ctl.goto_end r e f, s1, Output.start a) ∧
      r ≠ FDO_SI_SUCCESS ∧
      (a.module_val = true → (∃ sz, a.module_val_sz = some sz ∧ sz ≤ K.MOD_MAX_BUFF_SIZE) →
        r = FDO_SI_INTERNAL_ERROR) ∧
      (l ≠ "fetch" → s1.svi_map_key = s.svi_map_key ∧ (k ≤ 1 → s1.filename = s.filename)) ∧
      (l = "fetch" → (k = 0 → s1.filename = s.filename) ∧
        (k ≤ 1 → s1.svi_map_key = s.svi_map_key)) := by
  unfold set_osi
  simp only [hmsg]
  cases hv : a.module_val with
  | false =>
    exact ⟨FDO_SI_CONTENT_ERROR, false, false, s, rfl, by decide, by simp,
      fun _ => ⟨rfl, fun _ => rfl⟩, fun _ => ⟨fun _ => rfl, fun _ => rfl⟩⟩
  | true =>
    cases hs : a.module_val_sz with
    | none =>
      exact ⟨FDO_SI_CONTENT_ERROR, false, false, s, rfl, by decide, by simp,
        fun _ => ⟨rfl, fun _ => rfl⟩, fun _ => ⟨fun _ => rfl, fun _ => rfl⟩⟩
    | some sz =>
      dsimp only
      by_cases hbig : sz > K.MOD_MAX_BUFF_SIZE
      · refine ⟨FDO_SI_CONTENT_ERROR, false, false, s, by simp [hbig], by decide, ?_,
          fun _ => ⟨rfl, fun _ => rfl⟩, fun _ => ⟨fun _ => rfl, fun _ => rfl⟩⟩
        rintro - ⟨sz', h1, h2⟩
        simp only [Option.some.injEq] at h1
        omega
      · by_cases hc : env.memcpy_s_in sz = false
        · refine ⟨FDO_SI_INTERNAL_ERROR, false, false, s, ?_, by decide, fun _ _ => rfl,
            fun _ => ⟨rfl, fun _ => rfl⟩, fun _ => ⟨fun _ => rfl, fun _ => rfl⟩⟩
          rcases hl with h | h | h <;> subst h <;> simp [hbig, hc]
        · by_cases hp : env.fdor_parser_init = false
          · refine ⟨FDO_SI_INTERNAL_ERROR, false, false, s, ?_, by decide, fun _ _ => rfl,
              fun _ => ⟨rfl, fun _ => rfl⟩, fun _ => ⟨fun _ => rfl, fun _ => rfl⟩⟩
            rcases hl with h | h | h <;> subst h <;> simp [hbig, hc, hp]
          · rcases hl with h | h | h <;> subst h
            · obtain ⟨e, s1, h1, h2, h3⟩ := set_osi_exec_oversize K env true
                s (Output.start a) n k m hlen hk hm (by simpa [arg_limit] using hgt)
              exact ⟨FDO_SI_INTERNAL_ERROR, e, false, s1, by simp [hbig, hc, hp, h1], by decide,
                fun _ _ => rfl, fun _ => ⟨h2, h3⟩, fun h => absurd h (by decide)⟩
            · obtain ⟨e, s1, h1, h2, h3⟩ := set_osi_exec_oversize K env
                false s (Output.start a) n k m hlen hk hm
                (by simpa [arg_limit] using hgt)
              exact ⟨FDO_SI_INTERNAL_ERROR, e, false, s1, by simp [hbig, hc, hp, h1], by decide,
                fun _ _ => rfl, fun _ => ⟨h2, h3⟩, fun h => absurd h (by decide)⟩
            · obtain ⟨f, s1, h1, h2, h3⟩ := set_osi_fetch_oversize K env s (Output.start a)
                n k m hlen hk hm (by simpa [arg_limit] using hgt)
              exact ⟨FDO_SI_INTERNAL_ERROR, false, f, s1, by simp [hbig, hc, hp, h1], by decide,
                fun _ _ => rfl, fun h => absurd rfl h, fun _ => ⟨h2, h3⟩⟩

/-- C7 (as the code has it). An exec, exec_cb or fetch message in which the argument at
position k is longer than its limit fails. Arguments decoded before it are already
committed: filename keeps its value only when k is at most 1 (exec, exec_cb) or k is 0
(fetch), and svi_map_key keeps its value for exec and exec_cb at every k and for fetch
when k is at most 1. -/
theorem oversize_argument_commits (K : Consts) (env : Env) (a : Args) (s : Session)
    (l : String) (n k m : Nat) (htype : a.type = FDO_SI_SET_OSI)
    (hl : l = "exec" ∨ l = "exec_cb" ∨ l = "fetch") (hmsg : a.module_message = some l)
    (hlen : env.fdor_array_length = some n) (hk : k < n)
    (hm : env.fdor_string_length k = some m) (hgt : m > arg_limit K l) :
    (fdo_sys K env a s).result ≠ FDO_SI_SUCCESS ∧
    (l ≠ "fetch" → (fdo_sys K env a s).state.svi_map_key = s.svi_map_key ∧
      (k ≤ 1 → (fdo_sys K env a s).state.filename = s.filename)) ∧
    (l = "fetch" → (k = 0 → (fdo_sys K env a s).state.filename = s.filename) ∧
      (k ≤ 1 → (fdo_sys K env a s).state.svi_map_key = s.svi_map_key)) := by
  obtain ⟨r, e, f, s1, hsw, hr, -, h1, h2⟩ :=
    set_osi_oversize K env a s l n k m hl hmsg hlen hk hm hgt
  have hsw' : fdo_sys_switch K env a s = (Ctl.goto_end r e f, s1, Output.start a) := by
    simp [fdo_sys_switch, htype, hsw]
  rw [fdo_sys_of_goto_end hsw']
  simp only [end_block_filename, end_block_svi_map_key]
  exact ⟨hr, h1, h2⟩

/-- C7, worked input: an exec message whose second argument has 101 characters. -/
theorem oversize_argument_commits_witness :
    (fdo_sys K0 (env_ok files0 items_long_second) (args_set_osi "exec" 120)
        session_fetching).result ≠ FDO_SI_SUCCESS ∧
    (fdo_sys K0 (env_ok files0 items_long_second) (args_set_osi "exec" 120)
        session_fetching).state.svi_map_key = "k" ∧
    (fdo_sys K0 (env_ok files0 items_long_second) (args_set_osi "exec" 120)
        session_fetching).state.filename = "a.bin" :=
  have h := oversize_argument_commits K0 (env_ok files0 items_long_second)
    (args_set_osi "exec" 120) session_fetching "exec" 2 1 101 rfl (Or.inl rfl) rfl rfl
    (by decide) (by decide) (by decide)
  ⟨h.1, (h.2.1 (by decide)).1, (h.2.1 (by decide)).2 (by decide)⟩

/-- C7, counterexample: a fetch message `["new.bin", x..x]` whose second argument has 101
characters (limit 100) fails, yet filename has already been replaced by "new.bin". -/
theorem oversize_argument_not_atomic :
    (fdo_sys K0 (env_ok files0 items_long_second) (args_set_osi "fetch" 120)
        session_fetching).result = FDO_SI_INTERNAL_ERROR ∧
    session_fetching.filename = "a.bin" ∧
    (fdo_sys K0 (env_ok files0 items_long_second) (args_set_osi "fetch" 120)
        session_fetching).state.filename = "new.bin" := by
  decide

/-! ## Classification of malformed owner messages -/

theorem set_osi_result_of_switch {K : Consts} {env : Env} {a : Args} {s s1 : Session}
    {c : Ctl} {out : Output} (htype : a.type = FDO_SI_SET_OSI)
    (h : set_osi K env a s = (c, s1, out)) :
    (fdo_sys K env a s).result = (match c with
      | Ctl.goto_end r _ _ => r
      | Ctl.ret r => r) := by
  have hsw : fdo_sys_switch K env a s = (c, s1, out) := by
    simp [fdo_sys_switch, htype, h]
  cases c with
  | goto_end r e f => rw [fdo_sys_of_goto_end hsw]
  | ret r => rw [fdo_sys_of_ret hsw]

/-- C8 (as the code has it). With the three slots present, a SetOsi call returns
ContentError when the declared size exceeds MOD_MAX_BUFF_SIZE, when the label is none of
the six kinds, when a filedesc name is empty and when an exec, exec_cb or fetch array is
empty; it returns InternalError when a status_cb array has a length other than 3 and when
an exec, exec_cb or fetch argument is longer than its limit. -/
theorem set_osi_error_classes (K : Consts) (env : Env) (a : Args) (s : Session) (l : String)
    (sz : Nat) (htype : a.type = FDO_SI_SET_OSI) (hmsg : a.module_message = some l)
    (hval : a.module_val = true) (hsz : a.module_val_sz = some sz) :
    (sz > K.MOD_MAX_BUFF_SIZE → (fdo_sys K env a s).result = FDO_SI_CONTENT_ERROR) ∧
    (¬ recognised l → (fdo_sys K env a s).result = FDO_SI_CONTENT_ERROR) ∧
    (sz ≤ K.MOD_MAX_BUFF_SIZE → env.memcpy_s_in sz = true → env.fdor_parser_init = true →
      (l = "filedesc" → env.fdor_string_length 0 = some 0 →
        (fdo_sys K env a s).result = FDO_SI_CONTENT_ERROR) ∧
      (l = "exec" ∨ l = "exec_cb" ∨ l = "fetch" → env.fdor_array_length = some 0 →
        (fdo_sys K env a s).result = FDO_SI_CONTENT_ERROR) ∧
      (l = "status_cb" → ∀ n, env.fdor_array_length = some n → n ≠ 3 →
        (fdo_sys K env a s).result = FDO_SI_INTERNAL_ERROR)) ∧
    (sz ≤ K.MOD_MAX_BUFF_SIZE → l = "exec" ∨ l = "exec_cb" ∨ l = "fetch" →
      ∀ n k m, env.fdor_array_length = some n → k < n → env.fdor_string_length k = some m →
        m > arg_limit K l → (fdo_sys K env a s).result = FDO_SI_INTERNAL_ERROR) := by
  refine ⟨?_, ?_, ?_, ?_⟩
  · intro hbig
    have h : set_osi K env a s = (Ctl.goto_end FDO_SI_CONTENT_ERROR false false, s,
        Output.start a) := by
      simp [set_osi, hmsg, hval, hsz, hbig]
    rw [set_osi_result_of_switch htype h]
  · intro hrec
    simp only [recognised, not_or] at hrec
    obtain ⟨h1, h2, h3, h4, h5, h6⟩ := hrec
    by_cases hbig : sz > K.MOD_MAX_BUFF_SIZE
    · have h : set_osi K env a s = (Ctl.goto_end FDO_SI_CONTENT_ERROR false false, s,
          Output.start a) := by
        simp [set_osi, hmsg, hval, hsz, hbig]
      rw [set_osi_result_of_switch htype h]
    · have h : set_osi K env a s = (Ctl.ret FDO_SI_CONTENT_ERROR, s, Output.start a) := by
        simp [set_osi, hmsg, hval, hsz, hbig, h1, h2, h3, h4, h5, h6]
      rw [set_osi_result_of_switch htype h]
  · intro hle hcopy hinit
    have hnot : ¬ (sz > K.MOD_MAX_BUFF_SIZE) := by omega
    refine ⟨?_, ?_, ?_⟩
    · intro hl h0
      subst hl
      have h : set_osi K env a s = (Ctl.ret FDO_SI_CONTENT_ERROR, s, Output.start a) := by
        simp [set_osi, hmsg, hval, hsz, hnot, hcopy, hinit, set_osi_filedesc, h0]
      rw [set_osi_result_of_switch htype h]
    · intro hl h0
      exact (set_osi_empty_array K env a s l sz htype hl hmsg hval hsz hle hcopy hinit h0).1
    · intro hl n hn hne
      subst hl
      have h : set_osi K env a s = (Ctl.goto_end FDO_SI_INTERNAL_ERROR false false, s,
          Output.start a) := by
        simp [set_osi, hmsg, hval, hsz, hnot, hcopy, hinit, set_osi_status_cb, hn, hne]
      rw [set_osi_result_of_switch htype h]
  · intro hle hl n k m hn hk hm hgt
    obtain ⟨r, e, f, s1, hsw, -, hr, -, -⟩ :=
      set_osi_oversize K env a s l n k m hl hmsg hn hk hm hgt
    rw [set_osi_result_of_switch htype hsw]
    exact hr hval ⟨sz, hsz, hle⟩

/-- C8, worked input: a status_cb message carrying an array of two items. -/
theorem set_osi_error_classes_witness :
    (fdo_sys K0 (env_ok files0 ["a", "b"]) (args_set_osi "status_cb" 3) Session.init).result
      = FDO_SI_INTERNAL_ERROR :=
  (set_osi_error_classes K0 (env_ok files0 ["a", "b"]) (args_set_osi "status_cb" 3)
    Session.init "status_cb" 3 rfl rfl rfl rfl).2.2.1 (by decide) rfl rfl |>.2.2 rfl 2 rfl
    (by decide)

/-- C8, counterexample: a status_cb message whose array has length 2 is answered with
InternalError, not ContentError. -/
theorem status_cb_wrong_arity_not_content_error :
    (env_ok files0 ["a", "b"]).fdor_array_length = some 2 ∧
    (fdo_sys K0 (env_ok files0 ["a", "b"]) (args_set_osi "status_cb" 3) Session.init).result
      ≠ FDO_SI_CONTENT_ERROR := by
  decide

/-! ## The producer helpers -/

theorem fdow_calls_fst (env : Env) (cs : List WCall) :
    ∀ w, (fdow_calls env w cs).1 = accepts env w cs := by
  induction cs with
  | nil => intro w; rfl
  | cons c cs ih =>
    intro w
    unfold fdow_calls accepts
    cases h : env.fdow_write w c <;> simp [ih]

theorem fdow_calls_snd (env : Env) (cs : List WCall) :
    ∀ w, accepts env w cs = true → (fdow_calls env w cs).2 = w ++ cs := by
  induction cs with
  | nil => intro w _; simp [fdow_calls]
  | cons c cs ih =>
    intro w h
    unfold accepts at h
    simp only [Bool.and_eq_true] at h
    unfold fdow_calls
    simp [h.1, ih _ h.2]

theorem write_eot_eq (env : Env) (mm : Option String) (st : Int) (s : Session) :
    (write_eot env mm st s = (true, some "eot", s.fdow ++ eot_val st) ∧ mm ≠ none ∧
        env.memcpy_s_label "eot" = true ∧ accepts env s.fdow (eot_val st) = true) ∨
      (write_eot env mm st s).1 = false := by
  unfold write_eot
  cases mm with
  | none => simp
  | some l =>
    cases hl : env.memcpy_s_label "eot" with
    | false => simp
    | true =>
      cases hacc : accepts env s.fdow (eot_val st) with
      | false => right; simp [fdow_calls_fst, hacc]
      | true => left; simp [fdow_calls_fst, hacc, fdow_calls_snd]

theorem write_status_cb_eq (env : Env) (mm : Option String) (s : Session) :
    (write_status_cb env mm s = (true, some "status_cb", s.fdow ++ status_cb_val s) ∧
        mm ≠ none ∧ env.memcpy_s_label "status_cb" = true ∧
        accepts env s.fdow (status_cb_val s) = true) ∨
      (write_status_cb env mm s).1 = false := by
  unfold write_status_cb
  cases mm with
  | none => simp
  | some l =>
    cases hl : env.memcpy_s_label "status_cb" with
    | false => simp
    | true =>
      cases hacc : accepts env s.fdow (status_cb_val s) with
      | false => right; simp [fdow_calls_fst, hacc]
      | true => left; simp [fdow_calls_fst, hacc, fdow_calls_snd]

theorem write_data_eq (env : Env) (mm : Option String) (bytes : List Nat) (s : Session) :
    (write_data env mm (some bytes) s
          = (true, some "data", s.fdow ++ data_val bytes s.svi_map_key) ∧ mm ≠ none ∧
        env.memcpy_s_label "data" = true ∧
        accepts env s.fdow (data_val bytes s.svi_map_key) = true) ∨
      (write_data env mm (some bytes) s).1 = false := by
  unfold write_data
  cases mm with
  | none => simp
  | some l =>
    cases hl : env.memcpy_s_label "data" with
    | false => simp
    | true =>
      cases hacc : accepts env s.fdow (data_val bytes s.svi_map_key) with
      | false => right; simp [fdow_calls_fst, hacc]
      | true => left; simp [fdow_calls_fst, hacc, fdow_calls_snd]

theorem write_eot_ok (env : Env) (mm : Option String) (st : Int) (s : Session)
    (hmm : mm ≠ none) (hl : env.memcpy_s_label "eot" = true)
    (hacc : accepts env s.fdow (eot_val st) = true) :
    write_eot env mm st s = (true, some "eot", s.fdow ++ eot_val st) := by
  simp [write_eot, hmm, hl, fdow_calls_fst, hacc, fdow_calls_snd]

theorem write_status_cb_ok (env : Env) (mm : Option String) (s : Session)
    (hmm : mm ≠ none) (hl : env.memcpy_s_label "status_cb" = true)
    (hacc : accepts env s.fdow (status_cb_val s) = true) :
    write_status_cb env mm s = (true, some "status_cb", s.fdow ++ status_cb_val s) := by
  simp [write_status_cb, hmm, hl, fdow_calls_fst, hacc, fdow_calls_snd]

theorem write_data_ok (env : Env) (mm : Option String) (bytes : List Nat) (s : Session)
    (hmm : mm ≠ none) (hl : env.memcpy_s_label "data" = true)
    (hacc : accepts env s.fdow (data_val bytes s.svi_map_key) = true) :
    write_data env mm (some bytes) s
      = (true, some "data", s.fdow ++ data_val bytes s.svi_map_key) := by
  simp [write_data, hmm, hl, fdow_calls_fst, hacc, fdow_calls_snd]

theorem accepts_of_all (env : Env) (h : ∀ w c, env.fdow_write w c = true) (cs : List WCall) :
    ∀ w, accepts env w cs = true := by
  induction cs with
  | nil => intro w; rfl
  | cons c cs ih => intro w; simp [accepts, h, ih]

/-! ## Error propagation in GetDsi -/

theorem get_dsi_tail_cases (env : Env) (r : Result) (s : Session) (out : Output) :
    (∃ n, env.fdow_encoded_length s.fdow = some n ∧ env.memcpy_s_out n = true ∧
      get_dsi_tail env r s out = (Ctl.goto_end FDO_SI_SUCCESS false false, s,
        { out with module_val_sz := some n, module_val := some s.fdow })) ∨
    (∃ out1, get_dsi_tail env r s out = (Ctl.goto_end r false false, s, out1) ∧
      out1.module_val = out.module_val ∧ out1.module_message = out.module_message) := by
  unfold get_dsi_tail
  cases h : env.fdow_encoded_length s.fdow with
  | none => right; exact ⟨out, rfl, rfl, rfl⟩
  | some n =>
    cases h2 : env.memcpy_s_out n with
    | false =>
      right
      exact ⟨{ out with module_val_sz := some n }, by simp [h2], rfl, rfl⟩
    | true =>
      left
      exact ⟨n, rfl, h2, by simp [h2]⟩

theorem get_dsi_tail_success (env : Env) (s : Session) (out : Output) :
    ∃ out1, get_dsi_tail env FDO_SI_SUCCESS s out
      = (Ctl.goto_end FDO_SI_SUCCESS false false, s, out1) := by
  rcases get_dsi_tail_cases env FDO_SI_SUCCESS s out with ⟨n, -, -, h⟩ | ⟨out1, h, -, -⟩
  · exact ⟨_, h⟩
  · exact ⟨_, h⟩

theorem get_dsi_data_eot_success (env : Env) (a : Args) (s : Session) (out : Output) :
    ∃ s1 out1, get_dsi_data_eot env a s out
      = (Ctl.goto_end FDO_SI_SUCCESS false false, s1, out1) := by
  unfold get_dsi_data_eot
  split
  · exact ⟨_, _, rfl⟩
  · obtain ⟨out1, h⟩ := get_dsi_tail_success env _ _
    exact ⟨_, _, h⟩

theorem get_dsi_data_success (env : Env) (a : Args) (s : Session) (out : Output) :
    ∃ s1 out1, get_dsi_data env a s out
      = (Ctl.goto_end FDO_SI_SUCCESS false false, s1, out1) := by
  unfold get_dsi_data
  dsimp only
  repeat' split
  all_goals
    first
    | exact ⟨_, _, rfl⟩
    | exact get_dsi_data_eot_success env a _ out
    | exact get_dsi_data_eot_success env a _ _
    | (obtain ⟨out1, h⟩ := get_dsi_tail_success env _ _
       exact ⟨_, _, h⟩)

theorem fdo_sys_get_dsi {K : Consts} {env : Env} {a : Args} {s s1 : Session} {r : Result}
    {e f : Bool} {out : Output} (htype : a.type = FDO_SI_GET_DSI)
    (h : get_dsi env a s = (Ctl.goto_end r e f, s1, out)) :
    fdo_sys K env a s = { result := r, state := end_block r e f s1, out := out } :=
  fdo_sys_of_goto_end (by simp [fdo_sys_switch, htype, h])

theorem fdo_sys_set_osi {K : Consts} {env : Env} {a : Args} {s s1 : Session} {r : Result}
    {e f : Bool} {out : Output} (htype : a.type = FDO_SI_SET_OSI)
    (h : set_osi K env a s = (Ctl.goto_end r e f, s1, out)) :
    fdo_sys K env a s = { result := r, state := end_block r e f s1, out := out } :=
  fdo_sys_of_goto_end (by simp [fdo_sys_switch, htype, h])

/-- The arms STATUS_CB and EOT of GetDsi, once the preconditions hold: the helper `w`
writes the message `val` under the label `label`, then the tail runs. -/
theorem get_dsi_one_shot (K : Consts) (env : Env) (a : Args) (s : Session)
    (label : String) (val : List WCall)
    (wr : Bool × Option String × List WCall)
    (htype : a.type = FDO_SI_GET_DSI)
    (hg : get_dsi env a s =
      match wr with
      | (false, mm, w) =>
        (Ctl.goto_end FDO_SI_INTERNAL_ERROR false false, { s with fdow := w },
          { Output.start a with module_message := mm })
      | (true, mm, w) =>
        get_dsi_tail env FDO_SI_INTERNAL_ERROR { s with fdow := w, hasmore := false }
          { Output.start a with module_message := mm })
    (hwr : (wr = (true, some label, [] ++ val) ∧ a.module_message ≠ none ∧
        env.memcpy_s_label label = true ∧ accepts env [] val = true) ∨ wr.1 = false)
    (hres : (fdo_sys K env a s).result = FDO_SI_SUCCESS) :
    env.memcpy_s_label label = true ∧ accepts env [] val = true ∧
      ∃ n, env.fdow_encoded_length val = some n ∧ env.memcpy_s_out n = true ∧
        fdo_sys K env a s = ⟨FDO_SI_SUCCESS, { s with fdow := val, hasmore := false },
          { Output.start a with module_message := some label, module_val_sz := some n,
                                module_val := some val }⟩ := by
  rcases hwr with ⟨hwr, -, hl, hacc⟩ | hfalse
  · subst hwr
    simp only [List.nil_append] at hg
    rcases get_dsi_tail_cases env FDO_SI_INTERNAL_ERROR
        { s with fdow := val, hasmore := false }
        { Output.start a with module_message := some label } with ⟨n, h1, h2, h3⟩ | ⟨o, h3, -, -⟩
    · rw [h3] at hg
      refine ⟨hl, hacc, n, h1, h2, ?_⟩
      rw [fdo_sys_get_dsi htype hg, end_block_success_none]
    · rw [h3] at hg
      rw [fdo_sys_get_dsi htype hg] at hres
      simp at hres
  · obtain ⟨ok, mm, w⟩ := wr
    simp only at hfalse
    subst hfalse
    simp only at hg
    rw [fdo_sys_get_dsi htype hg] at hres
    simp at hres

/-- C9 (as the code has it). In the STATUS_CB and EOT arms every failing step gives a
result other than Success: when GetDsi returns Success there, the encoder was set up, the
label was copied, the writer accepted every call of one complete eot or status_cb
message, the encoded length was obtained, stored in the size slot and that many bytes
copied out. The DATA arm sets result to Success on entry (line 213), so a round that
passed the precondition checks returns Success whatever fails afterwards. -/
theorem get_dsi_error_propagation (K : Consts) (env : Env) (a : Args) (s : Session)
    (htype : a.type = FDO_SI_GET_DSI) :
    (s.write_type ≠ FDO_SYS_MOD_MSG_DATA → (fdo_sys K env a s).result = FDO_SI_SUCCESS →
      env.fdow_encoder_init = true ∧
      ∃ label val n,
        ((s.write_type = FDO_SYS_MOD_MSG_EOT ∧ label = "eot" ∧
            val = eot_val s.fetch_data_status) ∨
          (s.write_type = FDO_SYS_MOD_MSG_STATUS_CB ∧ label = "status_cb" ∧
            val = status_cb_val s)) ∧
        env.memcpy_s_label label = true ∧ accepts env [] val = true ∧
        env.fdow_encoded_length val = some n ∧ env.memcpy_s_out n = true ∧
        (fdo_sys K env a s).state.fdow = val ∧
        (fdo_sys K env a s).out.module_message = some label ∧
        (fdo_sys K env a s).out.module_val = some val ∧
        (fdo_sys K env a s).out.module_val_sz = some n) ∧
    (s.write_type = FDO_SYS_MOD_MSG_DATA → s.hasmore = true → a.mtu ≠ 0 →
      a.module_message ≠ none → a.module_val = true → a.module_val_sz ≠ none →
      env.fdow_encoder_init = true → (fdo_sys K env a s).result = FDO_SI_SUCCESS) := by
  constructor
  · intro hwt hres
    by_cases hpre : a.mtu = 0 ∨ a.module_message = none ∨ a.module_val = false ∨
        a.module_val_sz = none ∨ s.hasmore = false ∨ s.write_type = FDO_SYS_MOD_MSG_NONE
    · obtain ⟨r, s1, hsw, hr, -, -⟩ := get_dsi_pre_switch env a s hpre
      rw [fdo_sys_get_dsi htype hsw] at hres
      exact absurd hres hr
    · simp only [not_or] at hpre
      obtain ⟨hmtu, hmm, hval, hsz, hhm, hnone⟩ := hpre
      have hpre' : ¬ (a.mtu = 0 ∨ a.module_message.isNone = true ∨ a.module_val = false ∨
          a.module_val_sz.isNone = true) := by
        simp [hmtu, hmm, hval, hsz]
      cases henc : env.fdow_encoder_init with
      | false =>
        have hg : get_dsi env a s = (Ctl.goto_end FDO_SI_INTERNAL_ERROR false false,
            { s with fdow := [] }, Output.start a) := by
          unfold get_dsi
          simp only [hpre', henc, if_false, if_true]
        rw [fdo_sys_get_dsi htype hg] at hres
        simp at hres
      | true =>
        refine ⟨rfl, ?_⟩
        have hst : ¬ (s.hasmore = false ∨ s.write_type = FDO_SYS_MOD_MSG_NONE) := by
          simp [hhm, hnone]
        cases hw : s.write_type with
        | FDO_SYS_MOD_MSG_NONE => exact absurd hw hnone
        | FDO_SYS_MOD_MSG_DATA => exact absurd hw hwt
        | FDO_SYS_MOD_MSG_EOT =>
          have hg : get_dsi env a s =
              match write_eot env a.module_message s.fetch_data_status { s with fdow := [] } with
              | (false, mm, w) =>
                (Ctl.goto_end FDO_SI_INTERNAL_ERROR false false, { s with fdow := w },
                  { Output.start a with module_message := mm })
              | (true, mm, w) =>
                get_dsi_tail env FDO_SI_INTERNAL_ERROR { s with fdow := w, hasmore := false }
                  { Output.start a with module_message := mm } := by
            simp [get_dsi, hmtu, hmm, hval, hsz, henc, hhm, hw]
          obtain ⟨hl, hacc, n, h1, h2, h3⟩ := get_dsi_one_shot K env a s "eot"
            (eot_val s.fetch_data_status) _ htype hg
            (write_eot_eq env a.module_message s.fetch_data_status { s with fdow := [] }) hres
          refine ⟨"eot", eot_val s.fetch_data_status, n, Or.inl ⟨rfl, rfl, rfl⟩, hl, hacc, h1,
            h2, ?_, ?_, ?_, ?_⟩ <;> rw [h3]
        | FDO_SYS_MOD_MSG_STATUS_CB =>
          have hg : get_dsi env a s =
              match write_status_cb env a.module_message { s with fdow := [] } with
              | (false, mm, w) =>
                (Ctl.goto_end FDO_SI_INTERNAL_ERROR false false, { s with fdow := w },
                  { Output.start a with module_message := mm })
              | (true, mm, w) =>
                get_dsi_tail env FDO_SI_INTERNAL_ERROR { s with fdow := w, hasmore := false }
                  { Output.start a with module_message := mm } := by
            simp [get_dsi, hmtu, hmm, hval, hsz, henc, hhm, hw]
          obtain ⟨hl, hacc, n, h1, h2, h3⟩ := get_dsi_one_shot K env a s "status_cb"
            (status_cb_val s) _ htype hg
            (write_status_cb_eq env a.module_message { s with fdow := [] }) hres
          refine ⟨"status_cb", status_cb_val s, n, Or.inr ⟨rfl, rfl, rfl⟩, hl, hacc, h1,
            h2, ?_, ?_, ?_, ?_⟩ <;> rw [h3]
  · intro hw hhm hmtu hmm hval hsz henc
    have hpre' : ¬ (a.mtu = 0 ∨ a.module_message.isNone = true ∨ a.module_val = false ∨
        a.module_val_sz.isNone = true) := by
      simp [hmtu, hmm, hval, hsz]
    have hst : ¬ (s.hasmore = false ∨ s.write_type = FDO_SYS_MOD_MSG_NONE) := by
      simp [hhm, hw]
    obtain ⟨s1, out1, hd⟩ := get_dsi_data_success env a { s with fdow := [] } (Output.start a)
    have hg : get_dsi env a s = (Ctl.goto_end FDO_SI_SUCCESS false false, s1, out1) := by
      rw [← hd]
      simp [get_dsi, hmtu, hmm, hval, hsz, henc, hhm, hw]
    rw [fdo_sys_get_dsi htype hg]

/-- C9, worked input: an eot round that succeeds, and a data round whose allocation fails. -/
theorem get_dsi_error_propagation_witness :
    ((env_ok files0 []).fdow_encoder_init = true ∧
      ∃ label val n,
        ((session_eot.write_type = FDO_SYS_MOD_MSG_EOT ∧ label = "eot" ∧
            val = eot_val session_eot.fetch_data_status) ∨
          (session_eot.write_type = FDO_SYS_MOD_MSG_STATUS_CB ∧ label = "status_cb" ∧
            val = status_cb_val session_eot)) ∧
        (env_ok files0 []).memcpy_s_label label = true ∧
        accepts (env_ok files0 []) [] val = true ∧
        (env_ok files0 []).fdow_encoded_length val = some n ∧
        (env_ok files0 []).memcpy_s_out n = true ∧
        (fdo_sys K0 (env_ok files0 []) (args_get_dsi 2) session_eot).state.fdow = val ∧
        (fdo_sys K0 (env_ok files0 []) (args_get_dsi 2) session_eot).out.module_message
          = some label ∧
        (fdo_sys K0 (env_ok files0 []) (args_get_dsi 2) session_eot).out.module_val
          = some val ∧
        (fdo_sys K0 (env_ok files0 []) (args_get_dsi 2) session_eot).out.module_val_sz
          = some n) ∧
    (fdo_sys K0 env_alloc_fails (args_get_dsi 2) session_fetching).result = FDO_SI_SUCCESS :=
  ⟨(get_dsi_error_propagation K0 (env_ok files0 []) (args_get_dsi 2) session_eot rfl).1
      (by decide) (by decide),
    (get_dsi_error_propagation K0 env_alloc_fails (args_get_dsi 2) session_fetching rfl).2
      rfl rfl (by decide) (by decide) rfl (by decide) rfl⟩

/-- C9, counterexample: in a data round the allocation of the chunk buffer fails, yet
GetDsi returns Success; no message was encoded and the size slot was not set. -/
theorem data_round_alloc_failure_is_success :
    env_alloc_fails.ModuleAlloc 0 2 = false ∧
    (fdo_sys K0 env_alloc_fails (args_get_dsi 2) session_fetching).result = FDO_SI_SUCCESS ∧
    (fdo_sys K0 env_alloc_fails (args_get_dsi 2) session_fetching).state.fdow = [] ∧
    (fdo_sys K0 env_alloc_fails (args_get_dsi 2) session_fetching).out.module_val = none ∧
    (fdo_sys K0 env_alloc_fails (args_get_dsi 2) session_fetching).out.module_val_sz = none := by
  decide

/-! ## Frame of the SetOsi arms that do not arm the producer -/

theorem Frame.frame_refl (s : Session) : Frame s s :=
  ⟨rfl, rfl, rfl, rfl, rfl⟩

theorem Frame.frame_trans {s2 s1 s : Session} (h2 : Frame s2 s1) (h1 : Frame s1 s) : Frame s2 s :=
  ⟨h2.1.trans h1.1, h2.2.1.trans h1.2.1, h2.2.2.1.trans h1.2.2.1,
    h2.2.2.2.1.trans h1.2.2.2.1, h2.2.2.2.2.trans h1.2.2.2.2⟩

theorem SameButNames.frame {s1 s : Session} (h : SameButNames s1 s) : Frame s1 s := by
  unfold SameButNames at h
  rw [h]
  exact ⟨rfl, rfl, rfl, rfl, rfl⟩

theorem set_osi_filedesc_frame (K : Consts) (env : Env) (s : Session) (out : Output) :
    Frame (set_osi_filedesc K env s out).2.1 s := by
  have hf : ∀ t n b s1, store_filename K env t n s = (b, s1) → Frame s1 s := by
    intro t n b s1 h
    have h1 := (store_filename_frame K env t n s).1.frame
    rw [h] at h1
    exact h1
  unfold set_osi_filedesc
  repeat' split
  all_goals
    first
    | exact Frame.frame_refl s
    | exact hf _ _ _ _ ‹_›

theorem set_osi_write_state (env : Env) (s : Session) (out : Output) :
    (set_osi_write env s out).2.1 = s := by
  unfold set_osi_write
  repeat' split
  all_goals rfl

theorem set_osi_exec_frame (K : Consts) (env : Env) (s : Session) (out : Output) :
    Frame (set_osi_exec K env true s out).2.1 s := by
  unfold set_osi_exec
  split
  · exact Frame.frame_refl s
  · rename_i len _
    have h0 : Frame { s with exec_array_length := len } s := ⟨rfl, rfl, rfl, rfl, rfl⟩
    have hl : ∀ b s1 argv,
        exec_loop K env len len 0 { s with exec_array_length := len } [] = (b, s1, argv) →
        Frame s1 s := by
      intro b s1 argv h
      have h1 := (exec_loop_frame K env len len 0 { s with exec_array_length := len } []).frame
      rw [h] at h1
      exact h1.frame_trans h0
    simp only [if_true]
    repeat' split
    all_goals
      first
      | exact h0
      | exact hl _ _ _ ‹_›

theorem set_osi_frame (K : Consts) (env : Env) (a : Args) (s : Session)
    (h1 : a.module_message ≠ some "exec_cb") (h2 : a.module_message ≠ some "fetch")
    (h3 : a.module_message ≠ some "status_cb") : Frame (set_osi K env a s).2.1 s := by
  unfold set_osi
  dsimp only
  split
  · rename_i msg sz hmsg _ _
    rw [hmsg] at h1 h2 h3
    simp only [ne_eq, Option.some.injEq] at h1 h2 h3
    split_ifs with c1 c2 c3 c4 c5 c6 c7
    all_goals
      first
      | exact Frame.frame_refl s
      | exact set_osi_filedesc_frame K env s _
      | (rw [set_osi_write_state]
         exact Frame.frame_refl s)
      | skip
    have hexec : msg = "exec" := by
      rcases c7 with h | h
      · exact h
      · exact absurd h h1
    subst hexec
    exact set_osi_exec_frame K env s _
  · exact Frame.frame_refl s

theorem end_block_idle (r : Result) (e f : Bool) (s : Session) (h : Idle s) :
    Idle (end_block r e f s) := by
  by_cases hr : r = FDO_SI_SUCCESS
  · subst hr
    unfold Idle end_block at *
    dsimp only
    split_ifs <;> simp [h]
  · exact Or.inl (end_block_fail r e f s hr).1

theorem Frame.idle {s1 s : Session} (hf : Frame s1 s) (h : Idle s) : Idle s1 := by
  unfold Idle at *
  rw [hf.1, hf.2.1]
  exact h

/-- A call that is not a SetOsi round with label exec_cb, fetch or status_cb leaves an idle
producer idle. -/
theorem idle_step (K : Consts) (env : Env) (a : Args) (s : Session) (h : Idle s)
    (ha : ¬ arms_producer a) : Idle (fdo_sys K env a s).state := by
  have hsimple : (∃ r e f s1 out, fdo_sys_switch K env a s = (Ctl.goto_end r e f, s1, out) ∧
      Frame s1 s) → Idle (fdo_sys K env a s).state := by
    rintro ⟨r, e, f, s1, out, hsw, hfr⟩
    rw [fdo_sys_of_goto_end hsw]
    exact end_block_idle r e f s1 (hfr.idle h)
  have hfd : Frame { s with fdow := [] } s := ⟨rfl, rfl, rfl, rfl, rfl⟩
  cases htype : a.type with
  | FDO_SI_START =>
    apply hsimple
    unfold fdo_sys_switch
    simp only [htype]
    split_ifs
    · exact ⟨_, _, _, _, _, rfl, Frame.frame_refl s⟩
    · exact ⟨_, _, _, _, _, rfl, hfd⟩
    · exact ⟨_, _, _, _, _, rfl, hfd⟩
  | FDO_SI_END =>
    apply hsimple
    unfold fdo_sys_switch
    simp only [htype]
    split_ifs <;> exact ⟨_, _, _, _, _, rfl, Frame.frame_refl s⟩
  | FDO_SI_FAILURE =>
    apply hsimple
    unfold fdo_sys_switch
    simp only [htype]
    split_ifs <;> exact ⟨_, _, _, _, _, rfl, Frame.frame_refl s⟩
  | FDO_SI_HAS_MORE_DSI =>
    apply hsimple
    unfold fdo_sys_switch
    simp only [htype]
    split_ifs <;> exact ⟨_, _, _, _, _, rfl, Frame.frame_refl s⟩
  | FDO_SI_IS_MORE_DSI =>
    apply hsimple
    unfold fdo_sys_switch
    simp only [htype]
    split_ifs <;> exact ⟨_, _, _, _, _, rfl, Frame.frame_refl s⟩
  | FDO_SI_GET_DSI_COUNT =>
    apply hsimple
    unfold fdo_sys_switch
    simp only [htype]
    split_ifs <;> exact ⟨_, _, _, _, _, rfl, Frame.frame_refl s⟩
  | FDO_SI_GET_DSI =>
    obtain ⟨r, s1, hsw, hr, -, -⟩ := get_dsi_pre_switch env a s
      (Or.inr (Or.inr (Or.inr (Or.inr h))))
    rw [fdo_sys_get_dsi htype hsw]
    exact Or.inl (end_block_fail r false false s1 hr).1
  | FDO_SI_SET_OSI =>
    have hne : a.module_message ≠ some "exec_cb" ∧ a.module_message ≠ some "fetch" ∧
        a.module_message ≠ some "status_cb" := by
      unfold arms_producer at ha
      simp only [htype, true_and, not_or] at ha
      exact ha
    have hfr := set_osi_frame K env a s hne.1 hne.2.1 hne.2.2
    rcases hsw : set_osi K env a s with ⟨c, s1, out⟩
    rw [hsw] at hfr
    have hsw' : fdo_sys_switch K env a s = (c, s1, out) := by
      simp [fdo_sys_switch, htype, hsw]
    cases c with
    | goto_end r e f =>
      rw [fdo_sys_of_goto_end hsw']
      exact end_block_idle r e f s1 (hfr.idle h)
    | ret r =>
      rw [fdo_sys_of_ret hsw']
      exact hfr.idle h
  | FDO_SI_OTHER =>
    apply hsimple
    unfold fdo_sys_switch
    simp only [htype]
    exact ⟨_, _, _, _, _, rfl, Frame.frame_refl s⟩

theorem idle_run (K : Consts) (ops : List (Env × Args)) :
    ∀ s, Idle s → (∀ p ∈ ops, ¬ arms_producer p.2) → Idle (run K ops s) := by
  induction ops with
  | nil => intro s h _; exact h
  | cons p ops ih =>
    intro s h hall
    obtain ⟨env, a⟩ := p
    unfold run
    exact ih _ (idle_step K env a s h (hall (env, a) (List.mem_cons_self _ _)))
      (fun q hq => hall q (List.mem_cons_of_mem _ hq))

/-! ## The owner status_cb message -/

theorem set_osi_status_cb_cases (env : Env) (s : Session) (out : Output) :
    (∃ b rc ws s1, env.fdor_boolean = some b ∧ env.fdor_signed_int = some rc ∧
        env.fdor_unsigned_int = some ws ∧
        set_osi_status_cb env s out = (Ctl.goto_end FDO_SI_SUCCESS false false, s1, out) ∧
        s1.status_cb_iscomplete = b ∧ s1.status_cb_resultcode = rc ∧
        s1.status_cb_waitsec = ws ∧ s1.hasmore = !b ∧
        s1.write_type = (if b then FDO_SYS_MOD_MSG_NONE else FDO_SYS_MOD_MSG_STATUS_CB)) ∨
      (∃ s1, set_osi_status_cb env s out
        = (Ctl.goto_end FDO_SI_INTERNAL_ERROR false false, s1, out)) := by
  unfold set_osi_status_cb
  cases h0 : env.fdor_array_length with
  | none => exact Or.inr ⟨_, rfl⟩
  | some n =>
    by_cases h1 : n ≠ 3
    · exact Or.inr ⟨s, by simp [h1]⟩
    · cases h2 : env.fdor_start_array with
      | false => exact Or.inr ⟨s, by simp [h1]⟩
      | true =>
        cases hb : env.fdor_boolean with
        | none => exact Or.inr ⟨s, by simp [h1]⟩
        | some b =>
          cases hrc : env.fdor_signed_int with
          | none => exact Or.inr ⟨_, by simp [h1]; rfl⟩
          | some rc =>
            cases hws : env.fdor_unsigned_int with
            | none => exact Or.inr ⟨_, by simp [h1]; rfl⟩
            | some ws =>
              cases h3 : env.fdor_end_array with
              | false => exact Or.inr ⟨_, by simp [h1]; rfl⟩
              | true =>
                cases h4 : env.process_data_STATUS_CB b rc ws with
                | false =>
                  right
                  cases b <;> exact ⟨_, by simp [h1, h4]; rfl⟩
                | true =>
                  left
                  cases b <;>
                    exact ⟨_, rc, ws, _, rfl, rfl, rfl, by simp [h1, h4]; rfl, rfl, rfl, rfl,
                      rfl, rfl⟩

theorem set_osi_status_cb_label (K : Consts) (env : Env) (a : Args) (s : Session)
    (hmsg : a.module_message = some "status_cb") :
    set_osi K env a s = set_osi_status_cb env s (Output.start a) ∨
      ∃ r, r ≠ FDO_SI_SUCCESS ∧
        set_osi K env a s = (Ctl.goto_end r false false, s, Output.start a) := by
  unfold set_osi
  simp only [hmsg]
  cases hv : a.module_val with
  | false => exact Or.inr ⟨FDO_SI_CONTENT_ERROR, by decide, rfl⟩
  | true =>
    cases hs : a.module_val_sz with
    | none => exact Or.inr ⟨FDO_SI_CONTENT_ERROR, by decide, rfl⟩
    | some sz =>
      dsimp only
      by_cases hbig : sz > K.MOD_MAX_BUFF_SIZE
      · exact Or.inr ⟨FDO_SI_CONTENT_ERROR, by decide, by simp [hbig]⟩
      · cases hc : env.memcpy_s_in sz with
        | false => exact Or.inr ⟨FDO_SI_INTERNAL_ERROR, by decide, by simp [hbig]⟩
        | true =>
          cases hp : env.fdor_parser_init with
          | false => exact Or.inr ⟨FDO_SI_INTERNAL_ERROR, by decide, by simp [hbig]⟩
          | true => exact Or.inl (by simp [hbig])

/-- C4 (as the code has it). A successfully processed owner status_cb message
[isComplete, resultCode, waitSec] stores the three decoded values. With isComplete = true
it leaves write_type = NONE and hasmore = false, and every later GetDsi call returns a
non-success result as long as no exec_cb, fetch or status_cb message has been processed in
between; with isComplete = false it leaves hasmore = true and write_type = STATUS_CB. -/
theorem status_cb_effect (K : Consts) (env : Env) (a : Args) (s : Session) (b : Bool)
    (rc : Int) (ws : Nat) (htype : a.type = FDO_SI_SET_OSI)
    (hmsg : a.module_message = some "status_cb")
    (hb : env.fdor_boolean = some b) (hrc : env.fdor_signed_int = some rc)
    (hws : env.fdor_unsigned_int = some ws)
    (hres : (fdo_sys K env a s).result = FDO_SI_SUCCESS) :
    (fdo_sys K env a s).state.status_cb_iscomplete = b ∧
    (fdo_sys K env a s).state.status_cb_resultcode = rc ∧
    (fdo_sys K env a s).state.status_cb_waitsec = ws ∧
    (b = true →
      (fdo_sys K env a s).state.write_type = FDO_SYS_MOD_MSG_NONE ∧
      (fdo_sys K env a s).state.hasmore = false ∧
      ∀ (ops : List (Env × Args)) (env1 : Env) (a1 : Args),
        (∀ p ∈ ops, ¬ arms_producer p.2) → a1.type = FDO_SI_GET_DSI →
        (fdo_sys K env1 a1 (run K ops (fdo_sys K env a s).state)).result ≠ FDO_SI_SUCCESS) ∧
    (b = false →
      (fdo_sys K env a s).state.hasmore = true ∧
      (fdo_sys K env a s).state.write_type = FDO_SYS_MOD_MSG_STATUS_CB) := by
  rcases set_osi_status_cb_label K env a s hmsg with hsw | ⟨r, hr, hsw⟩
  · rcases set_osi_status_cb_cases env s (Output.start a) with
      ⟨b1, rc1, ws1, s1, hb1, hrc1, hws1, heq, h1, h2, h3, h4, h5⟩ | ⟨s1, heq⟩
    · rw [heq] at hsw
      rw [hb] at hb1
      rw [hrc] at hrc1
      rw [hws] at hws1
      simp only [Option.some.injEq] at hb1 hrc1 hws1
      subst hb1 hrc1 hws1
      have hfs : fdo_sys K env a s = ⟨FDO_SI_SUCCESS, s1, Output.start a⟩ := by
        rw [fdo_sys_set_osi htype hsw, end_block_success_none]
      rw [hfs]
      refine ⟨h1, h2, h3, ?_, ?_⟩
      · intro hbt
        subst hbt
        have hwt : s1.write_type = FDO_SYS_MOD_MSG_NONE := by simpa using h5
        refine ⟨hwt, by simpa using h4, ?_⟩
        intro ops env1 a1 hops ha1
        have hidle : Idle (run K ops s1) := idle_run K ops s1 (Or.inr hwt) hops
        obtain ⟨r, s2, hg, hr, -, -⟩ := get_dsi_pre_switch env1 a1 (run K ops s1)
          (Or.inr (Or.inr (Or.inr (Or.inr hidle))))
        rw [fdo_sys_get_dsi ha1 hg]
        exact hr
      · intro hbf
        subst hbf
        exact ⟨by simpa using h4, by simpa using h5⟩
    · rw [heq] at hsw
      rw [fdo_sys_set_osi htype hsw] at hres
      simp at hres
  · rw [fdo_sys_set_osi htype hsw] at hres
    exact absurd hres hr

/-- C4, worked input: the owner message [true, 0, 5] in the middle of a fetch. -/
theorem status_cb_effect_witness :
    (fdo_sys K0 (env_status_cb true) (args_set_osi "status_cb" 4)
        session_fetching).state.status_cb_waitsec = 5 ∧
    (fdo_sys K0 (env_status_cb true) (args_set_osi "status_cb" 4)
        session_fetching).state.write_type = FDO_SYS_MOD_MSG_NONE ∧
    (fdo_sys K0 (env_ok files0 []) (args_get_dsi 2)
        (run K0 [(env_ok files0 ["f"], args_set_osi "filedesc" 2)]
          (fdo_sys K0 (env_status_cb true) (args_set_osi "status_cb" 4)
            session_fetching).state)).result ≠ FDO_SI_SUCCESS :=
  have h := status_cb_effect K0 (env_status_cb true) (args_set_osi "status_cb" 4)
    session_fetching true 0 5 rfl rfl rfl rfl rfl (by decide)
  ⟨h.2.2.1, (h.2.2.2.1 rfl).1,
    (h.2.2.2.1 rfl).2.2 [(env_ok files0 ["f"], args_set_osi "filedesc" 2)]
      (env_ok files0 []) (args_get_dsi 2)
      (by
        intro p hp
        simp only [List.mem_singleton] at hp
        subst hp
        unfold arms_producer
        decide)
      rfl⟩

/-- C4, counterexample: after the owner message [true, 0, 5] a second status_cb message
[false, 0, 5] is processed, and the GetDsi call that follows returns Success although no
exec_cb or fetch message has been processed. -/
theorem status_cb_false_rearms_producer :
    (fdo_sys K0 (env_status_cb true) (args_set_osi "status_cb" 4) Session.init).result
      = FDO_SI_SUCCESS ∧
    (fdo_sys K0 (env_ok files0 []) (args_get_dsi 100)
        (run K0 [(env_status_cb false, args_set_osi "status_cb" 4)]
          (fdo_sys K0 (env_status_cb true) (args_set_osi "status_cb" 4)
            Session.init).state)).result = FDO_SI_SUCCESS := by
  decide

/-! ## The rounds of a fetch transfer -/

theorem fill_buffer_slice (B : List Nat) (p len : Nat) (h : p + len ≤ B.length) :
    fill_buffer len ((B.drop p).take len) = (B.drop p).take len := by
  unfold fill_buffer
  have hl : ((B.drop p).take len).length = len := by
    simp only [List.length_take, List.length_drop]
    omega
  rw [List.take_append_of_le_length (by omega), List.take_of_length_le (by omega)]

theorem take_min_drop (B : List Nat) (p m : Nat) :
    (B.drop p).take (if B.length - p > m then m else B.length - p) = (B.drop p).take m := by
  split_ifs with h
  · rfl
  · rw [List.take_of_length_le (by simp), List.take_of_length_le (by simp; omega)]

theorem write_data_good {env : Env} (hw : ∀ w c, env.fdow_write w c = true)
    (hl : ∀ l, env.memcpy_s_label l = true) {mm : Option String} (hmm : mm ≠ none)
    (bytes : List Nat) (t : Session) :
    write_data env mm (some bytes) t
      = (true, some "data", t.fdow ++ data_val bytes t.svi_map_key) :=
  write_data_ok env mm bytes t hmm (hl _) (accepts_of_all env hw _ _)

theorem write_eot_good {env : Env} (hw : ∀ w c, env.fdow_write w c = true)
    (hl : ∀ l, env.memcpy_s_label l = true) {mm : Option String} (hmm : mm ≠ none)
    (st : Int) (t : Session) :
    write_eot env mm st t = (true, some "eot", t.fdow ++ eot_val st) :=
  write_eot_ok env mm st t hmm (hl _) (accepts_of_all env hw _ _)

theorem get_dsi_data_round (K : Consts) (env : Env) (a : Args) (s : Session) (B : List Nat)
    (ha : GoodGetDsiArgs a) (hg : GoodRound env s.filename B) (hhm : s.hasmore = true)
    (hwt : s.write_type = FDO_SYS_MOD_MSG_DATA) (hsz : s.file_sz = B.length)
    (hpos : s.file_seek_pos < B.length) :
    ∃ n, fdo_sys K env a s = ⟨FDO_SI_SUCCESS,
      { s with fdow := data_val ((B.drop s.file_seek_pos).take a.mtu) s.svi_map_key,
               file_seek_pos := s.file_seek_pos +
                 (if B.length - s.file_seek_pos > a.mtu then a.mtu
                  else B.length - s.file_seek_pos),
               hasmore := true, fetch_data_status := 0,
               write_type := if B.length ≤ s.file_seek_pos + a.mtu then FDO_SYS_MOD_MSG_EOT
                 else FDO_SYS_MOD_MSG_DATA },
      { Output.start a with
          module_message := some "data", module_val_sz := some n,
          module_val := some (data_val ((B.drop s.file_seek_pos).take a.mtu) s.svi_map_key) }⟩ := by
  obtain ⟨henc, hfsz, halloc, hmemset, hread, hlabel, hwrite, hlen⟩ := hg
  obtain ⟨htype, hmtu, hmm, hval, hszs⟩ := ha
  have hmm' : a.module_message ≠ none := by
    intro h; rw [h] at hmm; simp at hmm
  have hszs' : a.module_val_sz ≠ none := by
    intro h; rw [h] at hszs; simp at hszs
  have hmtu' : a.mtu ≠ 0 := by omega
  obtain ⟨n, hn1, hn2⟩ := hlen (data_val ((B.drop s.file_seek_pos).take a.mtu) s.svi_map_key)
  refine ⟨n, ?_⟩
  obtain ⟨fdow, filename, svi, seek, fsz, fds, eal, fal, ic, rc, ws, er, hm, im, wt⟩ := s
  dsimp only at hhm hwt hsz hpos hfsz hread hn1 ⊢
  subst hhm hwt hsz
  have hLpos : 0 < (if B.length - seek > a.mtu then a.mtu else B.length - seek) := by
    split_ifs <;> omega
  have hLle : seek + (if B.length - seek > a.mtu then a.mtu else B.length - seek)
      ≤ B.length := by
    split_ifs <;> omega
  have hbuf := fill_buffer_slice B seek _ hLle
  rw [take_min_drop] at hbuf
  have hcond : ¬ (B.length = 0 ∨ ¬ B.length = env.get_file_sz filename ∨
      seek > B.length) := by
    rw [hfsz]
    omega
  have hlast : (B.length = seek + if B.length - seek > a.mtu then a.mtu else B.length - seek)
      ↔ B.length ≤ seek + a.mtu := by
    split_ifs <;> omega
  have hgd : get_dsi env a
      { fdow := fdow, filename := filename, svi_map_key := svi, file_seek_pos := seek,
        file_sz := B.length, fetch_data_status := fds, exec_array_length := eal,
        fetch_array_length := fal, status_cb_iscomplete := ic, status_cb_resultcode := rc,
        status_cb_waitsec := ws, exec_result := er, hasmore := true, ismore := im,
        write_type := FDO_SYS_MOD_MSG_DATA } = (Ctl.goto_end FDO_SI_SUCCESS false false,
      { fdow := data_val ((B.drop seek).take a.mtu) svi, filename := filename,
        svi_map_key := svi,
        file_seek_pos := seek + (if B.length - seek > a.mtu then a.mtu else B.length - seek),
        file_sz := B.length, fetch_data_status := 0, exec_array_length := eal,
        fetch_array_length := fal, status_cb_iscomplete := ic, status_cb_resultcode := rc,
        status_cb_waitsec := ws, exec_result := er, hasmore := true, ismore := im,
        write_type := if B.length ≤ seek + a.mtu then FDO_SYS_MOD_MSG_EOT
                 else FDO_SYS_MOD_MSG_DATA },
      { Output.start a with
          module_message := some "data", module_val_sz := some n,
          module_val := some (data_val ((B.drop seek).take a.mtu) svi) }) := by
    simp only [get_dsi, hmtu', hmm, hval, hszs, henc, get_dsi_data, hcond,
      halloc 0 _ hLpos, hmemset _ hLpos, hread, take_min_drop, hbuf, if_false,
      Option.isNone_iff_eq_none, hmm', hszs', false_or, or_self, Bool.true_eq_false,
      reduceCtorEq, ne_eq, List.nil_append, get_dsi_tail,
      write_data_good hwrite hlabel hmm', hlast]
    split_ifs <;> simp [hn1, hn2]
  rw [fdo_sys_get_dsi htype hgd, end_block_success_none]

theorem get_dsi_eot_round (K : Consts) (env : Env) (a : Args) (s : Session) (f : String)
    (B : List Nat) (ha : GoodGetDsiArgs a) (hg : GoodRound env f B) (hhm : s.hasmore = true)
    (hwt : s.write_type = FDO_SYS_MOD_MSG_EOT) :
    ∃ n, fdo_sys K env a s = ⟨FDO_SI_SUCCESS,
      { s with fdow := eot_val s.fetch_data_status, hasmore := false },
      { Output.start a with
          module_message := some "eot", module_val_sz := some n,
          module_val := some (eot_val s.fetch_data_status) }⟩ := by
  obtain ⟨henc, -, -, -, -, hlabel, hwrite, hlen⟩ := hg
  obtain ⟨htype, hmtu, hmm, hval, hszs⟩ := ha
  have hmm' : a.module_message ≠ none := by
    intro h; rw [h] at hmm; simp at hmm
  have hszs' : a.module_val_sz ≠ none := by
    intro h; rw [h] at hszs; simp at hszs
  have hmtu' : a.mtu ≠ 0 := by omega
  obtain ⟨n, hn1, hn2⟩ := hlen (eot_val s.fetch_data_status)
  refine ⟨n, ?_⟩
  obtain ⟨fdow, filename, svi, seek, fsz, fds, eal, fal, ic, rc, ws, er, hm, im, wt⟩ := s
  dsimp only at hhm hwt hn1 ⊢
  subst hhm hwt
  have hgd : get_dsi env a
      { fdow := fdow, filename := filename, svi_map_key := svi, file_seek_pos := seek,
        file_sz := fsz, fetch_data_status := fds, exec_array_length := eal,
        fetch_array_length := fal, status_cb_iscomplete := ic, status_cb_resultcode := rc,
        status_cb_waitsec := ws, exec_result := er, hasmore := true, ismore := im,
        write_type := FDO_SYS_MOD_MSG_EOT } = (Ctl.goto_end FDO_SI_SUCCESS false false,
      { fdow := eot_val fds, filename := filename, svi_map_key := svi, file_seek_pos := seek,
        file_sz := fsz, fetch_data_status := fds, exec_array_length := eal,
        fetch_array_length := fal, status_cb_iscomplete := ic, status_cb_resultcode := rc,
        status_cb_waitsec := ws, exec_result := er, hasmore := false, ismore := im,
        write_type := FDO_SYS_MOD_MSG_EOT },
      { Output.start a with
          module_message := some "eot", module_val_sz := some n,
          module_val := some (eot_val fds) }) := by
    simp [get_dsi, hmtu', hmm', hval, hszs', henc, get_dsi_tail,
      write_eot_good hwrite hlabel hmm', hn1, hn2]
  rw [fdo_sys_get_dsi htype hgd, end_block_success_none]

theorem lt_ceil_iff (F M k : Nat) (hM : 0 < M) : k < (F + M - 1) / M ↔ k * M < F := by
  rw [Nat.lt_iff_add_one_le, Nat.le_div_iff_mul_le hM, Nat.add_mul]
  omega

/-- From a session that has sent `k * mtu` bytes of `B`, with `d + 1` data rounds still to
come: the loop makes exactly those rounds and the closing eot round, then stops. -/
theorem get_dsi_rounds_from (K : Consts) (envs : Nat → Env) (a : Args) (B : List Nat)
    (f key : String) (ha : GoodGetDsiArgs a) (hg : ∀ i, GoodRound (envs i) f B) :
    ∀ (d k i fuel : Nat) (s : Session), s.filename = f → s.svi_map_key = key →
      s.hasmore = true → s.write_type = FDO_SYS_MOD_MSG_DATA → s.file_sz = B.length →
      s.file_seek_pos = k * a.mtu → (k + d) * a.mtu < B.length →
      B.length ≤ (k + d + 1) * a.mtu → d + 2 ≤ fuel →
      (get_dsi_rounds K envs a fuel i s).map round_view
        = (List.range' k (d + 1)).map (data_view a.mtu B key) ++ [eot_view 0] ∧
      ∀ r ∈ get_dsi_rounds K envs a fuel i s, r.result = FDO_SI_SUCCESS := by
  have hmtu : 0 < a.mtu := ha.2.1
  intro d
  induction d with
  | zero =>
    intro k i fuel s hf hkey hhm hwt hsz hpos hlt hle hfuel
    obtain ⟨fuel, rfl⟩ : ∃ m, fuel = m + 2 := ⟨fuel - 2, by omega⟩
    simp only [Nat.add_zero] at hlt hle
    have hg0 := hg i
    rw [← hf] at hg0
    obtain ⟨n, h1⟩ := get_dsi_data_round K (envs i) a s B ha hg0 hhm hwt hsz (by omega)
    have hl : B.length ≤ s.file_seek_pos + a.mtu := by
      rw [hpos]; rw [Nat.add_mul] at hle; omega
    simp only [hl, if_true] at h1
    obtain ⟨n2, h2⟩ := get_dsi_eot_round K (envs (i + 1)) a (fdo_sys K (envs i) a s).state f B
      ha (hg (i + 1)) (by rw [h1]) (by rw [h1])
    have hr : get_dsi_rounds K envs a (fuel + 2) i s
        = [fdo_sys K (envs i) a s,
            fdo_sys K (envs (i + 1)) a (fdo_sys K (envs i) a s).state] := by
      have hm1 : (fdo_sys K (envs i) a s).state.hasmore = true := by rw [h1]
      have hm2 : (fdo_sys K (envs (i + 1)) a (fdo_sys K (envs i) a s).state).state.hasmore
          = false := by rw [h2]
      cases fuel with
      | zero => simp [get_dsi_rounds, hhm, hm1]
      | succ m => simp [get_dsi_rounds, hhm, hm1, hm2]
    rw [hr]
    constructor
    · simp only [List.map_cons, List.map_nil, List.range'_one, List.singleton_append]
      rw [h2, h1]
      simp [round_view, emitted, data_view, eot_view, chunk, hpos, hkey]
    · intro r hr'
      simp only [List.mem_cons, List.mem_singleton, List.not_mem_nil, or_false] at hr'
      rcases hr' with h | h
      · rw [h, h1]
      · rw [h, h2]
  | succ d ih =>
    intro k i fuel s hf hkey hhm hwt hsz hpos hlt hle hfuel
    obtain ⟨fuel, rfl⟩ : ∃ m, fuel = m + 1 := ⟨fuel - 1, by omega⟩
    have hg0 := hg i
    rw [← hf] at hg0
    have hk1 : (k + 1) * a.mtu < B.length := by
      have : (k + 1) * a.mtu ≤ (k + (d + 1)) * a.mtu := Nat.mul_le_mul_right _ (by omega)
      omega
    have hk0 : k * a.mtu < B.length := by
      rw [Nat.add_mul] at hk1; omega
    obtain ⟨n, h1⟩ := get_dsi_data_round K (envs i) a s B ha hg0 hhm hwt hsz (by omega)
    have hl : ¬ B.length ≤ s.file_seek_pos + a.mtu := by
      rw [hpos]; rw [Nat.add_mul] at hk1; omega
    have hbig : B.length - s.file_seek_pos > a.mtu := by omega
    simp only [hl, hbig, if_true, if_false] at h1
    have hstep := ih (k + 1) (i + 1) fuel (fdo_sys K (envs i) a s).state
      (by rw [h1]; exact hf) (by rw [h1]; exact hkey) (by rw [h1]) (by rw [h1])
      (by rw [h1]; exact hsz) (by rw [h1]; simp only [hpos, Nat.add_mul, Nat.one_mul])
      (by rw [show k + 1 + d = k + (d + 1) by omega]; exact hlt)
      (by rw [show k + 1 + d + 1 = k + (d + 1) + 1 by omega]; exact hle) (by omega)
    have hr : get_dsi_rounds K envs a (fuel + 1) i s
        = fdo_sys K (envs i) a s ::
            get_dsi_rounds K envs a fuel (i + 1) (fdo_sys K (envs i) a s).state := by
      simp [get_dsi_rounds, hhm]
    rw [hr]
    constructor
    · rw [List.map_cons, hstep.1, List.range'_succ k (d + 1), List.map_cons, List.cons_append]
      congr 1
      rw [h1]
      simp [round_view, emitted, data_view, chunk, hpos, hkey]
    · intro r hr'
      simp only [List.mem_cons] at hr'
      rcases hr' with h | h
      · rw [h, h1]
      · exact hstep.2 r h

theorem end_block_success_frame (e f : Bool) (t : Session) :
    Frame (end_block FDO_SI_SUCCESS e f t) t := by
  unfold end_block Frame
  dsimp only
  split_ifs <;> simp_all

theorem set_osi_fetch_cases (K : Consts) (env : Env) (s : Session) (out : Output) :
    (∃ s1, set_osi_fetch K env s out = (Ctl.goto_end FDO_SI_SUCCESS false true, s1, out) ∧
        s1.hasmore = true ∧ s1.write_type = FDO_SYS_MOD_MSG_DATA ∧ s1.file_seek_pos = 0 ∧
        s1.file_sz = env.get_file_sz s1.filename) ∨
      (∃ r f s1, r ≠ FDO_SI_SUCCESS ∧
        set_osi_fetch K env s out = (Ctl.goto_end r false f, s1, out)) := by
  unfold set_osi_fetch
  cases h0 : env.fdor_array_length with
  | none => exact Or.inr ⟨_, _, _, by decide, rfl⟩
  | some n =>
    dsimp only
    by_cases h1 : n = 0
    · exact Or.inr ⟨FDO_SI_CONTENT_ERROR, false, { s with fetch_array_length := n },
        by decide, by simp [h1]⟩
    · cases h2 : env.fdor_start_array with
      | false =>
        exact Or.inr ⟨FDO_SI_INTERNAL_ERROR, false, { s with fetch_array_length := n },
          by decide, by simp [h1]⟩
      | true =>
        cases h3 : env.ModuleAlloc 0 (K.sizeof_ptr * (n + 1)) with
        | false =>
          exact Or.inr ⟨FDO_SI_INTERNAL_ERROR, false, { s with fetch_array_length := n },
            by decide, by simp [h1]⟩
        | true =>
          rcases h4 : fetch_loop K env n 0 { s with fetch_array_length := n } with ⟨ok, s1⟩
          cases ok with
          | false => exact Or.inr ⟨FDO_SI_INTERNAL_ERROR, true, s1, by decide, by simp [h1]⟩
          | true =>
            exact Or.inl ⟨{ s1 with file_sz := env.get_file_sz s1.filename, hasmore := true,
                                    file_seek_pos := 0, write_type := FDO_SYS_MOD_MSG_DATA },
              by simp [h1], rfl, rfl, rfl, rfl⟩

theorem set_osi_fetch_label (K : Consts) (env : Env) (a : Args) (s : Session)
    (hmsg : a.module_message = some "fetch") :
    set_osi K env a s = set_osi_fetch K env s (Output.start a) ∨
      ∃ r, r ≠ FDO_SI_SUCCESS ∧
        set_osi K env a s = (Ctl.goto_end r false false, s, Output.start a) := by
  unfold set_osi
  simp only [hmsg]
  cases hv : a.module_val with
  | false => exact Or.inr ⟨FDO_SI_CONTENT_ERROR, by decide, rfl⟩
  | true =>
    cases hs : a.module_val_sz with
    | none => exact Or.inr ⟨FDO_SI_CONTENT_ERROR, by decide, rfl⟩
    | some sz =>
      dsimp only
      by_cases hbig : sz > K.MOD_MAX_BUFF_SIZE
      · exact Or.inr ⟨FDO_SI_CONTENT_ERROR, by decide, by simp [hbig]⟩
      · cases hc : env.memcpy_s_in sz with
        | false => exact Or.inr ⟨FDO_SI_INTERNAL_ERROR, by decide, by simp [hbig]⟩
        | true =>
          cases hp : env.fdor_parser_init with
          | false => exact Or.inr ⟨FDO_SI_INTERNAL_ERROR, by decide, by simp [hbig]⟩
          | true => exact Or.inl (by simp [hbig])

/-- The session a successful fetch leaves behind. -/
theorem fetch_success_state (K : Consts) (env : Env) (a : Args) (s : Session)
    (htype : a.type = FDO_SI_SET_OSI) (hmsg : a.module_message = some "fetch")
    (hres : (fdo_sys K env a s).result = FDO_SI_SUCCESS) :
    (fdo_sys K env a s).state.hasmore = true ∧
    (fdo_sys K env a s).state.write_type = FDO_SYS_MOD_MSG_DATA ∧
    (fdo_sys K env a s).state.file_seek_pos = 0 ∧
    (fdo_sys K env a s).state.file_sz = env.get_file_sz (fdo_sys K env a s).state.filename := by
  rcases set_osi_fetch_label K env a s hmsg with hsw | ⟨r, hr, hsw⟩
  · rcases set_osi_fetch_cases K env s (Output.start a) with
      ⟨s1, heq, h1, h2, h3, h4⟩ | ⟨r, f, s1, hr, heq⟩
    · rw [heq] at hsw
      rw [fdo_sys_set_osi htype hsw]
      have hfr := end_block_success_frame false true s1
      dsimp only
      rw [hfr.1, hfr.2.1, hfr.2.2.2.1, hfr.2.2.1, end_block_filename]
      exact ⟨h1, h2, h3, h4⟩
    · rw [heq] at hsw
      rw [fdo_sys_set_osi htype hsw] at hres
      exact absurd hres hr
  · rw [fdo_sys_set_osi htype hsw] at hres
    exact absurd hres hr

theorem flatten_chunks (M : Nat) (B : List Nat) :
    ∀ n, ((List.range n).map (chunk M B)).flatten = B.take (n * M) := by
  intro n
  induction n with
  | zero => simp
  | succ n ih =>
    rw [List.range_succ, List.map_append, List.flatten_append, ih]
    simp only [List.map_cons, List.map_nil, List.flatten_cons, List.flatten_nil,
      List.append_nil, chunk]
    rw [Nat.add_mul, Nat.one_mul, List.take_add]

theorem ceil_div_bounds (F M : Nat) (hM : 0 < M) (hF : 0 < F) :
    0 < ceil_div F M ∧ (ceil_div F M - 1) * M < F ∧ F ≤ ceil_div F M * M := by
  unfold ceil_div
  have h0 : 0 < (F + M - 1) / M := by
    rw [lt_ceil_iff F M 0 hM]; omega
  refine ⟨h0, ?_, ?_⟩
  · rw [← lt_ceil_iff F M _ hM]; omega
  · have := (lt_ceil_iff F M ((F + M - 1) / M) hM).not.mp (lt_irrefl _)
    omega

theorem chunk_length (M : Nat) (B : List Nat) (j : Nat) :
    (chunk M B j).length = min M (B.length - j * M) := by
  simp [chunk]

theorem last_chunk_arith (F M n : Nat) (hM : 0 < M) (h1 : (n - 1) * M < F) (h2 : F ≤ n * M)
    (hn : 0 < n) :
    min M (F - (n - 1) * M) = (if F % M = 0 then M else F % M) ∧
      n = F / M + (if F % M = 0 then 0 else 1) := by
  obtain ⟨m, rfl⟩ : ∃ m, n = m + 1 := ⟨n - 1, by omega⟩
  simp only [Nat.add_sub_cancel] at h1 ⊢
  rw [Nat.add_mul, Nat.one_mul] at h2
  obtain ⟨L, rfl⟩ : ∃ L, F = L + m * M := ⟨F - m * M, by omega⟩
  have hL1 : 0 < L := by omega
  have hL2 : L ≤ M := by omega
  rw [Nat.add_sub_cancel, Nat.add_mul_mod_self_right, Nat.add_mul_div_right _ _ hM,
    Nat.min_eq_right hL2]
  rcases Nat.lt_or_ge L M with hlt | hge
  · rw [Nat.mod_eq_of_lt hlt, Nat.div_eq_of_lt hlt]
    have : L ≠ 0 := by omega
    rw [if_neg this, if_neg this]
    omega
  · have hLM : L = M := by omega
    subst hLM
    rw [Nat.mod_self, Nat.div_self hM, if_pos rfl, if_pos rfl]
    omega

theorem get_dsi_rounds_of_fetch (K : Consts) (env0 : Env) (af : Args) (s0 : Session)
    (envs : Nat → Env) (a : Args) (B : List Nat) (hB : B ≠ [])
    (haf : af.type = FDO_SI_SET_OSI) (hlab : af.module_message = some "fetch")
    (hfetch : (fdo_sys K env0 af s0).result = FDO_SI_SUCCESS)
    (hsize : env0.get_file_sz (fdo_sys K env0 af s0).state.filename = B.length)
    (ha : GoodGetDsiArgs a)
    (hg : ∀ i, GoodRound (envs i) (fdo_sys K env0 af s0).state.filename B) :
    ∀ fuel, ceil_div B.length a.mtu < fuel →
      (get_dsi_rounds K envs a fuel 0 (fdo_sys K env0 af s0).state).map round_view
        = (List.range (ceil_div B.length a.mtu)).map
            (data_view a.mtu B (fdo_sys K env0 af s0).state.svi_map_key) ++ [eot_view 0] ∧
      ∀ r ∈ get_dsi_rounds K envs a fuel 0 (fdo_sys K env0 af s0).state,
        r.result = FDO_SI_SUCCESS := by
  intro fuel hfuel
  have hF : 0 < B.length := List.length_pos.mpr hB
  obtain ⟨hn, hb1, hb2⟩ := ceil_div_bounds B.length a.mtu ha.2.1 hF
  obtain ⟨h1, h2, h3, h4⟩ := fetch_success_state K env0 af s0 haf hlab hfetch
  have h := get_dsi_rounds_from K envs a B _ _ ha hg (ceil_div B.length a.mtu - 1) 0 0 fuel
    (fdo_sys K env0 af s0).state rfl rfl h1 h2 (h4.trans hsize) (by rw [h3]; simp)
    (by simpa using hb1)
    (by rw [show 0 + (ceil_div B.length a.mtu - 1) + 1 = ceil_div B.length a.mtu by omega]
        exact hb2)
    (by omega)
  rw [show ceil_div B.length a.mtu - 1 + 1 = ceil_div B.length a.mtu by omega] at h
  rw [List.range_eq_range']
  exact h

/-- C1 (as the code has it). For every non-empty byte sequence B held by a file and every
mtu > 0: if a fetch of that file succeeds, the file is not changed afterwards and every
collaborator call of the GetDsi rounds succeeds, then repeating GetDsi while hasmore is
true yields data messages whose chunks, concatenated in order, are exactly B, followed by
one eot message with status 0, after which hasmore is false and the loop stops. -/
theorem fetch_round_trip (K : Consts) (env0 : Env) (af : Args) (s0 : Session)
    (envs : Nat → Env) (a : Args) (B : List Nat) (hB : B ≠ [])
    (haf : af.type = FDO_SI_SET_OSI) (hlab : af.module_message = some "fetch")
    (hfetch : (fdo_sys K env0 af s0).result = FDO_SI_SUCCESS)
    (hsize : env0.get_file_sz (fdo_sys K env0 af s0).state.filename = B.length)
    (ha : GoodGetDsiArgs a)
    (hg : ∀ i, GoodRound (envs i) (fdo_sys K env0 af s0).state.filename B) :
    ∃ chunks : List (List Nat), chunks.flatten = B ∧
      ∀ fuel, chunks.length < fuel →
        (get_dsi_rounds K envs a fuel 0 (fdo_sys K env0 af s0).state).map round_view
          = chunks.map (fun c =>
              (some ("data", data_val c (fdo_sys K env0 af s0).state.svi_map_key), true))
            ++ [(some ("eot", eot_val 0), false)] ∧
        ∀ r ∈ get_dsi_rounds K envs a fuel 0 (fdo_sys K env0 af s0).state,
          r.result = FDO_SI_SUCCESS := by
  have hF : 0 < B.length := List.length_pos.mpr hB
  obtain ⟨hn, hb1, hb2⟩ := ceil_div_bounds B.length a.mtu ha.2.1 hF
  refine ⟨(List.range (ceil_div B.length a.mtu)).map (chunk a.mtu B), ?_, ?_⟩
  · rw [flatten_chunks, List.take_of_length_le hb2]
  · intro fuel hfuel
    simp only [List.length_map, List.length_range] at hfuel
    have h := get_dsi_rounds_of_fetch K env0 af s0 envs a B hB haf hlab hfetch hsize ha hg
      fuel hfuel
    refine ⟨?_, h.2⟩
    rw [h.1, List.map_map]
    rfl

/-- C2. For every file size F > 0 and every mtu M > 0, with the file unchanged and all
collaborator calls succeeding, the GetDsi rounds that follow a successful fetch are
exactly ceil(F / M) data rounds and then one eot round after which hasmore is false;
every chunk but the last has length M and the last has length F mod M, or M when M
divides F. -/
theorem chunking_correct (K : Consts) (env0 : Env) (af : Args) (s0 : Session)
    (envs : Nat → Env) (a : Args) (B : List Nat) (hF : 0 < B.length)
    (haf : af.type = FDO_SI_SET_OSI) (hlab : af.module_message = some "fetch")
    (hfetch : (fdo_sys K env0 af s0).result = FDO_SI_SUCCESS)
    (hsize : env0.get_file_sz (fdo_sys K env0 af s0).state.filename = B.length)
    (ha : GoodGetDsiArgs a)
    (hg : ∀ i, GoodRound (envs i) (fdo_sys K env0 af s0).state.filename B) :
    ceil_div B.length a.mtu
        = B.length / a.mtu + (if B.length % a.mtu = 0 then 0 else 1) ∧
    (∀ j, j + 1 < ceil_div B.length a.mtu → (chunk a.mtu B j).length = a.mtu) ∧
    (chunk a.mtu B (ceil_div B.length a.mtu - 1)).length
        = (if B.length % a.mtu = 0 then a.mtu else B.length % a.mtu) ∧
    ∀ fuel, ceil_div B.length a.mtu < fuel →
      (get_dsi_rounds K envs a fuel 0 (fdo_sys K env0 af s0).state).map round_view
        = (List.range (ceil_div B.length a.mtu)).map
            (data_view a.mtu B (fdo_sys K env0 af s0).state.svi_map_key) ++ [eot_view 0] ∧
      (get_dsi_rounds K envs a fuel 0 (fdo_sys K env0 af s0).state).length
        = ceil_div B.length a.mtu + 1 := by
  have hM : 0 < a.mtu := ha.2.1
  obtain ⟨hn, hb1, hb2⟩ := ceil_div_bounds B.length a.mtu hM hF
  obtain ⟨hlast, hceil⟩ := last_chunk_arith B.length a.mtu _ hM hb1 hb2 hn
  refine ⟨hceil, ?_, ?_, ?_⟩
  · intro j hj
    rw [chunk_length]
    have h1 : (j + 1) * a.mtu < B.length := by
      have := (lt_ceil_iff B.length a.mtu (j + 1) hM).mp hj
      exact this
    rw [Nat.add_mul, Nat.one_mul] at h1
    omega
  · rw [chunk_length, hlast]
  · intro fuel hfuel
    have hB : B ≠ [] := List.length_pos.mp hF
    have h := get_dsi_rounds_of_fetch K env0 af s0 envs a B hB haf hlab hfetch hsize ha hg
      fuel hfuel
    refine ⟨h.1, ?_⟩
    have hlen := congrArg List.length h.1
    simpa using hlen

theorem good_round_env_ok :
    GoodRound (env_ok files0 []) session_after_fetch.filename [1, 2, 3, 4, 5] := by
  have hf : session_after_fetch.filename = "a.bin" := by decide
  rw [hf]
  exact ⟨rfl, rfl, fun _ _ _ => rfl, fun _ _ => rfl, fun _ _ => rfl, fun _ => rfl,
    fun _ _ => rfl, fun w => ⟨w.length, rfl, rfl⟩⟩

theorem good_args_get_dsi : GoodGetDsiArgs (args_get_dsi 2) :=
  ⟨rfl, by decide, rfl, rfl, rfl⟩

/-- C1, worked input: the five bytes of `a.bin` fetched with mtu 2. -/
theorem fetch_round_trip_witness :
    ∃ chunks : List (List Nat), chunks.flatten = [1, 2, 3, 4, 5] ∧
      ∀ fuel, chunks.length < fuel →
        (get_dsi_rounds K0 (fun _ => env_ok files0 []) (args_get_dsi 2) fuel 0
            session_after_fetch).map round_view
          = chunks.map (fun c =>
              (some ("data", data_val c session_after_fetch.svi_map_key), true))
            ++ [(some ("eot", eot_val 0), false)] ∧
        ∀ r ∈ get_dsi_rounds K0 (fun _ => env_ok files0 []) (args_get_dsi 2) fuel 0
            session_after_fetch, r.result = FDO_SI_SUCCESS :=
  fetch_round_trip K0 (env_ok files0 ["a.bin", "k"]) (args_set_osi "fetch" 10) Session.init
    (fun _ => env_ok files0 []) (args_get_dsi 2) [1, 2, 3, 4, 5] (by decide) rfl rfl
    (by decide) (by decide) good_args_get_dsi (fun _ => good_round_env_ok)

/-- C1, counterexample: the file `empty.bin` holds the empty byte sequence. After the
successful fetch every GetDsi round emits eot with status 1, not 0, and hasmore stays
true, so no round is the last one. -/
theorem empty_file_eot_status_one :
    files0 "empty.bin" = [] ∧
    (fdo_sys K0 (env_ok files0 ["empty.bin", "k"]) (args_set_osi "fetch" 14)
        Session.init).result = FDO_SI_SUCCESS ∧
    (get_dsi_rounds K0 (fun _ => env_ok files0 []) (args_get_dsi 2) 3 0
        session_after_fetch_empty).map round_view
      = [(some ("eot", eot_val 1), true), (some ("eot", eot_val 1), true),
          (some ("eot", eot_val 1), true)] := by
  decide

/-- C2, worked input: five bytes with mtu 2 give three data rounds (2, 2 and 1 bytes)
and one eot round. -/
theorem chunking_correct_witness :
    ceil_div 5 2 = 3 ∧
    (chunk 2 [1, 2, 3, 4, 5] (ceil_div 5 2 - 1)).length = 1 ∧
    (get_dsi_rounds K0 (fun _ => env_ok files0 []) (args_get_dsi 2) 4 0
        session_after_fetch).map round_view
      = (List.range (ceil_div 5 2)).map (data_view 2 [1, 2, 3, 4, 5] "k") ++ [eot_view 0] ∧
    (get_dsi_rounds K0 (fun _ => env_ok files0 []) (args_get_dsi 2) 4 0
        session_after_fetch).length = 4 :=
  have h := chunking_correct K0 (env_ok files0 ["a.bin", "k"]) (args_set_osi "fetch" 10)
    Session.init (fun _ => env_ok files0 []) (args_get_dsi 2) [1, 2, 3, 4, 5] (by decide) rfl
    rfl (by decide) (by decide) good_args_get_dsi (fun _ => good_round_env_ok)
  ⟨h.1, h.2.2.1, (h.2.2.2 4 (by decide)).1, (h.2.2.2 4 (by decide)).2⟩

/-! ## The query operations -/

theorem end_block_failure_eq (r : Result) (s : Session) (h : r ≠ FDO_SI_SUCCESS) :
    end_block r false false s = reset_transient s := by
  simp [end_block, reset_transient, h]

theorem query_switch (K : Consts) (env : Env) (a : Args) (s : Session)
    (htype : a.type = FDO_SI_HAS_MORE_DSI ∨ a.type = FDO_SI_IS_MORE_DSI ∨
      a.type = FDO_SI_GET_DSI_COUNT) :
    (query_slot a = true →
      fdo_sys K env a s = ⟨FDO_SI_SUCCESS, s,
        { Output.start a with
            has_more := if a.type = FDO_SI_HAS_MORE_DSI then some s.hasmore else none,
            is_more := if a.type = FDO_SI_IS_MORE_DSI then some s.ismore else none,
            num_module_messages := if a.type = FDO_SI_GET_DSI_COUNT then some 1 else none }⟩) ∧
    (query_slot a = false →
      fdo_sys K env a s = ⟨FDO_SI_CONTENT_ERROR, reset_transient s, Output.start a⟩) := by
  have hfail : fdo_sys_switch K env a s
        = (Ctl.goto_end FDO_SI_CONTENT_ERROR false false, s, Output.start a) →
      fdo_sys K env a s = ⟨FDO_SI_CONTENT_ERROR, reset_transient s, Output.start a⟩ := by
    intro hsw
    rw [fdo_sys_of_goto_end hsw, end_block_failure_eq _ _ (by decide)]
  rcases htype with h | h | h
  · constructor
    · intro hs
      simp only [query_slot, h] at hs
      have hsw : fdo_sys_switch K env a s = (Ctl.goto_end FDO_SI_SUCCESS false false, s,
          { Output.start a with has_more := some s.hasmore }) := by
        simp only [fdo_sys_switch, h, hs, Bool.true_eq_false, if_false]
      rw [fdo_sys_of_goto_end hsw, end_block_success_none]
      simp [h, Output.start]
    · intro hs
      simp only [query_slot, h] at hs
      exact hfail (by simp only [fdo_sys_switch, h, hs, if_true])
  · constructor
    · intro hs
      simp only [query_slot, h] at hs
      have hsw : fdo_sys_switch K env a s = (Ctl.goto_end FDO_SI_SUCCESS false false, s,
          { Output.start a with is_more := some s.ismore }) := by
        simp only [fdo_sys_switch, h, hs, Bool.true_eq_false, if_false]
      rw [fdo_sys_of_goto_end hsw, end_block_success_none]
      simp [h, Output.start]
    · intro hs
      simp only [query_slot, h] at hs
      exact hfail (by simp only [fdo_sys_switch, h, hs, if_true])
  · constructor
    · intro hs
      simp only [query_slot, h] at hs
      have hsw : fdo_sys_switch K env a s = (Ctl.goto_end FDO_SI_SUCCESS false false, s,
          { Output.start a with num_module_messages := some 1 }) := by
        simp only [fdo_sys_switch, h, hs, Bool.true_eq_false, if_false]
      rw [fdo_sys_of_goto_end hsw, end_block_success_none]
      simp [h, Output.start]
    · intro hs
      simp only [query_slot, h] at hs
      exact hfail (by simp only [fdo_sys_switch, h, hs, if_true])

/-- C15 (as the code has it). A HasMoreDsi or IsMoreDsi call whose output slot is present
returns Success and leaves every session variable as it was. With the slot absent the call
returns ContentError and the `end:` block resets the five transient variables (hasmore,
file_sz, file_seek_pos, fetch_data_status, write_type); the other variables keep their
values. -/
theorem queries_pure_with_slot (K : Consts) (env : Env) (a : Args) (s : Session)
    (htype : a.type = FDO_SI_HAS_MORE_DSI ∨ a.type = FDO_SI_IS_MORE_DSI) :
    (query_slot a = true →
      (fdo_sys K env a s).result = FDO_SI_SUCCESS ∧ (fdo_sys K env a s).state = s) ∧
    (query_slot a = false →
      (fdo_sys K env a s).result = FDO_SI_CONTENT_ERROR ∧
      (fdo_sys K env a s).state = reset_transient s) := by
  have h := query_switch K env a s (by tauto)
  constructor
  · intro hs
    rw [h.1 hs]
    exact ⟨rfl, rfl⟩
  · intro hs
    rw [h.2 hs]
    exact ⟨rfl, rfl⟩

/-- C15, worked input: IsMoreDsi with its slot present, in the middle of a fetch. -/
theorem queries_pure_with_slot_witness :
    (fdo_sys K0 (env_ok files0 []) (args_query FDO_SI_IS_MORE_DSI true) session_fetching).state
      = session_fetching :=
  ((queries_pure_with_slot K0 (env_ok files0 []) (args_query FDO_SI_IS_MORE_DSI true)
    session_fetching (Or.inr rfl)).1 rfl).2

/-- C15, counterexample: HasMoreDsi called with a NULL `has_more` slot in the middle of a
fetch returns ContentError and leaves hasmore = false and file_sz = 0, where they were true
and 5 before the call. -/
theorem has_more_without_slot_resets :
    session_fetching.hasmore = true ∧ session_fetching.file_sz = 5 ∧
    (fdo_sys K0 (env_ok files0 []) (args_query FDO_SI_HAS_MORE_DSI false)
        session_fetching).result = FDO_SI_CONTENT_ERROR ∧
    (fdo_sys K0 (env_ok files0 []) (args_query FDO_SI_HAS_MORE_DSI false)
        session_fetching).state.hasmore = false ∧
    (fdo_sys K0 (env_ok files0 []) (args_query FDO_SI_HAS_MORE_DSI false)
        session_fetching).state.file_sz = 0 := by
  decide

/-! ## Variables that an arm leaves alone -/

theorem SameButProducer.same_producer_refl (s : Session) : SameButProducer s s := by
  simp [SameButProducer]

theorem SameButProducer.same_producer_trans {s2 s1 s : Session} (h2 : SameButProducer s2 s1)
    (h1 : SameButProducer s1 s) : SameButProducer s2 s := by
  unfold SameButProducer at *
  rw [h2, h1]

theorem get_dsi_tail_state (env : Env) (r : Result) (s : Session) (out : Output) :
    (get_dsi_tail env r s out).2.1 = s := by
  unfold get_dsi_tail
  repeat' split
  all_goals rfl

theorem get_dsi_data_eot_shape (env : Env) (a : Args) (s : Session) (out : Output) :
    ∃ w, (get_dsi_data_eot env a s out).2.1 = { s with fdow := w } := by
  unfold get_dsi_data_eot
  split
  · exact ⟨_, rfl⟩
  · rw [get_dsi_tail_state]
    exact ⟨_, rfl⟩

theorem get_dsi_data_shape (env : Env) (a : Args) (s : Session) (out : Output) :
    SameButProducer (get_dsi_data env a s out).2.1 s ∧
    (get_dsi_data env a s out).2.1.file_sz = s.file_sz ∧
    s.file_seek_pos ≤ (get_dsi_data env a s out).2.1.file_seek_pos ∧
    (s.file_seek_pos ≤ s.file_sz →
      (get_dsi_data env a s out).2.1.file_seek_pos ≤ s.file_sz) := by
  have heot : ∀ t : Session, SameButProducer t s → t.file_sz = s.file_sz →
      t.file_seek_pos = s.file_seek_pos →
      SameButProducer (get_dsi_data_eot env a t out).2.1 s ∧
      (get_dsi_data_eot env a t out).2.1.file_sz = s.file_sz ∧
      s.file_seek_pos ≤ (get_dsi_data_eot env a t out).2.1.file_seek_pos ∧
      (s.file_seek_pos ≤ s.file_sz →
        (get_dsi_data_eot env a t out).2.1.file_seek_pos ≤ s.file_sz) := by
    intro t ht h1 h2
    obtain ⟨w, hw⟩ := get_dsi_data_eot_shape env a t out
    rw [hw]
    refine ⟨?_, h1, by simp [h2], fun h => by simpa [h2] using h⟩
    have : SameButProducer { t with fdow := w } t := by simp [SameButProducer]
    exact this.same_producer_trans ht
  unfold get_dsi_data
  dsimp only
  by_cases hguard : s.file_sz = 0 ∨ s.file_sz ≠ env.get_file_sz s.filename ∨
      s.file_seek_pos > s.file_sz
  · rw [if_pos hguard]
    exact heot _ (by simp [SameButProducer]) rfl rfl
  · rw [if_neg hguard]
    have hle : s.file_seek_pos ≤ s.file_sz := by
      simp only [not_or, not_lt] at hguard
      exact hguard.2.2
    have hlen : s.file_seek_pos + (if s.file_sz - s.file_seek_pos > a.mtu then a.mtu
        else s.file_sz - s.file_seek_pos) ≤ s.file_sz := by
      split_ifs <;> omega
    generalize (if s.file_sz - s.file_seek_pos > a.mtu then a.mtu
        else s.file_sz - s.file_seek_pos) = L at hlen ⊢
    split
    · exact ⟨by simp [SameButProducer], rfl, le_refl _, fun h => h⟩
    · split
      · exact ⟨by simp [SameButProducer], rfl, le_refl _, fun h => h⟩
      · split
        · exact heot _ (by simp [SameButProducer]) rfl rfl
        · split
          · exact ⟨by simp [SameButProducer], rfl, by simp, fun _ => hlen⟩
          · rw [get_dsi_tail_state]
            split
            · exact ⟨by simp [SameButProducer], rfl, by simp, fun _ => hlen⟩
            · exact ⟨by simp [SameButProducer], rfl, by simp, fun _ => hlen⟩

theorem get_dsi_shape (env : Env) (a : Args) (s : Session) :
    SameButProducer (get_dsi env a s).2.1 s ∧
    (get_dsi env a s).2.1.file_sz = s.file_sz ∧
    s.file_seek_pos ≤ (get_dsi env a s).2.1.file_seek_pos ∧
    (s.file_seek_pos ≤ s.file_sz → (get_dsi env a s).2.1.file_seek_pos ≤ s.file_sz) := by
  have h0 : SameButProducer { s with fdow := [] } s := by simp [SameButProducer]
  unfold get_dsi
  dsimp only
  split
  · exact ⟨SameButProducer.same_producer_refl s, rfl, le_refl _, fun h => h⟩
  · split
    · exact ⟨h0, rfl, le_refl _, fun h => h⟩
    · split
      · exact ⟨h0, rfl, le_refl _, fun h => h⟩
      · split
        · split
          · exact ⟨by simp [SameButProducer], rfl, le_refl _, fun h => h⟩
          · rw [get_dsi_tail_state]
            exact ⟨by simp [SameButProducer], rfl, le_refl _, fun h => h⟩
        · have h := get_dsi_data_shape env a { s with fdow := [] } (Output.start a)
          exact ⟨h.1.same_producer_trans h0, h.2.1, h.2.2.1, h.2.2.2⟩
        · split
          · exact ⟨by simp [SameButProducer], rfl, le_refl _, fun h => h⟩
          · rw [get_dsi_tail_state]
            exact ⟨by simp [SameButProducer], rfl, le_refl _, fun h => h⟩
        · exact ⟨h0, rfl, le_refl _, fun h => h⟩

theorem SameButNames.keeps_file {s1 s : Session} (h : SameButNames s1 s) : KeepsFile s1 s := by
  unfold SameButNames at h
  rw [h]
  exact ⟨rfl, rfl, rfl, rfl, rfl⟩

theorem KeepsFile.keeps_refl (s : Session) : KeepsFile s s :=
  ⟨rfl, rfl, rfl, rfl, rfl⟩

theorem KeepsFile.keeps_trans {s2 s1 s : Session} (h2 : KeepsFile s2 s1) (h1 : KeepsFile s1 s) :
    KeepsFile s2 s :=
  ⟨h2.1.trans h1.1, h2.2.1.trans h1.2.1, h2.2.2.1.trans h1.2.2.1,
    h2.2.2.2.1.trans h1.2.2.2.1, h2.2.2.2.2.trans h1.2.2.2.2⟩

theorem set_osi_filedesc_keeps (K : Consts) (env : Env) (s : Session) (out : Output) :
    KeepsFile (set_osi_filedesc K env s out).2.1 s := by
  have hf : ∀ t n b s1, store_filename K env t n s = (b, s1) → KeepsFile s1 s := by
    intro t n b s1 h
    have h1 := (store_filename_frame K env t n s).1.keeps_file
    rw [h] at h1
    exact h1
  unfold set_osi_filedesc
  repeat' split
  all_goals
    first
    | exact KeepsFile.keeps_refl s
    | exact hf _ _ _ _ ‹_›

theorem set_osi_exec_keeps (K : Consts) (env : Env) (b : Bool) (s : Session) (out : Output) :
    KeepsFile (set_osi_exec K env b s out).2.1 s := by
  unfold set_osi_exec
  split
  · exact KeepsFile.keeps_refl s
  · rename_i len _
    have h0 : KeepsFile { s with exec_array_length := len } s := ⟨rfl, rfl, rfl, rfl, rfl⟩
    have hl : ∀ b s1 argv,
        exec_loop K env len len 0 { s with exec_array_length := len } [] = (b, s1, argv) →
        KeepsFile s1 s := by
      intro b s1 argv h
      have h1 := (exec_loop_frame K env len len 0 { s with exec_array_length := len }
        []).keeps_file
      rw [h] at h1
      exact h1.keeps_trans h0
    dsimp only
    repeat' split
    all_goals
      first
      | exact h0
      | exact hl _ _ _ ‹_›
      | (have h1 := hl _ _ _ ‹_›
         exact ⟨h1.1, h1.2.1, h1.2.2.1, h1.2.2.2.1, h1.2.2.2.2⟩)

theorem set_osi_status_cb_keeps (env : Env) (s : Session) (out : Output) :
    KeepsFile (set_osi_status_cb env s out).2.1 s := by
  unfold set_osi_status_cb
  dsimp only
  repeat' split
  all_goals exact ⟨rfl, rfl, rfl, rfl, rfl⟩

theorem set_osi_fetch_shape (K : Consts) (env : Env) (s : Session) (out : Output) :
    (set_osi_fetch K env s out).2.1.ismore = s.ismore ∧
    (set_osi_fetch K env s out).2.1.fdow = s.fdow ∧
    (set_osi_fetch K env s out).2.1.fetch_data_status = s.fetch_data_status ∧
    ((set_osi_fetch K env s out).2.1.file_seek_pos = 0 ∨
      ((set_osi_fetch K env s out).2.1.file_seek_pos = s.file_seek_pos ∧
        (set_osi_fetch K env s out).2.1.file_sz = s.file_sz)) := by
  unfold set_osi_fetch
  split
  · exact ⟨rfl, rfl, rfl, Or.inr ⟨rfl, rfl⟩⟩
  · rename_i len _
    have hl : ∀ b s1,
        fetch_loop K env len 0 { s with fetch_array_length := len } = (b, s1) →
        KeepsFile s1 s := by
      intro b s1 h
      have h1 := (fetch_loop_frame K env len 0 { s with fetch_array_length := len }).keeps_file
      rw [h] at h1
      exact h1.keeps_trans ⟨rfl, rfl, rfl, rfl, rfl⟩
    dsimp only
    repeat' split
    all_goals
      first
      | exact ⟨rfl, rfl, rfl, Or.inr ⟨rfl, rfl⟩⟩
      | (have h1 := hl _ _ ‹_›
         exact ⟨h1.1, h1.2.2.2.2, h1.2.2.2.1, Or.inr ⟨h1.2.2.1, h1.2.1⟩⟩)
      | (have h1 := hl _ _ ‹_›
         exact ⟨h1.1, h1.2.2.2.2, h1.2.2.2.1, Or.inl rfl⟩)

theorem SameButProducer.producer_ismore {s1 s : Session} (h : SameButProducer s1 s) :
    s1.ismore = s.ismore := by
  unfold SameButProducer at h
  rw [h]

theorem set_osi_keeps (K : Consts) (env : Env) (a : Args) (s : Session)
    (h : a.module_message ≠ some "fetch") : KeepsFile (set_osi K env a s).2.1 s := by
  unfold set_osi
  dsimp only
  split
  · rename_i msg sz hmsg _ _
    rw [hmsg] at h
    simp only [ne_eq, Option.some.injEq] at h
    split_ifs
    all_goals
      first
      | exact KeepsFile.keeps_refl s
      | exact set_osi_filedesc_keeps K env s _
      | (rw [set_osi_write_state]
         exact KeepsFile.keeps_refl s)
      | exact set_osi_exec_keeps K env _ s _
      | exact set_osi_status_cb_keeps env s _
  · exact KeepsFile.keeps_refl s

theorem set_osi_ismore (K : Consts) (env : Env) (a : Args) (s : Session) :
    (set_osi K env a s).2.1.ismore = s.ismore := by
  by_cases h : a.module_message = some "fetch"
  · rcases set_osi_fetch_label K env a s h with h1 | ⟨r, -, h1⟩
    · rw [h1]
      exact (set_osi_fetch_shape K env s _).1
    · rw [h1]
  · exact (set_osi_keeps K env a s h).1

theorem end_block_ismore (r : Result) (e f : Bool) (s : Session) :
    (end_block r e f s).ismore = s.ismore := by
  unfold end_block
  dsimp only
  split_ifs <;> rfl

/-- The switch of an operation other than GetDsi and SetOsi leaves through `goto end` with
the session as it was, but for the writer contents. -/
theorem simple_switch (K : Consts) (env : Env) (a : Args) (s : Session)
    (h1 : a.type ≠ FDO_SI_GET_DSI) (h2 : a.type ≠ FDO_SI_SET_OSI) :
    ∃ r out w, fdo_sys_switch K env a s
      = (Ctl.goto_end r false false, { s with fdow := w }, out) := by
  unfold fdo_sys_switch
  dsimp only
  split
  all_goals
    first
    | contradiction
    | (split_ifs <;> exact ⟨_, _, _, rfl⟩)
    | exact ⟨_, _, _, rfl⟩

theorem fdo_sys_ismore (K : Consts) (env : Env) (a : Args) (s : Session) :
    (fdo_sys K env a s).state.ismore = s.ismore := by
  by_cases h1 : a.type = FDO_SI_GET_DSI
  · rcases hsw : get_dsi env a s with ⟨c, s1, out⟩
    have hs := (get_dsi_shape env a s).1
    rw [hsw] at hs
    have hi : s1.ismore = s.ismore := hs.producer_ismore
    have hsw' : fdo_sys_switch K env a s = (c, s1, out) := by
      simp [fdo_sys_switch, h1, hsw]
    cases c with
    | goto_end r e f => rw [fdo_sys_of_goto_end hsw', end_block_ismore, hi]
    | ret r => rw [fdo_sys_of_ret hsw', hi]
  · by_cases h2 : a.type = FDO_SI_SET_OSI
    · rcases hsw : set_osi K env a s with ⟨c, s1, out⟩
      have hi := set_osi_ismore K env a s
      rw [hsw] at hi
      have hsw' : fdo_sys_switch K env a s = (c, s1, out) := by
        simp [fdo_sys_switch, h2, hsw]
      cases c with
      | goto_end r e f => rw [fdo_sys_of_goto_end hsw', end_block_ismore, hi]
      | ret r => rw [fdo_sys_of_ret hsw', hi]
    · obtain ⟨r, out, w, hsw⟩ := simple_switch K env a s h1 h2
      rw [fdo_sys_of_goto_end hsw, end_block_ismore]

theorem run_ismore (K : Consts) (ops : List (Env × Args)) :
    ∀ s, (run K ops s).ismore = s.ismore := by
  induction ops with
  | nil => intro s; rfl
  | cons p ops ih =>
    intro s
    obtain ⟨env, a⟩ := p
    unfold run
    rw [ih, fdo_sys_ismore]

/-- C16. In every state reached from the initial session by any sequence of operations:
HasMoreDsi with its slot present returns Success and writes the current value of hasmore;
IsMoreDsi with its slot present returns Success and writes false, as no operation ever
sets ismore; GetDsiCount with its slot present returns Success and writes 1; and each of
the three returns ContentError when its slot is absent. -/
theorem query_results (K : Consts) (ops : List (Env × Args)) (env : Env) (a : Args) :
    (run K ops Session.init).ismore = false ∧
    (a.type = FDO_SI_HAS_MORE_DSI → a.has_more = true →
      (fdo_sys K env a (run K ops Session.init)).result = FDO_SI_SUCCESS ∧
      (fdo_sys K env a (run K ops Session.init)).out.has_more
        = some (run K ops Session.init).hasmore) ∧
    (a.type = FDO_SI_IS_MORE_DSI → a.is_more = true →
      (fdo_sys K env a (run K ops Session.init)).result = FDO_SI_SUCCESS ∧
      (fdo_sys K env a (run K ops Session.init)).out.is_more = some false) ∧
    (a.type = FDO_SI_GET_DSI_COUNT → a.num_module_messages = true →
      (fdo_sys K env a (run K ops Session.init)).result = FDO_SI_SUCCESS ∧
      (fdo_sys K env a (run K ops Session.init)).out.num_module_messages = some 1) ∧
    (a.type = FDO_SI_HAS_MORE_DSI ∨ a.type = FDO_SI_IS_MORE_DSI ∨
        a.type = FDO_SI_GET_DSI_COUNT → query_slot a = false →
      (fdo_sys K env a (run K ops Session.init)).result = FDO_SI_CONTENT_ERROR) := by
  have hi : (run K ops Session.init).ismore = false := by
    rw [run_ismore]
    rfl
  refine ⟨hi, ?_, ?_, ?_, ?_⟩
  · intro ht hs
    have h := (query_switch K env a (run K ops Session.init) (Or.inl ht)).1
      (by simp [query_slot, ht, hs])
    rw [h]
    simp [ht]
  · intro ht hs
    have h := (query_switch K env a (run K ops Session.init) (Or.inr (Or.inl ht))).1
      (by simp [query_slot, ht, hs])
    rw [h]
    simp [ht, hi]
  · intro ht hs
    have h := (query_switch K env a (run K ops Session.init) (Or.inr (Or.inr ht))).1
      (by simp [query_slot, ht, hs])
    rw [h]
    simp [ht]
  · intro ht hs
    rw [(query_switch K env a (run K ops Session.init) ht).2 hs]

/-- C16, worked input: the three queries after a fetch of `a.bin` and one data round. -/
theorem query_results_witness :
    (fdo_sys K0 (env_ok files0 []) (args_query FDO_SI_HAS_MORE_DSI true)
        (run K0 [(env_ok files0 ["a.bin", "k"], args_set_osi "fetch" 10),
          (env_ok files0 [], args_get_dsi 2)] Session.init)).out.has_more = some true ∧
    (fdo_sys K0 (env_ok files0 []) (args_query FDO_SI_IS_MORE_DSI true)
        (run K0 [(env_ok files0 ["a.bin", "k"], args_set_osi "fetch" 10),
          (env_ok files0 [], args_get_dsi 2)] Session.init)).out.is_more = some false ∧
    (fdo_sys K0 (env_ok files0 []) (args_query FDO_SI_GET_DSI_COUNT false)
        (run K0 [(env_ok files0 ["a.bin", "k"], args_set_osi "fetch" 10),
          (env_ok files0 [], args_get_dsi 2)] Session.init)).result = FDO_SI_CONTENT_ERROR :=
  ⟨by
      have h := ((query_results K0 [(env_ok files0 ["a.bin", "k"], args_set_osi "fetch" 10),
        (env_ok files0 [], args_get_dsi 2)] (env_ok files0 [])
        (args_query FDO_SI_HAS_MORE_DSI true)).2.1 rfl rfl).2
      rw [h]
      decide,
    ((query_results K0 [(env_ok files0 ["a.bin", "k"], args_set_osi "fetch" 10),
        (env_ok files0 [], args_get_dsi 2)] (env_ok files0 [])
        (args_query FDO_SI_IS_MORE_DSI true)).2.2.1 rfl rfl).2,
    (query_results K0 [(env_ok files0 ["a.bin", "k"], args_set_osi "fetch" 10),
        (env_ok files0 [], args_get_dsi 2)] (env_ok files0 [])
        (args_query FDO_SI_GET_DSI_COUNT false)).2.2.2.2 (Or.inr (Or.inr rfl)) rfl⟩

/-! ## The one-shot rounds -/

theorem get_dsi_success_pre (K : Consts) (env : Env) (a : Args) (s : Session)
    (htype : a.type = FDO_SI_GET_DSI)
    (hres : (fdo_sys K env a s).result = FDO_SI_SUCCESS) :
    a.mtu ≠ 0 ∧ a.module_message ≠ none ∧ a.module_val = true ∧ a.module_val_sz ≠ none ∧
      s.hasmore = true ∧ s.write_type ≠ FDO_SYS_MOD_MSG_NONE ∧
      env.fdow_encoder_init = true := by
  by_cases hpre : a.mtu = 0 ∨ a.module_message = none ∨ a.module_val = false ∨
      a.module_val_sz = none ∨ s.hasmore = false ∨ s.write_type = FDO_SYS_MOD_MSG_NONE
  · obtain ⟨r, s1, hsw, hr, -, -⟩ := get_dsi_pre_switch env a s hpre
    rw [fdo_sys_get_dsi htype hsw] at hres
    exact absurd hres hr
  · simp only [not_or] at hpre
    obtain ⟨hmtu, hmm, hval, hsz, hhm, hnone⟩ := hpre
    refine ⟨hmtu, hmm, by simpa using hval, hsz, by simpa using hhm, hnone, ?_⟩
    cases henc : env.fdow_encoder_init with
    | true => rfl
    | false =>
      have hg : get_dsi env a s = (Ctl.goto_end FDO_SI_INTERNAL_ERROR false false,
          { s with fdow := [] }, Output.start a) := by
        simp [get_dsi, hmtu, hmm, hval, hsz, henc]
      rw [fdo_sys_get_dsi htype hg] at hres
      simp at hres

theorem get_dsi_eot_success (K : Consts) (env : Env) (a : Args) (s : Session)
    (htype : a.type = FDO_SI_GET_DSI) (hw : s.write_type = FDO_SYS_MOD_MSG_EOT)
    (hres : (fdo_sys K env a s).result = FDO_SI_SUCCESS) :
    ∃ n, fdo_sys K env a s = ⟨FDO_SI_SUCCESS,
      { s with fdow := eot_val s.fetch_data_status, hasmore := false },
      { Output.start a with
          module_message := some "eot", module_val_sz := some n,
          module_val := some (eot_val s.fetch_data_status) }⟩ := by
  obtain ⟨hmtu, hmm, hval, hsz, hhm, -, henc⟩ := get_dsi_success_pre K env a s htype hres
  have hg : get_dsi env a s =
      match write_eot env a.module_message s.fetch_data_status { s with fdow := [] } with
      | (false, mm, w) =>
        (Ctl.goto_end FDO_SI_INTERNAL_ERROR false false, { s with fdow := w },
          { Output.start a with module_message := mm })
      | (true, mm, w) =>
        get_dsi_tail env FDO_SI_INTERNAL_ERROR { s with fdow := w, hasmore := false }
          { Output.start a with module_message := mm } := by
    simp [get_dsi, hmtu, hmm, hval, hsz, henc, hhm, hw]
  obtain ⟨-, -, n, -, -, h3⟩ := get_dsi_one_shot K env a s "eot"
    (eot_val s.fetch_data_status) _ htype hg
    (write_eot_eq env a.module_message s.fetch_data_status { s with fdow := [] }) hres
  exact ⟨n, h3⟩

theorem get_dsi_status_cb_success (K : Consts) (env : Env) (a : Args) (s : Session)
    (htype : a.type = FDO_SI_GET_DSI) (hw : s.write_type = FDO_SYS_MOD_MSG_STATUS_CB)
    (hres : (fdo_sys K env a s).result = FDO_SI_SUCCESS) :
    ∃ n, fdo_sys K env a s = ⟨FDO_SI_SUCCESS,
      { s with fdow := status_cb_val s, hasmore := false },
      { Output.start a with
          module_message := some "status_cb", module_val_sz := some n,
          module_val := some (status_cb_val s) }⟩ := by
  obtain ⟨hmtu, hmm, hval, hsz, hhm, -, henc⟩ := get_dsi_success_pre K env a s htype hres
  have hg : get_dsi env a s =
      match write_status_cb env a.module_message { s with fdow := [] } with
      | (false, mm, w) =>
        (Ctl.goto_end FDO_SI_INTERNAL_ERROR false false, { s with fdow := w },
          { Output.start a with module_message := mm })
      | (true, mm, w) =>
        get_dsi_tail env FDO_SI_INTERNAL_ERROR { s with fdow := w, hasmore := false }
          { Output.start a with module_message := mm } := by
    simp [get_dsi, hmtu, hmm, hval, hsz, henc, hhm, hw]
  obtain ⟨-, -, n, -, -, h3⟩ := get_dsi_one_shot K env a s "status_cb"
    (status_cb_val s) _ htype hg
    (write_status_cb_eq env a.module_message { s with fdow := [] }) hres
  exact ⟨n, h3⟩

/-- C18. A successful GetDsi round with write_type = STATUS_CB emits the message labelled
status_cb whose value is the 5-element array [status_cb_iscomplete, status_cb_resultcode,
status_cb_waitsec, exec_result, svi_map_key] of the session, and a successful round with
write_type = EOT emits the message labelled eot whose value is the 1-element array
[fetch_data_status]. In both cases hasmore = false afterwards and no other session
variable changes (the writer block holds the message just encoded). -/
theorem one_shot_rounds (K : Consts) (env : Env) (a : Args) (s : Session)
    (htype : a.type = FDO_SI_GET_DSI) (_hhm : s.hasmore = true)
    (hres : (fdo_sys K env a s).result = FDO_SI_SUCCESS) :
    (s.write_type = FDO_SYS_MOD_MSG_STATUS_CB →
      emitted (fdo_sys K env a s) = some ("status_cb",
        [WCall.start_array 5, WCall.boolean s.status_cb_iscomplete,
          WCall.signed_int s.status_cb_resultcode, WCall.unsigned_int s.status_cb_waitsec,
          WCall.text_string s.exec_result, WCall.text_string s.svi_map_key,
          WCall.end_array]) ∧
      (fdo_sys K env a s).state
        = { s with fdow := status_cb_val s, hasmore := false }) ∧
    (s.write_type = FDO_SYS_MOD_MSG_EOT →
      emitted (fdo_sys K env a s) = some ("eot",
        [WCall.start_array 1, WCall.signed_int s.fetch_data_status, WCall.end_array]) ∧
      (fdo_sys K env a s).state
        = { s with fdow := eot_val s.fetch_data_status, hasmore := false }) := by
  constructor
  · intro hw
    obtain ⟨n, h⟩ := get_dsi_status_cb_success K env a s htype hw hres
    rw [h]
    exact ⟨by simp [emitted, status_cb_val], rfl⟩
  · intro hw
    obtain ⟨n, h⟩ := get_dsi_eot_success K env a s htype hw hres
    rw [h]
    exact ⟨by simp [emitted, eot_val], rfl⟩

/-- C18, worked input: the eot round that closes the fetch of `a.bin`. -/
theorem one_shot_rounds_witness :
    emitted (fdo_sys K0 (env_ok files0 []) (args_get_dsi 2) session_eot)
      = some ("eot", [WCall.start_array 1, WCall.signed_int 0, WCall.end_array]) ∧
    (fdo_sys K0 (env_ok files0 []) (args_get_dsi 2) session_eot).state
      = { session_eot with fdow := eot_val 0, hasmore := false } :=
  (one_shot_rounds K0 (env_ok files0 []) (args_get_dsi 2) session_eot rfl rfl
    (by decide)).2 rfl

/-! ## The data arm, step by step -/

theorem write_data_nil {env : Env} {mm : Option String} {bytes : List Nat} {key : String}
    (hmm : mm ≠ none) (hl : env.memcpy_s_label "data" = true)
    (hacc : accepts env [] (data_val bytes key) = true) (t : Session) (h1 : t.fdow = [])
    (h2 : t.svi_map_key = key) :
    write_data env mm (some bytes) t = (true, some "data", data_val bytes key) := by
  have h := write_data_ok env mm bytes t hmm hl (by rw [h1, h2]; exact hacc)
  rw [h, h1, h2, List.nil_append]

theorem write_eot_nil {env : Env} {mm : Option String} {st : Int}
    (hmm : mm ≠ none) (hl : env.memcpy_s_label "eot" = true)
    (hacc : accepts env [] (eot_val st) = true) (t : Session) (h1 : t.fdow = []) :
    write_eot env mm st t = (true, some "eot", eot_val st) := by
  have h := write_eot_ok env mm st t hmm hl (by rw [h1]; exact hacc)
  rw [h, h1, List.nil_append]

theorem fill_buffer_length (n : Nat) (bytes : List Nat) : (fill_buffer n bytes).length = n := by
  simp [fill_buffer]

theorem chunk_len_eq_min (F p M : Nat) : (if F - p > M then M else F - p) = min M (F - p) := by
  split_ifs <;> omega

/-- The data arm when the guard of line 217 passes, the buffer is obtained and the read
delivers `bytes`: the chunk is encoded and the offset advances. -/
theorem get_dsi_data_step (K : Consts) (env : Env) (a : Args) (s : Session) (bytes : List Nat)
    (n : Nat) (htype : a.type = FDO_SI_GET_DSI) (hmtu : a.mtu ≠ 0)
    (hmm : a.module_message ≠ none) (hval : a.module_val = true)
    (hszs : a.module_val_sz ≠ none) (henc : env.fdow_encoder_init = true)
    (hhm : s.hasmore = true) (hwt : s.write_type = FDO_SYS_MOD_MSG_DATA)
    (hnz : s.file_sz ≠ 0) (hsame : s.file_sz = env.get_file_sz s.filename)
    (hpos : s.file_seek_pos ≤ s.file_sz)
    (halloc : env.ModuleAlloc 0 (min a.mtu (s.file_sz - s.file_seek_pos)) = true)
    (hmemset : env.memset_s_bin (min a.mtu (s.file_sz - s.file_seek_pos)) = true)
    (hread : env.read_buffer_from_file_from_pos s.filename
      (min a.mtu (s.file_sz - s.file_seek_pos)) s.file_seek_pos = some bytes)
    (hlabel : env.memcpy_s_label "data" = true)
    (hacc : accepts env [] (data_val
      (fill_buffer (min a.mtu (s.file_sz - s.file_seek_pos)) bytes) s.svi_map_key) = true)
    (hlen : env.fdow_encoded_length (data_val
      (fill_buffer (min a.mtu (s.file_sz - s.file_seek_pos)) bytes) s.svi_map_key) = some n)
    (hcopy : env.memcpy_s_out n = true) :
    fdo_sys K env a s = ⟨FDO_SI_SUCCESS,
      { s with fdow := data_val
                 (fill_buffer (min a.mtu (s.file_sz - s.file_seek_pos)) bytes) s.svi_map_key,
               file_seek_pos := s.file_seek_pos + min a.mtu (s.file_sz - s.file_seek_pos),
               hasmore := true, fetch_data_status := 0,
               write_type :=
                 if s.file_sz = s.file_seek_pos + min a.mtu (s.file_sz - s.file_seek_pos)
                 then FDO_SYS_MOD_MSG_EOT else FDO_SYS_MOD_MSG_DATA },
      { Output.start a with
          module_message := some "data", module_val_sz := some n,
          module_val := some (data_val
            (fill_buffer (min a.mtu (s.file_sz - s.file_seek_pos)) bytes) s.svi_map_key) }⟩ := by
  obtain ⟨fdow, filename, svi, seek, fsz, fds, eal, fal, ic, rc, ws, er, hm, im, wt⟩ := s
  dsimp only at hhm hwt hnz hsame hpos halloc hmemset hread hacc hlen ⊢
  subst hhm hwt
  have hcond : ¬ (fsz = 0 ∨ ¬ fsz = env.get_file_sz filename ∨ seek > fsz) := by
    rw [← hsame]
    omega
  have hgd : get_dsi env a
      { fdow := fdow, filename := filename, svi_map_key := svi, file_seek_pos := seek,
        file_sz := fsz, fetch_data_status := fds, exec_array_length := eal,
        fetch_array_length := fal, status_cb_iscomplete := ic, status_cb_resultcode := rc,
        status_cb_waitsec := ws, exec_result := er, hasmore := true, ismore := im,
        write_type := FDO_SYS_MOD_MSG_DATA } = (Ctl.goto_end FDO_SI_SUCCESS false false,
      { fdow := data_val (fill_buffer (min a.mtu (fsz - seek)) bytes) svi,
        filename := filename, svi_map_key := svi,
        file_seek_pos := seek + min a.mtu (fsz - seek),
        file_sz := fsz, fetch_data_status := 0, exec_array_length := eal,
        fetch_array_length := fal, status_cb_iscomplete := ic, status_cb_resultcode := rc,
        status_cb_waitsec := ws, exec_result := er, hasmore := true, ismore := im,
        write_type := if fsz = seek + min a.mtu (fsz - seek) then FDO_SYS_MOD_MSG_EOT
                 else FDO_SYS_MOD_MSG_DATA },
      { Output.start a with
          module_message := some "data", module_val_sz := some n,
          module_val := some (data_val (fill_buffer (min a.mtu (fsz - seek)) bytes) svi) }) := by
    simp only [get_dsi, hmtu, hmm, hval, hszs, henc, get_dsi_data, hcond, chunk_len_eq_min,
      halloc, hmemset, hread, if_false, Option.isNone_iff_eq_none, false_or, or_self,
      Bool.true_eq_false, reduceCtorEq, ne_eq, get_dsi_tail,
      write_data_nil hmm hlabel hacc]
    split_ifs <;> simp [hlen, hcopy]
  rw [fdo_sys_get_dsi htype hgd, end_block_success_none]

/-- The data arm when the guard of line 217 passes and the buffer is obtained, but the read
fails: eot with status 1 is encoded and the offset stays. -/
theorem get_dsi_data_read_failure (K : Consts) (env : Env) (a : Args) (s : Session) (n : Nat)
    (htype : a.type = FDO_SI_GET_DSI) (hmtu : a.mtu ≠ 0)
    (hmm : a.module_message ≠ none) (hval : a.module_val = true)
    (hszs : a.module_val_sz ≠ none) (henc : env.fdow_encoder_init = true)
    (hhm : s.hasmore = true) (hwt : s.write_type = FDO_SYS_MOD_MSG_DATA)
    (hnz : s.file_sz ≠ 0) (hsame : s.file_sz = env.get_file_sz s.filename)
    (hpos : s.file_seek_pos ≤ s.file_sz)
    (halloc : env.ModuleAlloc 0 (min a.mtu (s.file_sz - s.file_seek_pos)) = true)
    (hmemset : env.memset_s_bin (min a.mtu (s.file_sz - s.file_seek_pos)) = true)
    (hread : env.read_buffer_from_file_from_pos s.filename
      (min a.mtu (s.file_sz - s.file_seek_pos)) s.file_seek_pos = none)
    (hlabel : env.memcpy_s_label "eot" = true)
    (hacc : accepts env [] (eot_val 1) = true)
    (hlen : env.fdow_encoded_length (eot_val 1) = some n)
    (hcopy : env.memcpy_s_out n = true) :
    fdo_sys K env a s = ⟨FDO_SI_SUCCESS,
      { s with fdow := eot_val 1, fetch_data_status := 1 },
      { Output.start a with
          module_message := some "eot", module_val_sz := some n,
          module_val := some (eot_val 1) }⟩ := by
  obtain ⟨fdow, filename, svi, seek, fsz, fds, eal, fal, ic, rc, ws, er, hm, im, wt⟩ := s
  dsimp only at hhm hwt hnz hsame hpos halloc hmemset hread ⊢
  subst hhm hwt
  have hcond : ¬ (fsz = 0 ∨ ¬ fsz = env.get_file_sz filename ∨ seek > fsz) := by
    rw [← hsame]
    omega
  have hgd : get_dsi env a
      { fdow := fdow, filename := filename, svi_map_key := svi, file_seek_pos := seek,
        file_sz := fsz, fetch_data_status := fds, exec_array_length := eal,
        fetch_array_length := fal, status_cb_iscomplete := ic, status_cb_resultcode := rc,
        status_cb_waitsec := ws, exec_result := er, hasmore := true, ismore := im,
        write_type := FDO_SYS_MOD_MSG_DATA } = (Ctl.goto_end FDO_SI_SUCCESS false false,
      { fdow := eot_val 1, filename := filename, svi_map_key := svi, file_seek_pos := seek,
        file_sz := fsz, fetch_data_status := 1, exec_array_length := eal,
        fetch_array_length := fal, status_cb_iscomplete := ic, status_cb_resultcode := rc,
        status_cb_waitsec := ws, exec_result := er, hasmore := true, ismore := im,
        write_type := FDO_SYS_MOD_MSG_DATA },
      { Output.start a with
          module_message := some "eot", module_val_sz := some n,
          module_val := some (eot_val 1) }) := by
    simp only [get_dsi, hmtu, hmm, hval, hszs, henc, get_dsi_data, hcond, chunk_len_eq_min,
      halloc, hmemset, hread, if_false, Option.isNone_iff_eq_none, false_or, or_self,
      Bool.true_eq_false, reduceCtorEq, ne_eq, get_dsi_tail, get_dsi_data_eot,
      write_eot_nil hmm hlabel hacc]
    simp [hlen, hcopy]
  rw [fdo_sys_get_dsi htype hgd, end_block_success_none]

/-- C17. In a session with hasmore = true, write_type = DATA, file_sz > 0, file_seek_pos
at most file_sz and the file still of size file_sz, a GetDsi round with mtu > 0 whose
buffer set-up, read and encode succeed asks for chunk = min(mtu, file_sz - file_seek_pos)
bytes at offset file_seek_pos, emits the message labelled data carrying the chunk-long
buffer and svi_map_key, returns Success, adds chunk to file_seek_pos and leaves hasmore =
true; write_type becomes EOT and fetch_data_status 0 when the new file_seek_pos equals
file_sz, and write_type stays DATA otherwise. -/
theorem data_step (K : Consts) (env : Env) (a : Args) (s : Session) (bytes : List Nat)
    (n : Nat) (htype : a.type = FDO_SI_GET_DSI) (hmtu : 0 < a.mtu)
    (hmm : a.module_message ≠ none) (hval : a.module_val = true)
    (hszs : a.module_val_sz ≠ none) (henc : env.fdow_encoder_init = true)
    (hhm : s.hasmore = true) (hwt : s.write_type = FDO_SYS_MOD_MSG_DATA)
    (hnz : 0 < s.file_sz) (hsame : env.get_file_sz s.filename = s.file_sz)
    (hpos : s.file_seek_pos ≤ s.file_sz)
    (halloc : env.ModuleAlloc 0 (min a.mtu (s.file_sz - s.file_seek_pos)) = true)
    (hmemset : env.memset_s_bin (min a.mtu (s.file_sz - s.file_seek_pos)) = true)
    (hread : env.read_buffer_from_file_from_pos s.filename
      (min a.mtu (s.file_sz - s.file_seek_pos)) s.file_seek_pos = some bytes)
    (hlabel : env.memcpy_s_label "data" = true)
    (hacc : accepts env [] (data_val
      (fill_buffer (min a.mtu (s.file_sz - s.file_seek_pos)) bytes) s.svi_map_key) = true)
    (hlen : env.fdow_encoded_length (data_val
      (fill_buffer (min a.mtu (s.file_sz - s.file_seek_pos)) bytes) s.svi_map_key) = some n)
    (hcopy : env.memcpy_s_out n = true) :
    (fdo_sys K env a s).result = FDO_SI_SUCCESS ∧
    emitted (fdo_sys K env a s) = some ("data",
      [WCall.start_array 2,
        WCall.byte_string (fill_buffer (min a.mtu (s.file_sz - s.file_seek_pos)) bytes),
        WCall.text_string s.svi_map_key]) ∧
    (fill_buffer (min a.mtu (s.file_sz - s.file_seek_pos)) bytes).length
      = min a.mtu (s.file_sz - s.file_seek_pos) ∧
    (fdo_sys K env a s).state.file_seek_pos
      = s.file_seek_pos + min a.mtu (s.file_sz - s.file_seek_pos) ∧
    (fdo_sys K env a s).state.file_sz = s.file_sz ∧
    (fdo_sys K env a s).state.hasmore = true ∧
    ((fdo_sys K env a s).state.file_seek_pos = s.file_sz →
      (fdo_sys K env a s).state.write_type = FDO_SYS_MOD_MSG_EOT ∧
      (fdo_sys K env a s).state.fetch_data_status = 0) ∧
    ((fdo_sys K env a s).state.file_seek_pos ≠ s.file_sz →
      (fdo_sys K env a s).state.write_type = FDO_SYS_MOD_MSG_DATA) := by
  have h := get_dsi_data_step K env a s bytes n htype (by omega) hmm hval hszs henc hhm hwt
    (by omega) hsame.symm hpos halloc hmemset hread hlabel hacc hlen hcopy
  rw [h]
  refine ⟨rfl, by simp [emitted, data_val], fill_buffer_length _ _, rfl, rfl, rfl, ?_, ?_⟩
  · intro hq
    dsimp only at hq ⊢
    rw [if_pos hq.symm]
    exact ⟨rfl, rfl⟩
  · intro hq
    dsimp only at hq ⊢
    rw [if_neg (fun h => hq h.symm)]

/-- C17, worked input: the first data round of the fetch of `a.bin` with mtu 2. -/
theorem data_step_witness :
    (fdo_sys K0 (env_ok files0 []) (args_get_dsi 2) session_fetching).result
      = FDO_SI_SUCCESS ∧
    emitted (fdo_sys K0 (env_ok files0 []) (args_get_dsi 2) session_fetching)
      = some ("data", [WCall.start_array 2, WCall.byte_string [1, 2], WCall.text_string "k"]) ∧
    (fdo_sys K0 (env_ok files0 []) (args_get_dsi 2) session_fetching).state.file_seek_pos
      = 2 ∧
    (fdo_sys K0 (env_ok files0 []) (args_get_dsi 2) session_fetching).state.write_type
      = FDO_SYS_MOD_MSG_DATA :=
  have h := data_step K0 (env_ok files0 []) (args_get_dsi 2) session_fetching [1, 2] 3 rfl
    (by decide) (by decide) rfl (by decide) rfl rfl rfl (by decide) rfl (by decide) rfl rfl
    rfl rfl rfl rfl rfl
  ⟨h.1, h.2.1, h.2.2.2.1, h.2.2.2.2.2.2.2 (by rw [h.2.2.2.1]; decide)⟩

/-- C19. In a session with hasmore = true, write_type = DATA and a non-empty file of
unchanged size, a GetDsi round in which the read of the next chunk fails (the other
collaborator calls succeeding) emits an eot message with status 1, returns Success and
leaves file_seek_pos unchanged. -/
theorem read_failure_round (K : Consts) (env : Env) (a : Args) (s : Session) (n : Nat)
    (htype : a.type = FDO_SI_GET_DSI) (hmtu : 0 < a.mtu)
    (hmm : a.module_message ≠ none) (hval : a.module_val = true)
    (hszs : a.module_val_sz ≠ none) (henc : env.fdow_encoder_init = true)
    (hhm : s.hasmore = true) (hwt : s.write_type = FDO_SYS_MOD_MSG_DATA)
    (hnz : 0 < s.file_sz) (hsame : env.get_file_sz s.filename = s.file_sz)
    (hpos : s.file_seek_pos ≤ s.file_sz)
    (halloc : env.ModuleAlloc 0 (min a.mtu (s.file_sz - s.file_seek_pos)) = true)
    (hmemset : env.memset_s_bin (min a.mtu (s.file_sz - s.file_seek_pos)) = true)
    (hread : env.read_buffer_from_file_from_pos s.filename
      (min a.mtu (s.file_sz - s.file_seek_pos)) s.file_seek_pos = none)
    (hlabel : env.memcpy_s_label "eot" = true)
    (hacc : accepts env [] (eot_val 1) = true)
    (hlen : env.fdow_encoded_length (eot_val 1) = some n)
    (hcopy : env.memcpy_s_out n = true) :
    (fdo_sys K env a s).result = FDO_SI_SUCCESS ∧
    emitted (fdo_sys K env a s)
      = some ("eot", [WCall.start_array 1, WCall.signed_int 1, WCall.end_array]) ∧
    (fdo_sys K env a s).state.file_seek_pos = s.file_seek_pos ∧
    (fdo_sys K env a s).state.file_sz = s.file_sz := by
  have h := get_dsi_data_read_failure K env a s n htype (by omega) hmm hval hszs henc hhm hwt
    (by omega) hsame.symm hpos halloc hmemset hread hlabel hacc hlen hcopy
  rw [h]
  exact ⟨rfl, by simp [emitted, eot_val], rfl, rfl⟩

/-- C19, worked input: the read fails in the first data round of the fetch of `a.bin`. -/
theorem read_failure_round_witness :
    (fdo_sys K0 env_read_fails (args_get_dsi 2) session_fetching).result = FDO_SI_SUCCESS ∧
    emitted (fdo_sys K0 env_read_fails (args_get_dsi 2) session_fetching)
      = some ("eot", [WCall.start_array 1, WCall.signed_int 1, WCall.end_array]) ∧
    (fdo_sys K0 env_read_fails (args_get_dsi 2) session_fetching).state.file_seek_pos = 0 ∧
    (fdo_sys K0 env_read_fails (args_get_dsi 2) session_fetching).state.file_sz = 5 :=
  read_failure_round K0 env_read_fails (args_get_dsi 2) session_fetching 3 rfl
    (by decide) (by decide) rfl (by decide) rfl rfl rfl (by decide) rfl (by decide) rfl rfl
    rfl rfl rfl rfl rfl

/-! ## Copies into `filename` and `svi_map_key` -/

theorem cstr_of_no_nul (t : String) (h : ∀ c ∈ t.data, c ≠ Char.ofNat 0) :
    cstr t = t.data := by
  unfold cstr
  rw [List.takeWhile_eq_self_iff]
  intro c hc
  simpa using h c hc

theorem copy_of_no_nul (t : String) (h : ∀ c ∈ t.data, c ≠ Char.ofNat 0) :
    String.mk ((cstr t).take t.length) = t := by
  rw [cstr_of_no_nul t h]
  have : t.data.take t.length = t.data := List.take_of_length_le (le_of_eq rfl)
  rw [this]

theorem strncpy_s_fits (K : Consts) (dmax : Nat) (t : String) (h : Fits K dmax t) :
    strncpy_s K dmax t t.length = some t := by
  obtain ⟨h1, h2, h3, h4⟩ := h
  have hlen : ((cstr t).take t.length).length < dmax := by
    have ht : t.data.take t.length = t.data := List.take_of_length_le (le_of_eq rfl)
    rw [cstr_of_no_nul t h4, ht]
    exact h2
  have hc : ¬ (dmax = 0 ∨ dmax > K.RSIZE_MAX_STR ∨ t.length = 0 ∨
      t.length > K.RSIZE_MAX_STR) := by
    omega
  unfold strncpy_s
  rw [if_neg hc, if_pos hlen, copy_of_no_nul t h4]

theorem strncpy_s_some (K : Consts) (dmax : Nat) (src : String) (slen : Nat) (f : String)
    (h : strncpy_s K dmax src slen = some f) : f = String.mk ((cstr src).take slen) := by
  unfold strncpy_s at h
  split_ifs at h
  simp only [Option.some.injEq] at h
  exact h.symm

theorem store_filename_true (K : Consts) (env : Env) (src : String) (slen : Nat)
    (s s1 : Session) (h : store_filename K env src slen s = (true, s1)) :
    s1 = { s with filename := String.mk ((cstr src).take slen) } := by
  unfold store_filename at h
  split_ifs at h
  · simp at h
  · split at h
    · simp at h
    · rename_i f hf
      simp only [Prod.mk.injEq, true_and] at h
      rw [← h, strncpy_s_some K _ _ _ _ hf]

theorem store_svi_map_key_true (K : Consts) (env : Env) (src : String) (slen : Nat)
    (s s1 : Session) (h : store_svi_map_key K env src slen s = (true, s1)) :
    s1 = { s with svi_map_key := String.mk ((cstr src).take slen) } := by
  unfold store_svi_map_key at h
  split_ifs at h
  · simp at h
  · split at h
    · simp at h
    · rename_i f hf
      simp only [Prod.mk.injEq, true_and] at h
      rw [← h, strncpy_s_some K _ _ _ _ hf]

theorem store_filename_fits (K : Consts) (env : Env) (t : String) (s : Session)
    (hm : env.memset_s_filename = true) (h : Fits K K.FILE_NAME_LEN t) :
    store_filename K env t t.length s = (true, { s with filename := t }) := by
  simp [store_filename, hm, strncpy_s_fits K _ t h]

theorem store_svi_map_key_fits (K : Consts) (env : Env) (t : String) (s : Session)
    (hm : env.memset_s_svi_map_key = true) (h : Fits K K.SVI_MAP_KEY_LEN t) :
    store_svi_map_key K env t t.length s = (true, { s with svi_map_key := t }) := by
  simp [store_svi_map_key, hm, strncpy_s_fits K _ t h]

/-! ## The label `filedesc` -/

theorem set_osi_arrives_filedesc (K : Consts) (env : Env) (a : Args) (s : Session)
    (h : MessageArrives K env a "filedesc") :
    set_osi K env a s = set_osi_filedesc K env s (Output.start a) := by
  obtain ⟨_, hmsg, hval, sz, hsz, hle, hcp, hpi⟩ := h
  have hbig : ¬ sz > K.MOD_MAX_BUFF_SIZE := by omega
  unfold set_osi
  simp [hmsg, hval, hsz, hbig, hcp, hpi]

theorem set_osi_filedesc_empty (K : Consts) (env : Env) (s : Session) (out : Output)
    (hlen : env.fdor_string_length 0 = some 0) :
    set_osi_filedesc K env s out = (Ctl.ret FDO_SI_CONTENT_ERROR, s, out) := by
  simp [set_osi_filedesc, hlen]

theorem set_osi_filedesc_fits (K : Consts) (env : Env) (s : Session) (out : Output)
    (n : String) (hlen : env.fdor_string_length 0 = some n.length)
    (hfit : Fits K K.FILE_NAME_LEN n) (halloc : env.ModuleAlloc 0 n.length = true)
    (hclr : env.memset_s_bin n.length = true)
    (htxt : env.fdor_text_string 0 n.length = some n) (hmf : env.memset_s_filename = true) :
    set_osi_filedesc K env s out =
      (Ctl.goto_end (if env.delete_old_file n = true then FDO_SI_SUCCESS
          else FDO_SI_INTERNAL_ERROR) false false, { s with filename := n }, out) := by
  have h0 : n.length ≠ 0 := by
    have := hfit.1
    omega
  unfold set_osi_filedesc
  simp only [hlen, htxt, store_filename_fits K env n s hmf hfit, if_neg h0, halloc, hclr]
  by_cases hd : env.delete_old_file n = true
  · simp [hd]
  · simp [hd]

/-- C14: a `filedesc` message carrying the name `n` (the reader reports the length of `n`
and delivers `n`). When `n` is empty the call returns ContentError and leaves the session,
hence the stored filename, as it was. When `n` is a non-empty C string that fits the
filename buffer and the allocation, clearing and decoding succeed, the stored filename is
`n`, and the call returns Success exactly when the file collaborator, asked to delete the
file at path `n`, reports success. -/
theorem filedesc_replaces_filename (K : Consts) (env : Env) (a : Args) (s : Session)
    (n : String) (harr : MessageArrives K env a "filedesc")
    (hlen : env.fdor_string_length 0 = some n.length) :
    (n = "" → (fdo_sys K env a s).result = FDO_SI_CONTENT_ERROR ∧
      (fdo_sys K env a s).state = s) ∧
    (Fits K K.FILE_NAME_LEN n → env.ModuleAlloc 0 n.length = true →
      env.memset_s_bin n.length = true → env.fdor_text_string 0 n.length = some n →
      env.memset_s_filename = true →
      (fdo_sys K env a s).state.filename = n ∧
      ((fdo_sys K env a s).result = FDO_SI_SUCCESS ↔ env.delete_old_file n = true)) := by
  have hsw := set_osi_arrives_filedesc K env a s harr
  have htype := harr.1
  constructor
  · intro hn
    subst hn
    rw [set_osi_filedesc_empty K env s _ hlen] at hsw
    have h : fdo_sys_switch K env a s = (Ctl.ret FDO_SI_CONTENT_ERROR, s, Output.start a) := by
      simp [fdo_sys_switch, htype, hsw]
    rw [fdo_sys_of_ret h]
    exact ⟨rfl, rfl⟩
  · intro hfit halloc hclr htxt hmf
    rw [set_osi_filedesc_fits K env s _ n hlen hfit halloc hclr htxt hmf] at hsw
    rw [fdo_sys_set_osi htype hsw]
    dsimp only
    rw [end_block_filename]
    refine ⟨rfl, ?_⟩
    by_cases hd : env.delete_old_file n = true
    · simp [hd]
    · simp [hd]

theorem filedesc_replaces_filename_witness :
    ((fdo_sys K0 (env_ok files0 ["b.bin"]) (args_set_osi "filedesc" 6)
        session_after_fetch).state.filename = "b.bin" ∧
      ((fdo_sys K0 (env_ok files0 ["b.bin"]) (args_set_osi "filedesc" 6)
        session_after_fetch).result = FDO_SI_SUCCESS ↔
        (env_ok files0 ["b.bin"]).delete_old_file "b.bin" = true)) ∧
    ((fdo_sys K0 (env_ok files0 [""]) (args_set_osi "filedesc" 1)
        session_after_fetch).result = FDO_SI_CONTENT_ERROR ∧
      (fdo_sys K0 (env_ok files0 [""]) (args_set_osi "filedesc" 1)
        session_after_fetch).state = session_after_fetch) :=
  ⟨(filedesc_replaces_filename K0 (env_ok files0 ["b.bin"]) (args_set_osi "filedesc" 6)
      session_after_fetch "b.bin"
      ⟨rfl, rfl, rfl, 6, rfl, by decide, rfl, rfl⟩ rfl).2
      ⟨by decide, by decide, by decide, by decide⟩ rfl rfl rfl rfl,
   (filedesc_replaces_filename K0 (env_ok files0 [""]) (args_set_osi "filedesc" 1)
      session_after_fetch ""
      ⟨rfl, rfl, rfl, 1, rfl, by decide, rfl, rfl⟩ rfl).1 rfl⟩

/-! ## The argument loop of `fetch` -/

theorem set_osi_arrives_fetch (K : Consts) (env : Env) (a : Args) (s : Session)
    (h : MessageArrives K env a "fetch") :
    set_osi K env a s = set_osi_fetch K env s (Output.start a) := by
  obtain ⟨_, hmsg, hval, sz, hsz, hle, hcp, hpi⟩ := h
  have hbig : ¬ sz > K.MOD_MAX_BUFF_SIZE := by omega
  unfold set_osi
  simp [hmsg, hval, hsz, hbig, hcp, hpi]

/-- What one successful pass of the `fetch` loop stores: element 0 into `filename`,
element 1 into `svi_map_key`, nothing for any other index. -/
theorem fetch_item_true (K : Consts) (env : Env) (i : Nat) (s s1 : Session)
    (h : fetch_item K env i s = (true, s1)) :
    s1.filename = (if i = 0 then element_copy env 0 else s.filename) ∧
    s1.svi_map_key = (if i = 1 then element_copy env 1 else s.svi_map_key) := by
  unfold fetch_item at h
  by_cases h1 : env.ModuleAlloc (i + 1) K.MOD_MAX_FETCH_ARG_LEN = false
  · rw [if_pos h1] at h
    simp at h
  rw [if_neg h1] at h
  by_cases h2 : env.memset_s_instr i = false
  · rw [if_pos h2] at h
    simp at h
  rw [if_neg h2] at h
  split at h
  · simp at h
  · rename_i sz hsz
    by_cases h3 : sz > K.MOD_MAX_FETCH_ARG_LEN
    · rw [if_pos h3] at h
      simp at h
    rw [if_neg h3] at h
    split at h
    · simp at h
    · rename_i txt htxt
      dsimp only at h
      by_cases hi0 : i = 0
      · subst hi0
        simp only [if_true] at h
        rcases hst : store_filename K env txt sz s with ⟨b, s2⟩
        rw [hst] at h
        cases b with
        | false => simp at h
        | true =>
          simp only [Bool.true_eq_false, if_false, zero_ne_one, Prod.mk.injEq, true_and] at h
          subst h
          rw [store_filename_true K env txt sz s s2 hst]
          simp [element_copy, hsz, htxt]
      · simp only [if_neg hi0, Bool.true_eq_false, if_false] at h
        by_cases hi1 : i = 1
        · subst hi1
          simp only [if_true] at h
          rw [store_svi_map_key_true K env txt sz s s1 h]
          simp [element_copy, hsz, htxt]
        · simp only [if_neg hi1, Prod.mk.injEq, true_and] at h
          subst h
          simp [hi0, hi1]

/-- What a successful run of the `fetch` loop from index `i` stores. -/
theorem fetch_loop_true (K : Consts) (env : Env) :
    ∀ (todo i : Nat) (s s1 : Session), fetch_loop K env todo i s = (true, s1) →
      s1.filename = (if i = 0 ∧ 0 < todo then element_copy env 0 else s.filename) ∧
      s1.svi_map_key =
        (if i ≤ 1 ∧ 1 < i + todo then element_copy env 1 else s.svi_map_key) := by
  intro todo
  induction todo with
  | zero =>
    intro i s s1 h
    simp only [fetch_loop, Prod.mk.injEq, true_and] at h
    subst h
    have h1 : ¬ (i ≤ 1 ∧ 1 < i + 0) := by omega
    rw [if_neg h1]
    simp
  | succ todo ih =>
    intro i s s1 h
    simp only [fetch_loop] at h
    rcases hit : fetch_item K env i s with ⟨b, s2⟩
    rw [hit] at h
    cases b with
    | false => simp at h
    | true =>
      dsimp only at h
      obtain ⟨hf, hk⟩ := fetch_item_true K env i s s2 hit
      obtain ⟨hf2, hk2⟩ := ih (i + 1) s2 s1 h
      have hn : ¬ (i + 1 = 0 ∧ 0 < todo) := by omega
      rw [if_neg hn] at hf2
      rw [hf2, hf, hk2, hk]
      constructor
      · by_cases hi : i = 0
        · simp [hi]
        · simp [hi]
      · by_cases hi : i = 0
        · subst hi
          by_cases ht : 0 < todo
          · have c1 : (0 + 1 ≤ 1 ∧ 1 < 0 + 1 + todo) := by omega
            have c2 : (0 ≤ 1 ∧ 1 < 0 + (todo + 1)) := by omega
            rw [if_pos c1, if_pos c2]
          · have c1 : ¬ (0 + 1 ≤ 1 ∧ 1 < 0 + 1 + todo) := by omega
            have c2 : ¬ (0 ≤ 1 ∧ 1 < 0 + (todo + 1)) := by omega
            rw [if_neg c1, if_neg c2]
            simp
        · by_cases hi1 : i = 1
          · subst hi1
            have c1 : ¬ (1 + 1 ≤ 1 ∧ 1 < 1 + 1 + todo) := by omega
            have c2 : (1 ≤ 1 ∧ 1 < 1 + (todo + 1)) := by omega
            rw [if_neg c1, if_pos c2]
            simp
          · have c1 : ¬ (i + 1 ≤ 1 ∧ 1 < i + 1 + todo) := by omega
            have c2 : ¬ (i ≤ 1 ∧ 1 < i + (todo + 1)) := by omega
            rw [if_neg c1, if_neg c2, if_neg hi1]

theorem element_copy_decodes (env : Env) (k : Nat) (t : String)
    (hlen : env.fdor_string_length k = some t.length)
    (htxt : env.fdor_text_string k t.length = some t)
    (hnul : ∀ c ∈ t.data, c ≠ Char.ofNat 0) : element_copy env k = t := by
  simp only [element_copy, hlen, htxt]
  exact copy_of_no_nul t hnul

/-- One pass of the `fetch` loop succeeds on an array that decodes and whose first two
items fit their buffers. -/
theorem fetch_item_decodes (K : Consts) (env : Env) (args : List String) (i : Nat)
    (t : String) (s : Session)
    (hdec : ArrayDecodes K env K.MOD_MAX_FETCH_ARG_LEN args) (hi : args.get? i = some t)
    (hmf : env.memset_s_filename = true) (hms : env.memset_s_svi_map_key = true)
    (hfit0 : ∀ t, args.get? 0 = some t → Fits K K.FILE_NAME_LEN t)
    (hfit1 : ∀ t, args.get? 1 = some t → Fits K K.SVI_MAP_KEY_LEN t) :
    (fetch_item K env i s).1 = true := by
  obtain ⟨ha, hc, hl, hle, htx⟩ := hdec.2.2.2 i t hi
  have hn : ¬ t.length > K.MOD_MAX_FETCH_ARG_LEN := by omega
  unfold fetch_item
  simp only [ha, hc, hl, htx, Bool.true_eq_false, if_false, if_neg hn]
  by_cases hi0 : i = 0
  · subst hi0
    simp [store_filename_fits K env t s hmf (hfit0 t hi)]
  · by_cases hi1 : i = 1
    · subst hi1
      simp [store_svi_map_key_fits K env t s hms (hfit1 t hi)]
    · simp [hi0, hi1]

theorem fetch_loop_decodes (K : Consts) (env : Env) (args : List String)
    (hdec : ArrayDecodes K env K.MOD_MAX_FETCH_ARG_LEN args)
    (hmf : env.memset_s_filename = true) (hms : env.memset_s_svi_map_key = true)
    (hfit0 : ∀ t, args.get? 0 = some t → Fits K K.FILE_NAME_LEN t)
    (hfit1 : ∀ t, args.get? 1 = some t → Fits K K.SVI_MAP_KEY_LEN t) :
    ∀ (todo i : Nat) (s : Session), i + todo = args.length →
      (fetch_loop K env todo i s).1 = true := by
  intro todo
  induction todo with
  | zero => intro i s _; rfl
  | succ todo ih =>
    intro i s hlen
    have hlt : i < args.length := by omega
    have hget : args.get? i = some (args.get ⟨i, hlt⟩) := List.get?_eq_get hlt
    have hit := fetch_item_decodes K env args i _ s hdec hget hmf hms hfit0 hfit1
    simp only [fetch_loop]
    rcases hf : fetch_item K env i s with ⟨b, s2⟩
    rw [hf] at hit
    dsimp only at hit
    subst hit
    dsimp only
    exact ih (i + 1) s2 (by omega)

theorem set_osi_fetch_names (K : Consts) (env : Env) (s : Session) (out : Output) (len : Nat)
    (hlen : env.fdor_array_length = some len) :
    (∃ r e f s1, r ≠ FDO_SI_SUCCESS ∧
      set_osi_fetch K env s out = (Ctl.goto_end r e f, s1, out)) ∨
    (∃ s1, set_osi_fetch K env s out = (Ctl.goto_end FDO_SI_SUCCESS false true, s1, out) ∧
      0 < len ∧ s1.filename = element_copy env 0 ∧
      s1.svi_map_key = (if 1 < len then element_copy env 1 else s.svi_map_key) ∧
      s1.file_sz = env.get_file_sz s1.filename ∧ s1.file_seek_pos = 0 ∧
      s1.hasmore = true ∧ s1.write_type = FDO_SYS_MOD_MSG_DATA) := by
  unfold set_osi_fetch
  simp only [hlen]
  by_cases h0 : len = 0
  · rw [if_pos h0]
    exact Or.inl ⟨_, _, _, _, by decide, rfl⟩
  rw [if_neg h0]
  by_cases h1 : env.fdor_start_array = false
  · rw [if_pos h1]
    exact Or.inl ⟨_, _, _, _, by decide, rfl⟩
  rw [if_neg h1]
  by_cases h2 : env.ModuleAlloc 0 (K.sizeof_ptr * (len + 1)) = false
  · rw [if_pos h2]
    exact Or.inl ⟨_, _, _, _, by decide, rfl⟩
  rw [if_neg h2]
  rcases hl : fetch_loop K env len 0 { s with fetch_array_length := len } with ⟨b, s1⟩
  cases b with
  | false => exact Or.inl ⟨_, _, _, _, by decide, rfl⟩
  | true =>
    obtain ⟨hf, hk⟩ := fetch_loop_true K env len 0 _ s1 hl
    have c0 : (0 = 0 ∧ 0 < len) := by omega
    rw [if_pos c0] at hf
    refine Or.inr ⟨_, rfl, by omega, hf, ?_, rfl, rfl, rfl, rfl⟩
    dsimp only
    rw [hk]
    by_cases hlt : 1 < len
    · have c1 : (0 ≤ 1 ∧ 1 < 0 + len) := by omega
      rw [if_pos c1, if_pos hlt]
    · have c1 : ¬ (0 ≤ 1 ∧ 1 < 0 + len) := by omega
      rw [if_neg c1, if_neg hlt]

/-- The names a successful fetch leaves in the session, in terms of what the reader
delivers for elements 0 and 1 of the array. -/
theorem fetch_success_names (K : Consts) (env : Env) (a : Args) (s : Session) (len : Nat)
    (htype : a.type = FDO_SI_SET_OSI) (hmsg : a.module_message = some "fetch")
    (hlen : env.fdor_array_length = some len)
    (hres : (fdo_sys K env a s).result = FDO_SI_SUCCESS) :
    0 < len ∧ (fdo_sys K env a s).state.filename = element_copy env 0 ∧
    (fdo_sys K env a s).state.svi_map_key =
      (if 1 < len then element_copy env 1 else s.svi_map_key) := by
  rcases set_osi_fetch_label K env a s hmsg with hsw | ⟨r, hr, hsw⟩
  · rcases set_osi_fetch_names K env s (Output.start a) len hlen with
      ⟨r, e, f, s1, hr, heq⟩ | ⟨s1, heq, hpos, hf, hk, _⟩
    · rw [heq] at hsw
      rw [fdo_sys_set_osi htype hsw] at hres
      exact absurd hres hr
    · rw [heq] at hsw
      rw [fdo_sys_set_osi htype hsw]
      dsimp only
      rw [end_block_filename, end_block_svi_map_key]
      exact ⟨hpos, hf, hk⟩
  · rw [fdo_sys_set_osi htype hsw] at hres
    exact absurd hres hr

/-- A fetch whose array decodes and whose first two items fit their buffers succeeds. -/
theorem fetch_decodes_success (K : Consts) (env : Env) (a : Args) (s : Session)
    (args : List String) (harr : MessageArrives K env a "fetch")
    (hdec : ArrayDecodes K env K.MOD_MAX_FETCH_ARG_LEN args) (hne : args ≠ [])
    (hmf : env.memset_s_filename = true) (hms : env.memset_s_svi_map_key = true)
    (hfit0 : ∀ t, args.get? 0 = some t → Fits K K.FILE_NAME_LEN t)
    (hfit1 : ∀ t, args.get? 1 = some t → Fits K K.SVI_MAP_KEY_LEN t) :
    (fdo_sys K env a s).result = FDO_SI_SUCCESS := by
  have hsw := set_osi_arrives_fetch K env a s harr
  have hpos : args.length ≠ 0 := by
    intro h
    exact hne (List.length_eq_zero.mp h)
  have hloop := fetch_loop_decodes K env args hdec hmf hms hfit0 hfit1 args.length 0
    { s with fetch_array_length := args.length } (by omega)
  rcases hl : fetch_loop K env args.length 0 { s with fetch_array_length := args.length }
    with ⟨b, s1⟩
  rw [hl] at hloop
  dsimp only at hloop
  subst hloop
  have heq : set_osi_fetch K env s (Output.start a) =
      (Ctl.goto_end FDO_SI_SUCCESS false true,
        { s1 with file_sz := env.get_file_sz s1.filename, hasmore := true,
                  file_seek_pos := 0, write_type := FDO_SYS_MOD_MSG_DATA },
        Output.start a) := by
    unfold set_osi_fetch
    simp only [hdec.1, if_neg hpos, hdec.2.1, hdec.2.2.1, Bool.true_eq_false, if_false, hl]
  rw [heq] at hsw
  rw [fdo_sys_set_osi harr.1 hsw]

/-- C11: a `fetch` message whose array decodes to the `n >= 1` text items `args`, each
within the fetch argument limit, the first a non-empty C string that fits `filename` and
the second (if any) one that fits `svi_map_key`, with every reader, allocation and
clearing call succeeding. From any session the call returns Success; afterwards `filename`
is the first item, `svi_map_key` is the second item if there is one and unchanged if not,
`file_sz` is the size the file collaborator reports for the new filename,
`file_seek_pos = 0`, `hasmore = true` and `write_type = DATA`. -/
theorem fetch_effect (K : Consts) (env : Env) (a : Args) (s : Session)
    (args : List String) (harr : MessageArrives K env a "fetch")
    (hdec : ArrayDecodes K env K.MOD_MAX_FETCH_ARG_LEN args) (hne : args ≠ [])
    (hmf : env.memset_s_filename = true) (hms : env.memset_s_svi_map_key = true)
    (hfit0 : ∀ t, args.get? 0 = some t → Fits K K.FILE_NAME_LEN t)
    (hfit1 : ∀ t, args.get? 1 = some t → Fits K K.SVI_MAP_KEY_LEN t) :
    (fdo_sys K env a s).result = FDO_SI_SUCCESS ∧
    args.get? 0 = some (fdo_sys K env a s).state.filename ∧
    (2 ≤ args.length → args.get? 1 = some (fdo_sys K env a s).state.svi_map_key) ∧
    (args.length = 1 → (fdo_sys K env a s).state.svi_map_key = s.svi_map_key) ∧
    (fdo_sys K env a s).state.file_sz =
      env.get_file_sz (fdo_sys K env a s).state.filename ∧
    (fdo_sys K env a s).state.file_seek_pos = 0 ∧
    (fdo_sys K env a s).state.hasmore = true ∧
    (fdo_sys K env a s).state.write_type = FDO_SYS_MOD_MSG_DATA := by
  have hres := fetch_decodes_success K env a s args harr hdec hne hmf hms hfit0 hfit1
  obtain ⟨hpos, hf, hk⟩ :=
    fetch_success_names K env a s args.length harr.1 harr.2.1 hdec.1 hres
  obtain ⟨hh, hw, hp, hz⟩ := fetch_success_state K env a s harr.1 harr.2.1 hres
  have hget0 : args.get? 0 = some (args.get ⟨0, hpos⟩) := List.get?_eq_get hpos
  have hc0 : element_copy env 0 = args.get ⟨0, hpos⟩ :=
    element_copy_decodes env 0 _ (hdec.2.2.2 0 _ hget0).2.2.1 (hdec.2.2.2 0 _ hget0).2.2.2.2
      (hfit0 _ hget0).2.2.2
  refine ⟨hres, ?_, ?_, ?_, hz, hp, hh, hw⟩
  · rw [hf, hc0, hget0]
  · intro h2
    have h1 : 1 < args.length := by omega
    have hget1 : args.get? 1 = some (args.get ⟨1, h1⟩) := List.get?_eq_get h1
    have hc1 : element_copy env 1 = args.get ⟨1, h1⟩ :=
      element_copy_decodes env 1 _ (hdec.2.2.2 1 _ hget1).2.2.1
        (hdec.2.2.2 1 _ hget1).2.2.2.2 (hfit1 _ hget1).2.2.2
    rw [hk, if_pos h1, hc1, hget1]
  · intro h1
    have hn : ¬ 1 < args.length := by omega
    rw [hk, if_neg hn]

theorem array_decodes_env_ok (K : Consts) (files : String → List Nat) (items : List String)
    (limit : Nat) (h : ∀ t ∈ items, t.length ≤ limit) :
    ArrayDecodes K (env_ok files items) limit items := by
  refine ⟨rfl, rfl, rfl, ?_⟩
  intro i t hi
  refine ⟨rfl, rfl, ?_, h t (List.get?_mem hi), ?_⟩
  · show ((items.get? i).map String.length) = some t.length
    rw [hi]
    rfl
  · exact hi

theorem fetch_effect_witness :
    (fdo_sys K0 (env_ok files0 ["a.bin", "k2"]) (args_set_osi "fetch" 11)
      session_fetching).result = FDO_SI_SUCCESS ∧
    (fdo_sys K0 (env_ok files0 ["a.bin", "k2"]) (args_set_osi "fetch" 11)
      session_fetching).state.svi_map_key = "k2" ∧
    (fdo_sys K0 (env_ok files0 ["a.bin", "k2"]) (args_set_osi "fetch" 11)
      session_fetching).state.file_seek_pos = 0 := by
  have h := fetch_effect K0 (env_ok files0 ["a.bin", "k2"]) (args_set_osi "fetch" 11)
    session_fetching ["a.bin", "k2"] ⟨rfl, rfl, rfl, 11, rfl, by decide, rfl, rfl⟩
    (array_decodes_env_ok K0 files0 _ _ (by decide)) (by decide) rfl rfl
    (by
      intro t ht
      simp only [List.get?_cons_zero, Option.some.injEq] at ht
      subst ht
      exact ⟨by decide, by decide, by decide, by decide⟩)
    (by
      intro t ht
      simp only [List.get?_cons_succ, List.get?_cons_zero, Option.some.injEq] at ht
      subst ht
      exact ⟨by decide, by decide, by decide, by decide⟩)
  refine ⟨h.1, ?_, h.2.2.2.2.2.1⟩
  have h2 := h.2.2.1 (by decide)
  simp only [List.get?_cons_succ, List.get?_cons_zero, Option.some.injEq] at h2
  exact h2.symm

/-- C13, counterexample: a successful fetch of the three items `a.bin`, `k`, `z` leaves
`svi_map_key = "k"`, the second item and not the last; a successful fetch of the single
item `b.bin` in a session whose key is `k` leaves the key `k`, not `b.bin`. -/
theorem fetch_key_is_not_last :
    (fdo_sys K0 (env_ok files0 ["a.bin", "k", "z"]) (args_set_osi "fetch" 12)
      Session.init).result = FDO_SI_SUCCESS ∧
    (fdo_sys K0 (env_ok files0 ["a.bin", "k", "z"]) (args_set_osi "fetch" 12)
      Session.init).state.svi_map_key = "k" ∧
    ["a.bin", "k", "z"].getLast? = some "z" ∧
    (fdo_sys K0 (env_ok files0 ["b.bin"]) (args_set_osi "fetch" 6)
      session_after_fetch).result = FDO_SI_SUCCESS ∧
    (fdo_sys K0 (env_ok files0 ["b.bin"]) (args_set_osi "fetch" 6)
      session_after_fetch).state.svi_map_key = "k" ∧
    ["b.bin"].getLast? = some "b.bin" := by
  decide

/-- C13, amended: after a successful fetch whose array has `n` elements, `svi_map_key` is
unchanged when `n = 1`, and when `n >= 2` it is the second element of the array (element
1, whatever `n` is), for a second element that is a C string. -/
theorem fetch_key_is_second (K : Consts) (env : Env) (a : Args) (s : Session) (n : Nat)
    (htype : a.type = FDO_SI_SET_OSI) (hmsg : a.module_message = some "fetch")
    (hlen : env.fdor_array_length = some n)
    (hres : (fdo_sys K env a s).result = FDO_SI_SUCCESS) :
    1 ≤ n ∧
    (n = 1 → (fdo_sys K env a s).state.svi_map_key = s.svi_map_key) ∧
    (2 ≤ n → ∀ t : String, env.fdor_string_length 1 = some t.length →
      env.fdor_text_string 1 t.length = some t → (∀ c ∈ t.data, c ≠ Char.ofNat 0) →
      (fdo_sys K env a s).state.svi_map_key = t) := by
  obtain ⟨hpos, _, hk⟩ := fetch_success_names K env a s n htype hmsg hlen hres
  refine ⟨hpos, ?_, ?_⟩
  · intro h1
    have hn : ¬ 1 < n := by omega
    rw [hk, if_neg hn]
  · intro h2 t hl ht hnul
    have h1 : 1 < n := by omega
    rw [hk, if_pos h1]
    exact element_copy_decodes env 1 t hl ht hnul

theorem fetch_key_is_second_witness :
    (fdo_sys K0 (env_ok files0 ["a.bin", "k", "z"]) (args_set_osi "fetch" 12)
      Session.init).state.svi_map_key = "k" :=
  (fetch_key_is_second K0 (env_ok files0 ["a.bin", "k", "z"]) (args_set_osi "fetch" 12)
    Session.init 3 rfl rfl rfl (by decide)).2.2 (by decide) "k" rfl rfl (by decide)

/-! ## The argument loop of `exec` and `exec_cb` -/

theorem set_osi_arrives_exec (K : Consts) (env : Env) (a : Args) (s : Session)
    (label : String) (hl : label = "exec" ∨ label = "exec_cb")
    (h : MessageArrives K env a label) :
    set_osi K env a s =
      set_osi_exec K env (decide (label = "exec")) s (Output.start a) := by
  obtain ⟨_, hmsg, hval, sz, hsz, hle, hcp, hpi⟩ := h
  have hbig : ¬ sz > K.MOD_MAX_BUFF_SIZE := by omega
  unfold set_osi
  rcases hl with hl | hl
  · subst hl
    simp [hmsg, hval, hsz, hbig, hcp, hpi]
  · subst hl
    simp [hmsg, hval, hsz, hbig, hcp, hpi]

/-- The second component of a store, keyed by its outcome. -/
theorem exec_item_stores (K : Consts) (env : Env) (len i sz : Nat) (txt : String)
    (s s1 : Session) (r : String)
    (h : (let r1 : Bool × Session :=
            if i = 1 then store_filename K env txt sz s else (true, s)
          if r1.1 = false then ((none : Option String), r1.2)
          else
            let r2 : Bool × Session :=
              if i = len - 1 then store_svi_map_key K env txt sz r1.2 else (true, r1.2)
            if r2.1 = false then (none, r2.2) else (some txt, r2.2)) = (some r, s1)) :
    r = txt ∧
    s1.filename = (if i = 1 then String.mk ((cstr txt).take sz) else s.filename) ∧
    s1.svi_map_key =
      (if i = len - 1 then String.mk ((cstr txt).take sz) else s.svi_map_key) := by
  dsimp only at h
  rcases hst : (if i = 1 then store_filename K env txt sz s else (true, s)) with ⟨b, s2⟩
  rw [hst] at h
  cases b with
  | false => simp at h
  | true =>
    simp only [Bool.true_eq_false, if_false] at h
    rcases hsk : (if i = len - 1 then store_svi_map_key K env txt sz s2 else (true, s2))
      with ⟨b2, s3⟩
    rw [hsk] at h
    cases b2 with
    | false => simp at h
    | true =>
      simp only [Bool.true_eq_false, if_false, Prod.mk.injEq, Option.some.injEq] at h
      obtain ⟨hr, hs⟩ := h
      subst hs
      have h2 : s2 = (if i = 1 then { s with filename := String.mk ((cstr txt).take sz) }
          else s) := by
        by_cases hi : i = 1
        · rw [if_pos hi] at hst
          rw [if_pos hi]
          exact store_filename_true K env txt sz s s2 hst
        · rw [if_neg hi] at hst
          rw [if_neg hi]
          simp only [Prod.mk.injEq, true_and] at hst
          exact hst.symm
      have h3 : s3 = (if i = len - 1 then
          { s2 with svi_map_key := String.mk ((cstr txt).take sz) } else s2) := by
        by_cases hi : i = len - 1
        · rw [if_pos hi] at hsk
          rw [if_pos hi]
          exact store_svi_map_key_true K env txt sz s2 s3 hsk
        · rw [if_neg hi] at hsk
          rw [if_neg hi]
          simp only [Prod.mk.injEq, true_and] at hsk
          exact hsk.symm
      rw [h3, h2]
      refine ⟨hr.symm, ?_, ?_⟩
      · split_ifs <;> rfl
      · split_ifs <;> rfl

/-- What one successful pass of the `exec` loop yields and stores: the text of element `i`
as the argument, element 1 into `filename`, the last element into `svi_map_key`. -/
theorem exec_item_some (K : Consts) (env : Env) (len i : Nat) (s s1 : Session)
    (r : String) (h : exec_item K env len i s = (some r, s1)) :
    element_text env i = some r ∧
    s1.filename = (if i = 1 then element_copy env i else s.filename) ∧
    s1.svi_map_key = (if i = len - 1 then element_copy env i else s.svi_map_key) := by
  unfold exec_item at h
  by_cases h1 : env.ModuleAlloc (i + 1) K.MOD_MAX_EXEC_ARG_LEN = false
  · rw [if_pos h1] at h
    simp at h
  rw [if_neg h1] at h
  by_cases h2 : env.memset_s_instr i = false
  · rw [if_pos h2] at h
    simp at h
  rw [if_neg h2] at h
  split at h
  · simp at h
  · rename_i sz hsz
    by_cases h3 : sz > K.MOD_MAX_EXEC_ARG_LEN
    · rw [if_pos h3] at h
      simp at h
    rw [if_neg h3] at h
    split at h
    · simp at h
    · rename_i txt htxt
      obtain ⟨hr, hf, hk⟩ := exec_item_stores K env len i sz txt s s1 r h
      subst hr
      have hc : element_copy env i = String.mk ((cstr r).take sz) := by
        simp only [element_copy, hsz, htxt]
      rw [hc]
      exact ⟨by simp [element_text, hsz, htxt], hf, hk⟩

/-- What a successful run of the `exec` loop from index `i` stores. -/
theorem exec_loop_true (K : Consts) (env : Env) (len : Nat) :
    ∀ (todo i : Nat) (s s1 : Session) (argv argv1 : List String), i + todo = len →
      exec_loop K env len todo i s argv = (true, s1, argv1) →
      s1.filename = (if i ≤ 1 ∧ 1 < len then element_copy env 1 else s.filename) ∧
      s1.svi_map_key =
        (if 0 < todo then element_copy env (len - 1) else s.svi_map_key) := by
  intro todo
  induction todo with
  | zero =>
    intro i s s1 argv argv1 hlen h
    simp only [exec_loop, Prod.mk.injEq, true_and] at h
    obtain ⟨hs, _⟩ := h
    subst hs
    have h1 : ¬ (i ≤ 1 ∧ 1 < len) := by omega
    rw [if_neg h1]
    simp
  | succ todo ih =>
    intro i s s1 argv argv1 hlen h
    simp only [exec_loop] at h
    rcases hit : exec_item K env len i s with ⟨o, s2⟩
    rw [hit] at h
    cases o with
    | none => simp at h
    | some r =>
      dsimp only at h
      obtain ⟨_, hf, hk⟩ := exec_item_some K env len i s s2 r hit
      obtain ⟨hf2, hk2⟩ := ih (i + 1) s2 s1 _ argv1 (by omega) h
      rw [hf2, hf, hk2, hk]
      have ht : 0 < todo + 1 := by omega
      rw [if_pos ht]
      constructor
      · by_cases hi : i = 0
        · subst hi
          by_cases hl : 1 < len
          · have c1 : (0 + 1 ≤ 1 ∧ 1 < len) := by omega
            have c2 : (0 ≤ 1 ∧ 1 < len) := by omega
            rw [if_pos c1, if_pos c2]
          · have c1 : ¬ (0 + 1 ≤ 1 ∧ 1 < len) := by omega
            have c2 : ¬ (0 ≤ 1 ∧ 1 < len) := by omega
            rw [if_neg c1, if_neg c2]
            simp
        · by_cases hi1 : i = 1
          · subst hi1
            have c1 : ¬ (1 + 1 ≤ 1 ∧ 1 < len) := by omega
            have c2 : (1 ≤ 1 ∧ 1 < len) := by omega
            rw [if_neg c1, if_pos c2]
            simp
          · have c1 : ¬ (i + 1 ≤ 1 ∧ 1 < len) := by omega
            have c2 : ¬ (i ≤ 1 ∧ 1 < len) := by omega
            rw [if_neg c1, if_neg c2, if_neg hi1]
      · by_cases h0 : 0 < todo
        · rw [if_pos h0]
        · have hi : i = len - 1 := by omega
          rw [if_neg h0, if_pos hi, hi]

/-- One pass of the `exec` loop succeeds on an array that decodes, whose second item fits
`filename` and whose last item fits `svi_map_key`; it yields the item at that index. -/
theorem exec_item_decodes (K : Consts) (env : Env) (args : List String) (i : Nat)
    (t : String) (s : Session)
    (hdec : ArrayDecodes K env K.MOD_MAX_EXEC_ARG_LEN args) (hi : args.get? i = some t)
    (hmf : env.memset_s_filename = true) (hms : env.memset_s_svi_map_key = true)
    (hfit1 : ∀ t, args.get? 1 = some t → Fits K K.FILE_NAME_LEN t)
    (hfitl : ∀ t, args.get? (args.length - 1) = some t → Fits K K.SVI_MAP_KEY_LEN t) :
    (exec_item K env args.length i s).1 = some t := by
  obtain ⟨ha, hc, hl, hle, htx⟩ := hdec.2.2.2 i t hi
  have hn : ¬ t.length > K.MOD_MAX_EXEC_ARG_LEN := by omega
  unfold exec_item
  simp only [ha, hc, hl, htx, Bool.true_eq_false, if_false, if_neg hn]
  by_cases hi1 : i = 1
  · have hf := fun s => store_filename_fits K env t s hmf (hfit1 t (hi1 ▸ hi))
    by_cases hil : i = args.length - 1
    · have hk := fun s => store_svi_map_key_fits K env t s hms (hfitl t (hil ▸ hi))
      simp only [if_pos hi1, if_pos hil, hf, hk, Bool.true_eq_false, if_false]
    · simp only [if_pos hi1, if_neg hil, hf, Bool.true_eq_false, if_false]
  · by_cases hil : i = args.length - 1
    · have hk := fun s => store_svi_map_key_fits K env t s hms (hfitl t (hil ▸ hi))
      simp only [if_neg hi1, if_pos hil, hk, Bool.true_eq_false, if_false]
    · simp only [if_neg hi1, if_neg hil, Bool.true_eq_false, if_false]

theorem exec_loop_decodes (K : Consts) (env : Env) (args : List String)
    (hdec : ArrayDecodes K env K.MOD_MAX_EXEC_ARG_LEN args)
    (hmf : env.memset_s_filename = true) (hms : env.memset_s_svi_map_key = true)
    (hfit1 : ∀ t, args.get? 1 = some t → Fits K K.FILE_NAME_LEN t)
    (hfitl : ∀ t, args.get? (args.length - 1) = some t → Fits K K.SVI_MAP_KEY_LEN t) :
    ∀ (todo i : Nat) (s : Session) (argv : List String), i + todo = args.length →
      ∃ s1, exec_loop K env args.length todo i s argv = (true, s1, argv ++ args.drop i) := by
  intro todo
  induction todo with
  | zero =>
    intro i s argv hlen
    have hd : args.drop i = [] := List.drop_eq_nil_of_le (by omega)
    exact ⟨s, by simp [exec_loop, hd]⟩
  | succ todo ih =>
    intro i s argv hlen
    have hlt : i < args.length := by omega
    have hget : args.get? i = some (args.get ⟨i, hlt⟩) := List.get?_eq_get hlt
    have hit := exec_item_decodes K env args i _ s hdec hget hmf hms hfit1 hfitl
    simp only [exec_loop]
    rcases hf : exec_item K env args.length i s with ⟨o, s2⟩
    rw [hf] at hit
    dsimp only at hit
    subst hit
    dsimp only
    obtain ⟨s1, h1⟩ := ih (i + 1) s2 (argv ++ [args.get ⟨i, hlt⟩]) (by omega)
    refine ⟨s1, ?_⟩
    rw [h1, List.append_assoc]
    have hd : args.drop i = args.get ⟨i, hlt⟩ :: args.drop (i + 1) :=
      List.drop_eq_getElem_cons hlt
    rw [hd]
    rfl

/-- The arm `exec`/`exec_cb` on an array that decodes: the session `s1` the loop leaves,
and the outcome of the arm in terms of the execution collaborator called on the new
filename with all the items. -/
theorem set_osi_exec_decodes (K : Consts) (env : Env) (is_exec : Bool) (s : Session)
    (out : Output) (args : List String)
    (hdec : ArrayDecodes K env K.MOD_MAX_EXEC_ARG_LEN args) (hne : args ≠ [])
    (hend : env.fdor_end_array = true)
    (hmf : env.memset_s_filename = true) (hms : env.memset_s_svi_map_key = true)
    (hfit1 : ∀ t, args.get? 1 = some t → Fits K K.FILE_NAME_LEN t)
    (hfitl : ∀ t, args.get? (args.length - 1) = some t → Fits K K.SVI_MAP_KEY_LEN t) :
    ∃ s1 : Session,
      s1.filename = (if 1 < args.length then element_copy env 1 else s.filename) ∧
      s1.svi_map_key = element_copy env (args.length - 1) ∧
      s1.hasmore = s.hasmore ∧ s1.write_type = s.write_type ∧
      (is_exec = true → set_osi_exec K env is_exec s out =
        (Ctl.goto_end (if env.process_data_EXEC s1.filename args = true then FDO_SI_SUCCESS
          else FDO_SI_INTERNAL_ERROR) true false, s1, out)) ∧
      (is_exec = false → ∃ s2 : Session,
        s2.filename = s1.filename ∧ s2.svi_map_key = s1.svi_map_key ∧
        ((env.process_data_EXEC_CB s1.filename args).ok = true →
          s2.hasmore = true ∧ s2.write_type = FDO_SYS_MOD_MSG_STATUS_CB) ∧
        set_osi_exec K env is_exec s out =
          (Ctl.goto_end (if (env.process_data_EXEC_CB s1.filename args).ok = true
            then FDO_SI_SUCCESS else FDO_SI_INTERNAL_ERROR) true false, s2, out)) := by
  have hpos : args.length ≠ 0 := by
    intro h
    exact hne (List.length_eq_zero.mp h)
  obtain ⟨s1, hloop⟩ := exec_loop_decodes K env args hdec hmf hms hfit1 hfitl args.length 0
    { s with exec_array_length := args.length } [] (by omega)
  simp only [List.nil_append, List.drop_zero] at hloop
  obtain ⟨hf, hk⟩ := exec_loop_true K env args.length args.length 0 _ s1 [] args
    (by omega) hloop
  have hfr := (exec_loop_frame K env args.length args.length 0
    { s with exec_array_length := args.length } []).frame
  rw [hloop] at hfr
  have hpre : ∀ b, set_osi_exec K env b s out =
      (if b = true then
        if env.process_data_EXEC s1.filename args = false then
          (Ctl.goto_end FDO_SI_INTERNAL_ERROR true false, s1, out)
        else (Ctl.goto_end FDO_SI_SUCCESS true false, s1, out)
      else
        if (env.process_data_EXEC_CB s1.filename args).ok = false then
          (Ctl.goto_end FDO_SI_INTERNAL_ERROR true false,
            { s1 with
              status_cb_iscomplete := (env.process_data_EXEC_CB s1.filename args).iscomplete,
              status_cb_resultcode := (env.process_data_EXEC_CB s1.filename args).resultcode,
              status_cb_waitsec := (env.process_data_EXEC_CB s1.filename args).waitsec,
              exec_result := (env.process_data_EXEC_CB s1.filename args).exec_result }, out)
        else
          (Ctl.goto_end FDO_SI_SUCCESS true false,
            { s1 with
              status_cb_iscomplete := (env.process_data_EXEC_CB s1.filename args).iscomplete,
              status_cb_resultcode := (env.process_data_EXEC_CB s1.filename args).resultcode,
              status_cb_waitsec := (env.process_data_EXEC_CB s1.filename args).waitsec,
              exec_result := (env.process_data_EXEC_CB s1.filename args).exec_result,
              hasmore := true, write_type := FDO_SYS_MOD_MSG_STATUS_CB }, out)) := by
    intro b
    unfold set_osi_exec
    simp only [hdec.1, if_neg hpos, hdec.2.1, hdec.2.2.1, Bool.true_eq_false, if_false, hloop,
      hend]
  refine ⟨s1, ?_, ?_, hfr.1, hfr.2.1, ?_, ?_⟩
  · rw [hf]
    by_cases h1 : 1 < args.length
    · have c : (0 ≤ 1 ∧ 1 < args.length) := by omega
      rw [if_pos c, if_pos h1]
    · have c : ¬ (0 ≤ 1 ∧ 1 < args.length) := by omega
      rw [if_neg c, if_neg h1]
  · have c : 0 < args.length := by omega
    rw [hk, if_pos c]
  · intro hb
    rw [hpre, if_pos hb]
    cases hp : env.process_data_EXEC s1.filename args <;> simp
  · intro hb
    cases hp : (env.process_data_EXEC_CB s1.filename args).ok with
    | false =>
      refine ⟨{ s1 with
          status_cb_iscomplete := (env.process_data_EXEC_CB s1.filename args).iscomplete,
          status_cb_resultcode := (env.process_data_EXEC_CB s1.filename args).resultcode,
          status_cb_waitsec := (env.process_data_EXEC_CB s1.filename args).waitsec,
          exec_result := (env.process_data_EXEC_CB s1.filename args).exec_result },
        rfl, rfl, ?_, ?_⟩
      · intro h
        exact absurd h (by simp)
      · rw [hpre, hb]
        simp only [Bool.false_eq_true, if_false, hp, if_true]
    | true =>
      refine ⟨{ s1 with
          status_cb_iscomplete := (env.process_data_EXEC_CB s1.filename args).iscomplete,
          status_cb_resultcode := (env.process_data_EXEC_CB s1.filename args).resultcode,
          status_cb_waitsec := (env.process_data_EXEC_CB s1.filename args).waitsec,
          exec_result := (env.process_data_EXEC_CB s1.filename args).exec_result,
          hasmore := true, write_type := FDO_SYS_MOD_MSG_STATUS_CB },
        rfl, rfl, ?_, ?_⟩
      · intro _
        exact ⟨rfl, rfl⟩
      · rw [hpre, hb]
        simp only [Bool.false_eq_true, if_false, hp, Bool.true_eq_false, if_true]

/-- C12: an `exec` or `exec_cb` message whose array decodes to the `n >= 1` text items
`args`, each within the exec argument limit, the second (if any) a non-empty C string that
fits `filename` and the last one that fits `svi_map_key`, with every reader, allocation
and clearing call succeeding. Afterwards `svi_map_key` is the last item, `filename` is the
second item if there is one and unchanged if not. The call returns Success exactly when
the execution collaborator, called on the new filename with all the items in order,
reports success; a successful `exec` leaves `hasmore` and `write_type` as they were, a
successful `exec_cb` sets `hasmore = true` and `write_type = STATUS_CB`. -/
theorem exec_effect (K : Consts) (env : Env) (a : Args) (s : Session)
    (args : List String) (label : String) (hl : label = "exec" ∨ label = "exec_cb")
    (harr : MessageArrives K env a label)
    (hdec : ArrayDecodes K env K.MOD_MAX_EXEC_ARG_LEN args) (hne : args ≠ [])
    (hend : env.fdor_end_array = true)
    (hmf : env.memset_s_filename = true) (hms : env.memset_s_svi_map_key = true)
    (hfit1 : ∀ t, args.get? 1 = some t → Fits K K.FILE_NAME_LEN t)
    (hfitl : ∀ t, args.get? (args.length - 1) = some t → Fits K K.SVI_MAP_KEY_LEN t) :
    args.get? (args.length - 1) = some (fdo_sys K env a s).state.svi_map_key ∧
    (2 ≤ args.length → args.get? 1 = some (fdo_sys K env a s).state.filename) ∧
    (args.length = 1 → (fdo_sys K env a s).state.filename = s.filename) ∧
    (label = "exec" →
      ((fdo_sys K env a s).result = FDO_SI_SUCCESS ↔
        env.process_data_EXEC (fdo_sys K env a s).state.filename args = true) ∧
      ((fdo_sys K env a s).result = FDO_SI_SUCCESS →
        (fdo_sys K env a s).state.hasmore = s.hasmore ∧
        (fdo_sys K env a s).state.write_type = s.write_type)) ∧
    (label = "exec_cb" →
      ((fdo_sys K env a s).result = FDO_SI_SUCCESS ↔
        (env.process_data_EXEC_CB (fdo_sys K env a s).state.filename args).ok = true) ∧
      ((fdo_sys K env a s).result = FDO_SI_SUCCESS →
        (fdo_sys K env a s).state.hasmore = true ∧
        (fdo_sys K env a s).state.write_type = FDO_SYS_MOD_MSG_STATUS_CB)) := by
  obtain ⟨s1, hf, hk, hh, hw, hex, hcb⟩ := set_osi_exec_decodes K env
    (decide (label = "exec")) s (Output.start a) args hdec hne hend hmf hms hfit1 hfitl
  have hsw := set_osi_arrives_exec K env a s label hl harr
  have hpos : 0 < args.length := List.length_pos.mpr hne
  have hlast : args.length - 1 < args.length := by omega
  have hgetl : args.get? (args.length - 1) = some (args.get ⟨args.length - 1, hlast⟩) :=
    List.get?_eq_get hlast
  have hsvi : args.get? (args.length - 1) = some s1.svi_map_key := by
    rw [hk, element_copy_decodes env _ _ (hdec.2.2.2 _ _ hgetl).2.2.1
      (hdec.2.2.2 _ _ hgetl).2.2.2.2 (hfitl _ hgetl).2.2.2, hgetl]
  have hfn2 : 2 ≤ args.length → args.get? 1 = some s1.filename := by
    intro h2
    have h1 : 1 < args.length := by omega
    have hget1 : args.get? 1 = some (args.get ⟨1, h1⟩) := List.get?_eq_get h1
    rw [hf, if_pos h1, element_copy_decodes env 1 _ (hdec.2.2.2 1 _ hget1).2.2.1
      (hdec.2.2.2 1 _ hget1).2.2.2.2 (hfit1 _ hget1).2.2.2, hget1]
  have hfn1 : args.length = 1 → s1.filename = s.filename := by
    intro h1
    have hn : ¬ 1 < args.length := by omega
    rw [hf, if_neg hn]
  rcases hl with hl | hl
  · subst hl
    rw [hex (by decide)] at hsw
    rw [fdo_sys_set_osi harr.1 hsw]
    dsimp only
    rw [end_block_filename, end_block_svi_map_key]
    refine ⟨hsvi, hfn2, hfn1, ?_, ?_⟩
    · intro _
      by_cases hp : env.process_data_EXEC s1.filename args = true
      · rw [if_pos hp]
        have hfr := end_block_success_frame true false s1
        exact ⟨⟨fun _ => hp, fun _ => rfl⟩, fun _ => ⟨hfr.1.trans hh, hfr.2.1.trans hw⟩⟩
      · rw [if_neg hp]
        exact ⟨⟨fun h => absurd h (by decide), fun h => absurd h hp⟩,
          fun h => absurd h (by decide)⟩
    · intro h
      exact absurd h (by decide)
  · subst hl
    obtain ⟨s2, h2f, h2k, h2a, h2e⟩ := hcb (by decide)
    rw [h2e] at hsw
    rw [fdo_sys_set_osi harr.1 hsw]
    dsimp only
    rw [end_block_filename, end_block_svi_map_key, h2f, h2k]
    refine ⟨hsvi, hfn2, hfn1, ?_, ?_⟩
    · intro h
      exact absurd h (by decide)
    · intro _
      by_cases hp : (env.process_data_EXEC_CB s1.filename args).ok = true
      · rw [if_pos hp]
        have hfr := end_block_success_frame true false s2
        exact ⟨⟨fun _ => hp, fun _ => rfl⟩,
          fun _ => ⟨hfr.1.trans (h2a hp).1, hfr.2.1.trans (h2a hp).2⟩⟩
      · rw [if_neg hp]
        exact ⟨⟨fun h => absurd h (by decide), fun h => absurd h hp⟩,
          fun h => absurd h (by decide)⟩

theorem exec_effect_witness :
    (fdo_sys K0 (env_ok files0 ["sh", "run.sh", "k9"]) (args_set_osi "exec_cb" 14)
      session_eot).state.svi_map_key = "k9" ∧
    (fdo_sys K0 (env_ok files0 ["sh", "run.sh", "k9"]) (args_set_osi "exec_cb" 14)
      session_eot).state.filename = "run.sh" ∧
    (fdo_sys K0 (env_ok files0 ["sh", "run.sh", "k9"]) (args_set_osi "exec_cb" 14)
      session_eot).state.write_type = FDO_SYS_MOD_MSG_STATUS_CB := by
  have h := exec_effect K0 (env_ok files0 ["sh", "run.sh", "k9"])
    (args_set_osi "exec_cb" 14) session_eot ["sh", "run.sh", "k9"] "exec_cb" (Or.inr rfl)
    ⟨rfl, rfl, rfl, 14, rfl, by decide, rfl, rfl⟩
    (array_decodes_env_ok K0 files0 _ _ (by decide)) (by decide) rfl rfl rfl
    (by
      intro t ht
      simp only [List.get?_cons_succ, List.get?_cons_zero, Option.some.injEq] at ht
      subst ht
      exact ⟨by decide, by decide, by decide, by decide⟩)
    (by
      intro t ht
      simp only [List.length_cons, List.length_nil, List.get?_cons_succ, List.get?_cons_zero,
        Option.some.injEq] at ht
      subst ht
      exact ⟨by decide, by decide, by decide, by decide⟩)
  have hk := h.1
  have hf := h.2.1 (by decide)
  simp only [List.length_cons, List.length_nil, List.get?_cons_succ, List.get?_cons_zero,
    Option.some.injEq] at hk hf
  have hres := (h.2.2.2.2 rfl).1.mpr rfl
  exact ⟨hk.symm, hf.symm, ((h.2.2.2.2 rfl).2 hres).2⟩

/-! ## The offset `file_seek_pos` -/

theorem end_block_offsets (r : Result) (e f : Bool) (t : Session) :
    (r = FDO_SI_SUCCESS ∧ (end_block r e f t).file_seek_pos = t.file_seek_pos ∧
      (end_block r e f t).file_sz = t.file_sz) ∨
    (r ≠ FDO_SI_SUCCESS ∧ (end_block r e f t).file_seek_pos = 0 ∧
      (end_block r e f t).file_sz = 0 ∧ (end_block r e f t).hasmore = false ∧
      (end_block r e f t).write_type = FDO_SYS_MOD_MSG_NONE) := by
  by_cases hr : r = FDO_SI_SUCCESS
  · subst hr
    have h := end_block_success_frame e f t
    exact Or.inl ⟨rfl, h.2.2.2.1, h.2.2.1⟩
  · have h := end_block_fail r e f t hr
    exact Or.inr ⟨hr, h.2.2.2.1, h.2.2.1, h.1, h.2.1⟩

/-- A switch arm that leaves `file_sz` alone and does not move the offset back. -/
theorem offset_step_of_switch (K : Consts) (env : Env) (a : Args) (s s1 : Session)
    (c : Ctl) (out : Output) (hsw : fdo_sys_switch K env a s = (c, s1, out))
    (hsz : s1.file_sz = s.file_sz) (hmono : s.file_seek_pos ≤ s1.file_seek_pos)
    (hinv : s.file_seek_pos ≤ s.file_sz → s1.file_seek_pos ≤ s.file_sz) :
    offset_step a s (fdo_sys K env a s) := by
  cases c with
  | goto_end r e f =>
    rw [fdo_sys_of_goto_end hsw]
    rcases end_block_offsets r e f s1 with ⟨_, h1, h2⟩ | ⟨hr, h1, h2, h3, h4⟩
    · refine ⟨fun h => ?_, Or.inl ?_⟩
      · dsimp only
        rw [h1, h2, hsz]
        exact hinv h
      · dsimp only
        rw [h1]
        exact hmono
    · refine ⟨fun _ => ?_, Or.inr (Or.inr ⟨hr, h1, h2, h3, h4⟩)⟩
      dsimp only
      rw [h1]
      exact Nat.zero_le _
  | ret r =>
    rw [fdo_sys_of_ret hsw]
    refine ⟨fun h => ?_, Or.inl hmono⟩
    dsimp only
    rw [hsz]
    exact hinv h

theorem fdo_sys_offset_step (K : Consts) (env : Env) (a : Args) (s : Session) :
    offset_step a s (fdo_sys K env a s) := by
  by_cases h1 : a.type = FDO_SI_GET_DSI
  · rcases hsw : get_dsi env a s with ⟨c, s1, out⟩
    have hs := get_dsi_shape env a s
    rw [hsw] at hs
    have hsw2 : fdo_sys_switch K env a s = (c, s1, out) := by
      simp [fdo_sys_switch, h1, hsw]
    exact offset_step_of_switch K env a s s1 c out hsw2 hs.2.1 hs.2.2.1 hs.2.2.2
  · by_cases h2 : a.type = FDO_SI_SET_OSI
    · by_cases hm : a.module_message = some "fetch"
      · have hfail : ∀ r e f s1 out, r ≠ FDO_SI_SUCCESS →
            set_osi K env a s = (Ctl.goto_end r e f, s1, out) →
            offset_step a s (fdo_sys K env a s) := by
          intro r e f s1 out hr hsw
          rw [fdo_sys_set_osi h2 hsw]
          have h := end_block_fail r e f s1 hr
          refine ⟨fun _ => ?_, Or.inr (Or.inr ⟨hr, h.2.2.2.1, h.2.2.1, h.1, h.2.1⟩)⟩
          dsimp only
          rw [h.2.2.2.1]
          exact Nat.zero_le _
        rcases set_osi_fetch_label K env a s hm with hsw | ⟨r, hr, hsw⟩
        · rcases set_osi_fetch_cases K env s (Output.start a) with
            ⟨s1, heq, _, _, h3, _⟩ | ⟨r, f, s1, hr, heq⟩
          · rw [heq] at hsw
            rw [fdo_sys_set_osi h2 hsw]
            have hfr := end_block_success_frame false true s1
            have h0 : (end_block FDO_SI_SUCCESS false true s1).file_seek_pos = 0 := by
              rw [hfr.2.2.2.1, h3]
            refine ⟨fun _ => ?_, Or.inr (Or.inl ⟨h2, hm, rfl, h0⟩)⟩
            dsimp only
            rw [h0]
            exact Nat.zero_le _
          · rw [heq] at hsw
            exact hfail _ _ _ _ _ hr hsw
        · exact hfail _ _ _ _ _ hr hsw
      · rcases hsw : set_osi K env a s with ⟨c, s1, out⟩
        have hk := set_osi_keeps K env a s hm
        rw [hsw] at hk
        obtain ⟨_, hz, hp, _, _⟩ := hk
        have hsw2 : fdo_sys_switch K env a s = (c, s1, out) := by
          simp [fdo_sys_switch, h2, hsw]
        dsimp only at hz hp
        exact offset_step_of_switch K env a s s1 c out hsw2 hz (le_of_eq hp.symm)
          (fun h => by rw [hp]; exact h)
    · obtain ⟨r, out, w, hsw⟩ := simple_switch K env a s h1 h2
      exact offset_step_of_switch K env a s _ _ out hsw rfl (le_refl _) (fun h => h)

theorem run_offset (K : Consts) (ops : List (Env × Args)) :
    ∀ s, s.file_seek_pos ≤ s.file_sz → (run K ops s).file_seek_pos ≤ (run K ops s).file_sz := by
  induction ops with
  | nil => intro s h; exact h
  | cons p ops ih =>
    intro s h
    obtain ⟨env, a⟩ := p
    unfold run
    exact ih _ ((fdo_sys_offset_step K env a s).1 h)

/-- C20: in every session reached from the initial one by any sequence of calls, with any
arguments and any collaborator outcomes, `file_seek_pos <= file_sz`; and any further call
leaves `file_seek_pos` where it was or moves it forward, unless that call is a successful
fetch (the offset restarts at 0) or fails and resets the transfer (`file_seek_pos = 0`,
`file_sz = 0`, `hasmore = false`, `write_type = NONE`). -/
theorem offset_invariant (K : Consts) (ops : List (Env × Args)) (env : Env) (a : Args) :
    (run K ops Session.init).file_seek_pos ≤ (run K ops Session.init).file_sz ∧
    ((run K ops Session.init).file_seek_pos ≤
        (fdo_sys K env a (run K ops Session.init)).state.file_seek_pos ∨
      (a.type = FDO_SI_SET_OSI ∧ a.module_message = some "fetch" ∧
        (fdo_sys K env a (run K ops Session.init)).result = FDO_SI_SUCCESS ∧
        (fdo_sys K env a (run K ops Session.init)).state.file_seek_pos = 0) ∨
      ((fdo_sys K env a (run K ops Session.init)).result ≠ FDO_SI_SUCCESS ∧
        (fdo_sys K env a (run K ops Session.init)).state.file_seek_pos = 0 ∧
        (fdo_sys K env a (run K ops Session.init)).state.file_sz = 0 ∧
        (fdo_sys K env a (run K ops Session.init)).state.hasmore = false ∧
        (fdo_sys K env a (run K ops Session.init)).state.write_type
          = FDO_SYS_MOD_MSG_NONE)) :=
  ⟨run_offset K ops Session.init (Nat.le_refl 0),
    (fdo_sys_offset_step K env a (run K ops Session.init)).2⟩

/-! ## Shape of the emitted messages -/

/-- C25: what the three producer helpers write. A run of `write_status_cb` or `write_eot`
that returns true has appended `start_array 5`, five items and `end_array`, respectively
`start_array 1`, one item and `end_array`. A run of `write_data` that returns true has
appended `start_array 2` and two items and no `end_array`: the array it opened is left
open, for every argument and session, as in the worked run at the end. -/
theorem write_data_leaves_array_open :
    (∀ (env : Env) (mm : Option String) (s : Session),
      (write_status_cb env mm s).1 = false ∨
      ((write_status_cb env mm s).2.2 = s.fdow ++ status_cb_val s ∧
        well_bracketed 5 (status_cb_val s) = true)) ∧
    (∀ (env : Env) (mm : Option String) (st : Int) (s : Session),
      (write_eot env mm st s).1 = false ∨
      ((write_eot env mm st s).2.2 = s.fdow ++ eot_val st ∧
        well_bracketed 1 (eot_val st) = true)) ∧
    (∀ (env : Env) (mm : Option String) (bytes : List Nat) (s : Session),
      (write_data env mm (some bytes) s).1 = false ∨
      ((write_data env mm (some bytes) s).2.2 = s.fdow ++
          [WCall.start_array 2, WCall.byte_string bytes, WCall.text_string s.svi_map_key] ∧
        well_bracketed 2
          [WCall.start_array 2, WCall.byte_string bytes, WCall.text_string s.svi_map_key]
          = false)) ∧
    write_data (env_ok files0 []) (some "") (some [1, 2]) session_fetching =
      (true, some "data",
        [WCall.start_array 2, WCall.byte_string [1, 2], WCall.text_string "k"]) := by
  refine ⟨?_, ?_, ?_, ?_⟩
  · intro env mm s
    rcases write_status_cb_eq env mm s with ⟨h, _⟩ | h
    · rw [h]
      exact Or.inr ⟨rfl, rfl⟩
    · exact Or.inl h
  · intro env mm st s
    rcases write_eot_eq env mm st s with ⟨h, _⟩ | h
    · rw [h]
      exact Or.inr ⟨rfl, rfl⟩
    · exact Or.inl h
  · intro env mm bytes s
    rcases write_data_eq env mm bytes s with ⟨h, _⟩ | h
    · rw [h]
      exact Or.inr ⟨rfl, rfl⟩
    · exact Or.inl h
  · decide

/-! ## A data round after a failed encode -/

/-- C23: after a fetch of the 5-byte file `a.bin`, a GetDsi round with `mtu = 5` whose
encode fails returns Success with `file_seek_pos = file_sz = 5`, `hasmore = true` and
`write_type = DATA`; the next GetDsi round, every collaborator call succeeding, asks for
`min(5, 5 - 5) = 0` bytes and emits a data message with an empty byte string. -/
theorem zero_length_data_round :
    (fdo_sys K0 env_encode_fails (args_get_dsi 5) session_after_fetch).result
      = FDO_SI_SUCCESS ∧
    (fdo_sys K0 env_encode_fails (args_get_dsi 5) session_after_fetch).state
      = session_encode_failed ∧
    session_encode_failed.file_seek_pos = 5 ∧ session_encode_failed.file_sz = 5 ∧
    session_encode_failed.hasmore = true ∧
    session_encode_failed.write_type = FDO_SYS_MOD_MSG_DATA ∧
    min 5 (session_encode_failed.file_sz - session_encode_failed.file_seek_pos) = 0 ∧
    emitted (fdo_sys K0 (env_ok files0 []) (args_get_dsi 5) session_encode_failed)
      = some ("data",
          [WCall.start_array 2, WCall.byte_string [], WCall.text_string "k"]) := by
  decide

/-! ## SetOsi rounds that leave a transfer alone -/

theorem set_osi_write_label (K : Consts) (env : Env) (a : Args) (s : Session)
    (hmsg : a.module_message = some "write") : (set_osi K env a s).2.1 = s := by
  unfold set_osi
  simp only [hmsg]
  cases hv : a.module_val with
  | false => rfl
  | true =>
    cases hs : a.module_val_sz with
    | none => rfl
    | some sz =>
      dsimp only
      by_cases hbig : sz > K.MOD_MAX_BUFF_SIZE
      · simp [hbig]
      · cases hc : env.memcpy_s_in sz with
        | false => simp [hbig]
        | true =>
          cases hp : env.fdor_parser_init with
          | false => simp [hbig]
          | true => simp [hbig, set_osi_write_state]

/-- C24: a SetOsi round with label `filedesc`, `write` or `exec` that returns Success
leaves `hasmore`, `write_type`, `file_sz`, `file_seek_pos` and `fetch_data_status` as
they were, from any session; a successful `write` round also leaves `filename` and
`svi_map_key` as they were. -/
theorem set_osi_success_frame (K : Consts) (env : Env) (a : Args) (s : Session)
    (htype : a.type = FDO_SI_SET_OSI)
    (hl : a.module_message = some "filedesc" ∨ a.module_message = some "write" ∨
      a.module_message = some "exec")
    (hres : (fdo_sys K env a s).result = FDO_SI_SUCCESS) :
    (fdo_sys K env a s).state.hasmore = s.hasmore ∧
    (fdo_sys K env a s).state.write_type = s.write_type ∧
    (fdo_sys K env a s).state.file_sz = s.file_sz ∧
    (fdo_sys K env a s).state.file_seek_pos = s.file_seek_pos ∧
    (fdo_sys K env a s).state.fetch_data_status = s.fetch_data_status ∧
    (a.module_message = some "write" →
      (fdo_sys K env a s).state.filename = s.filename ∧
      (fdo_sys K env a s).state.svi_map_key = s.svi_map_key) := by
  have h1 : a.module_message ≠ some "exec_cb" := by
    rcases hl with h | h | h <;> rw [h] <;> decide
  have h2 : a.module_message ≠ some "fetch" := by
    rcases hl with h | h | h <;> rw [h] <;> decide
  have h3 : a.module_message ≠ some "status_cb" := by
    rcases hl with h | h | h <;> rw [h] <;> decide
  have hfr := set_osi_frame K env a s h1 h2 h3
  rcases hsw : set_osi K env a s with ⟨c, s1, out⟩
  rw [hsw] at hfr
  have hsw2 : fdo_sys_switch K env a s = (c, s1, out) := by
    simp [fdo_sys_switch, htype, hsw]
  have hw : a.module_message = some "write" → s1 = s := by
    intro hm
    have h := set_osi_write_label K env a s hm
    rw [hsw] at h
    exact h
  cases c with
  | goto_end r e f =>
    rw [fdo_sys_of_goto_end hsw2] at hres ⊢
    dsimp only at hres ⊢
    subst hres
    have he := (end_block_success_frame e f s1).frame_trans hfr
    refine ⟨he.1, he.2.1, he.2.2.1, he.2.2.2.1, he.2.2.2.2, ?_⟩
    intro hm
    rw [end_block_filename, end_block_svi_map_key, hw hm]
    exact ⟨rfl, rfl⟩
  | ret r =>
    rw [fdo_sys_of_ret hsw2]
    dsimp only
    refine ⟨hfr.1, hfr.2.1, hfr.2.2.1, hfr.2.2.2.1, hfr.2.2.2.2, ?_⟩
    intro hm
    rw [hw hm]
    exact ⟨rfl, rfl⟩

theorem set_osi_success_frame_witness :
    (fdo_sys K0 (env_ok files0 ["b.bin"]) (args_set_osi "filedesc" 6)
      session_fetching).state.hasmore = true ∧
    (fdo_sys K0 (env_ok files0 ["b.bin"]) (args_set_osi "filedesc" 6)
      session_fetching).state.file_sz = 5 :=
  have h := set_osi_success_frame K0 (env_ok files0 ["b.bin"]) (args_set_osi "filedesc" 6)
    session_fetching rfl (Or.inl rfl) (by decide)
  ⟨h.1, h.2.2.1⟩

/-! ## An armed producer always has a message kind -/

theorem end_block_armed (r : Result) (e f : Bool) (s : Session) (h : Armed s) :
    Armed (end_block r e f s) := by
  by_cases hr : r = FDO_SI_SUCCESS
  · subst hr
    have hf := end_block_success_frame e f s
    unfold Armed at *
    rw [hf.1, hf.2.1]
    exact h
  · intro hh
    rw [(end_block_fail r e f s hr).1] at hh
    exact absurd hh (by decide)

theorem get_dsi_data_write_type (env : Env) (a : Args) (s : Session) (out : Output) :
    (get_dsi_data env a s out).2.1.write_type = s.write_type ∨
    (get_dsi_data env a s out).2.1.write_type = FDO_SYS_MOD_MSG_EOT := by
  have heot : ∀ t : Session, t.write_type = s.write_type →
      (get_dsi_data_eot env a t out).2.1.write_type = s.write_type := by
    intro t ht
    obtain ⟨w, hw⟩ := get_dsi_data_eot_shape env a t out
    rw [hw]
    exact ht
  unfold get_dsi_data
  dsimp only
  by_cases hguard : s.file_sz = 0 ∨ s.file_sz ≠ env.get_file_sz s.filename ∨
      s.file_seek_pos > s.file_sz
  · rw [if_pos hguard]
    exact Or.inl (heot _ rfl)
  · rw [if_neg hguard]
    generalize (if s.file_sz - s.file_seek_pos > a.mtu then a.mtu
        else s.file_sz - s.file_seek_pos) = L
    split
    · exact Or.inl rfl
    · split
      · exact Or.inl rfl
      · split
        · exact Or.inl (heot _ rfl)
        · split
          · exact Or.inl rfl
          · rw [get_dsi_tail_state]
            split
            · exact Or.inr rfl
            · exact Or.inl rfl

theorem get_dsi_armed (env : Env) (a : Args) (s : Session) (h : Armed s) :
    Armed (get_dsi env a s).2.1 := by
  have h0 : Armed { s with fdow := [] } := h
  have hoff : ∀ t : Session, t.hasmore = false → Armed t := by
    intro t ht hh
    rw [ht] at hh
    exact absurd hh (by decide)
  unfold get_dsi
  dsimp only
  split
  · exact h
  · split
    · exact h0
    · split
      · exact h0
      · split
        · split
          · exact h
          · rw [get_dsi_tail_state]
            exact hoff _ rfl
        · rename_i hwt
          rcases get_dsi_data_write_type env a { s with fdow := [] } (Output.start a)
            with hw | hw
          · intro _
            rw [hw]
            dsimp only
            rw [hwt]
            decide
          · intro _
            rw [hw]
            decide
        · split
          · exact h
          · rw [get_dsi_tail_state]
            exact hoff _ rfl
        · exact h0

theorem set_osi_exec_cb_label (K : Consts) (env : Env) (a : Args) (s : Session)
    (hmsg : a.module_message = some "exec_cb") :
    set_osi K env a s = set_osi_exec K env false s (Output.start a) ∨
      ∃ r, r ≠ FDO_SI_SUCCESS ∧
        set_osi K env a s = (Ctl.goto_end r false false, s, Output.start a) := by
  unfold set_osi
  simp only [hmsg]
  cases hv : a.module_val with
  | false => exact Or.inr ⟨FDO_SI_CONTENT_ERROR, by decide, rfl⟩
  | true =>
    cases hs : a.module_val_sz with
    | none => exact Or.inr ⟨FDO_SI_CONTENT_ERROR, by decide, rfl⟩
    | some sz =>
      dsimp only
      by_cases hbig : sz > K.MOD_MAX_BUFF_SIZE
      · exact Or.inr ⟨FDO_SI_CONTENT_ERROR, by decide, by simp [hbig]⟩
      · cases hc : env.memcpy_s_in sz with
        | false => exact Or.inr ⟨FDO_SI_INTERNAL_ERROR, by decide, by simp [hbig]⟩
        | true =>
          cases hp : env.fdor_parser_init with
          | false => exact Or.inr ⟨FDO_SI_INTERNAL_ERROR, by decide, by simp [hbig]⟩
          | true => exact Or.inl (by simp [hbig])

/-- The arm `exec`/`exec_cb` either fails through `goto end`, or succeeds with `hasmore`
and `write_type` as they were (`exec`) or set to true and STATUS_CB (`exec_cb`). -/
theorem set_osi_exec_cases (K : Consts) (env : Env) (b : Bool) (s : Session) (out : Output) :
    (∃ r e f s1, r ≠ FDO_SI_SUCCESS ∧
      set_osi_exec K env b s out = (Ctl.goto_end r e f, s1, out)) ∨
    (∃ s1, set_osi_exec K env b s out = (Ctl.goto_end FDO_SI_SUCCESS true false, s1, out) ∧
      ((s1.hasmore = s.hasmore ∧ s1.write_type = s.write_type) ∨
        (s1.hasmore = true ∧ s1.write_type = FDO_SYS_MOD_MSG_STATUS_CB))) := by
  unfold set_osi_exec
  cases hlen : env.fdor_array_length with
  | none => exact Or.inl ⟨_, _, _, _, by decide, rfl⟩
  | some len =>
    dsimp only
    by_cases h0 : len = 0
    · rw [if_pos h0]
      exact Or.inl ⟨_, _, _, _, by decide, rfl⟩
    rw [if_neg h0]
    by_cases h1 : env.fdor_start_array = false
    · rw [if_pos h1]
      exact Or.inl ⟨_, _, _, _, by decide, rfl⟩
    rw [if_neg h1]
    by_cases h2 : env.ModuleAlloc 0 (K.sizeof_ptr * (len + 1)) = false
    · rw [if_pos h2]
      exact Or.inl ⟨_, _, _, _, by decide, rfl⟩
    rw [if_neg h2]
    have hfr := (exec_loop_frame K env len len 0 { s with exec_array_length := len } []).frame
    rcases hl : exec_loop K env len len 0 { s with exec_array_length := len } []
      with ⟨ok, s1, argv⟩
    rw [hl] at hfr
    cases ok with
    | false => exact Or.inl ⟨_, _, _, _, by decide, rfl⟩
    | true =>
      dsimp only
      by_cases h3 : env.fdor_end_array = false
      · rw [if_pos h3]
        exact Or.inl ⟨_, _, _, _, by decide, rfl⟩
      rw [if_neg h3]
      cases b with
      | true =>
        simp only [if_true]
        by_cases h4 : env.process_data_EXEC s1.filename argv = false
        · rw [if_pos h4]
          exact Or.inl ⟨_, _, _, _, by decide, rfl⟩
        · rw [if_neg h4]
          exact Or.inr ⟨_, rfl, Or.inl ⟨hfr.1, hfr.2.1⟩⟩
      | false =>
        simp only [Bool.false_eq_true, if_false]
        by_cases h4 : (env.process_data_EXEC_CB s1.filename argv).ok = false
        · rw [if_pos h4]
          exact Or.inl ⟨_, _, _, _, by decide, rfl⟩
        · rw [if_neg h4]
          exact Or.inr ⟨_, rfl, Or.inr ⟨rfl, rfl⟩⟩

theorem Frame.armed {s1 s : Session} (hf : Frame s1 s) (h : Armed s) : Armed s1 := by
  unfold Armed at *
  rw [hf.1, hf.2.1]
  exact h

/-- A SetOsi switch arm either fails through `goto end` or keeps the producer armed only
together with a message kind. -/
theorem set_osi_armed (K : Consts) (env : Env) (a : Args) (s : Session) (h : Armed s) :
    (∃ r e f s1 out, r ≠ FDO_SI_SUCCESS ∧
      set_osi K env a s = (Ctl.goto_end r e f, s1, out)) ∨
    Armed (set_osi K env a s).2.1 := by
  by_cases hcb : a.module_message = some "exec_cb"
  · rcases set_osi_exec_cb_label K env a s hcb with hsw | ⟨r, hr, hsw⟩
    · rcases set_osi_exec_cases K env false s (Output.start a) with
        ⟨r, e, f, s1, hr, heq⟩ | ⟨s1, heq, hc | hc⟩
      · exact Or.inl ⟨r, e, f, s1, _, hr, hsw.trans heq⟩
      · refine Or.inr ?_
        rw [hsw, heq]
        intro hh
        dsimp only at hh ⊢
        rw [hc.2]
        rw [hc.1] at hh
        exact h hh
      · refine Or.inr ?_
        rw [hsw, heq]
        intro _
        dsimp only
        rw [hc.2]
        decide
    · exact Or.inl ⟨r, _, _, _, _, hr, hsw⟩
  by_cases hf : a.module_message = some "fetch"
  · rcases set_osi_fetch_label K env a s hf with hsw | ⟨r, hr, hsw⟩
    · rcases set_osi_fetch_cases K env s (Output.start a) with
        ⟨s1, heq, _, hw, _, _⟩ | ⟨r, f, s1, hr, heq⟩
      · refine Or.inr ?_
        rw [hsw, heq]
        intro _
        dsimp only
        rw [hw]
        decide
      · exact Or.inl ⟨r, _, f, s1, _, hr, hsw.trans heq⟩
    · exact Or.inl ⟨r, _, _, _, _, hr, hsw⟩
  by_cases hs : a.module_message = some "status_cb"
  · rcases set_osi_status_cb_label K env a s hs with hsw | ⟨r, hr, hsw⟩
    · rcases set_osi_status_cb_cases env s (Output.start a) with
        ⟨b, rc, ws, s1, _, _, _, heq, _, _, _, hh, hw⟩ | ⟨s1, heq⟩
      · refine Or.inr ?_
        rw [hsw, heq]
        intro hm
        dsimp only at hm ⊢
        rw [hh] at hm
        cases b with
        | true => exact absurd hm (by decide)
        | false =>
          rw [hw]
          decide
      · exact Or.inl ⟨_, _, _, s1, _, by decide, hsw.trans heq⟩
    · exact Or.inl ⟨r, _, _, _, _, hr, hsw⟩
  exact Or.inr ((set_osi_frame K env a s hcb hf hs).armed h)

theorem fdo_sys_armed (K : Consts) (env : Env) (a : Args) (s : Session) (h : Armed s) :
    Armed (fdo_sys K env a s).state := by
  by_cases h1 : a.type = FDO_SI_GET_DSI
  · rcases hsw : get_dsi env a s with ⟨c, s1, out⟩
    have hs := get_dsi_armed env a s h
    rw [hsw] at hs
    have hsw2 : fdo_sys_switch K env a s = (c, s1, out) := by
      simp [fdo_sys_switch, h1, hsw]
    cases c with
    | goto_end r e f =>
      rw [fdo_sys_of_goto_end hsw2]
      exact end_block_armed r e f s1 hs
    | ret r =>
      rw [fdo_sys_of_ret hsw2]
      exact hs
  · by_cases h2 : a.type = FDO_SI_SET_OSI
    · rcases set_osi_armed K env a s h with ⟨r, e, f, s1, out, hr, hsw⟩ | hs
      · rw [fdo_sys_set_osi h2 hsw]
        intro hh
        dsimp only at hh
        rw [(end_block_fail r e f s1 hr).1] at hh
        exact absurd hh (by decide)
      · rcases hsw : set_osi K env a s with ⟨c, s1, out⟩
        rw [hsw] at hs
        have hsw2 : fdo_sys_switch K env a s = (c, s1, out) := by
          simp [fdo_sys_switch, h2, hsw]
        cases c with
        | goto_end r e f =>
          rw [fdo_sys_of_goto_end hsw2]
          exact end_block_armed r e f s1 hs
        | ret r =>
          rw [fdo_sys_of_ret hsw2]
          exact hs
    · obtain ⟨r, out, w, hsw⟩ := simple_switch K env a s h1 h2
      rw [fdo_sys_of_goto_end hsw]
      exact end_block_armed r false false _ h

theorem run_armed (K : Consts) (ops : List (Env × Args)) :
    ∀ s, Armed s → Armed (run K ops s) := by
  induction ops with
  | nil => intro s h; exact h
  | cons p ops ih =>
    intro s h
    obtain ⟨env, a⟩ := p
    unfold run
    exact ih _ (fdo_sys_armed K env a s h)

/-- C22: in every session reached from the initial one by any sequence of calls, with any
arguments and any collaborator outcomes, `hasmore = true` implies that `write_type` is
DATA, EOT or STATUS_CB; so `write_type = NONE` is met only with `hasmore = false`. -/
theorem hasmore_has_write_type (K : Consts) (ops : List (Env × Args))
    (hhm : (run K ops Session.init).hasmore = true) :
    ((run K ops Session.init).write_type = FDO_SYS_MOD_MSG_DATA ∨
      (run K ops Session.init).write_type = FDO_SYS_MOD_MSG_EOT ∨
      (run K ops Session.init).write_type = FDO_SYS_MOD_MSG_STATUS_CB) ∧
    (run K ops Session.init).write_type ≠ FDO_SYS_MOD_MSG_NONE := by
  have hinit : Armed Session.init := by
    intro hh
    exact absurd hh (by decide)
  have h := run_armed K ops Session.init hinit hhm
  refine ⟨?_, h⟩
  cases hw : (run K ops Session.init).write_type with
  | FDO_SYS_MOD_MSG_NONE => exact absurd hw h
  | FDO_SYS_MOD_MSG_DATA => exact Or.inl rfl
  | FDO_SYS_MOD_MSG_EOT => exact Or.inr (Or.inl rfl)
  | FDO_SYS_MOD_MSG_STATUS_CB => exact Or.inr (Or.inr rfl)

theorem hasmore_has_write_type_witness :
    (run K0 [(env_ok files0 ["a.bin", "k"], args_set_osi "fetch" 10),
        (env_encode_fails, args_get_dsi 5)] Session.init).write_type
      ≠ FDO_SYS_MOD_MSG_NONE :=
  (hasmore_has_write_type K0 [(env_ok files0 ["a.bin", "k"], args_set_osi "fetch" 10),
    (env_encode_fails, args_get_dsi 5)] (by decide)).2

/-! ## Who writes `status_cb_iscomplete` -/

theorem SameButNames.names_iscomplete {s1 s : Session} (h : SameButNames s1 s) :
    s1.status_cb_iscomplete = s.status_cb_iscomplete := by
  unfold SameButNames at h
  rw [h]

theorem SameButProducer.producer_iscomplete {s1 s : Session} (h : SameButProducer s1 s) :
    s1.status_cb_iscomplete = s.status_cb_iscomplete := by
  unfold SameButProducer at h
  rw [h]

theorem end_block_iscomplete (r : Result) (e f : Bool) (s : Session) :
    (end_block r e f s).status_cb_iscomplete = s.status_cb_iscomplete := by
  unfold end_block
  dsimp only
  split_ifs <;> rfl

theorem set_osi_filedesc_iscomplete (K : Consts) (env : Env) (s : Session) (out : Output) :
    (set_osi_filedesc K env s out).2.1.status_cb_iscomplete = s.status_cb_iscomplete := by
  have hf : ∀ t n b s1, store_filename K env t n s = (b, s1) →
      s1.status_cb_iscomplete = s.status_cb_iscomplete := by
    intro t n b s1 h
    have h1 := (store_filename_frame K env t n s).1.names_iscomplete
    rw [h] at h1
    exact h1
  unfold set_osi_filedesc
  repeat' split
  all_goals
    first
    | rfl
    | exact hf _ _ _ _ ‹_›

theorem set_osi_exec_iscomplete (K : Consts) (env : Env) (s : Session) (out : Output) :
    (set_osi_exec K env true s out).2.1.status_cb_iscomplete = s.status_cb_iscomplete := by
  unfold set_osi_exec
  split
  · rfl
  · rename_i len _
    have hl : ∀ b s1 argv,
        exec_loop K env len len 0 { s with exec_array_length := len } [] = (b, s1, argv) →
        s1.status_cb_iscomplete = s.status_cb_iscomplete := by
      intro b s1 argv h
      have h1 := (exec_loop_frame K env len len 0 { s with exec_array_length := len }
        []).names_iscomplete
      rw [h] at h1
      exact h1
    simp only [if_true]
    repeat' split
    all_goals
      first
      | rfl
      | (have h1 := hl _ _ _ ‹_›
         exact h1)

theorem set_osi_fetch_iscomplete (K : Consts) (env : Env) (s : Session) (out : Output) :
    (set_osi_fetch K env s out).2.1.status_cb_iscomplete = s.status_cb_iscomplete := by
  unfold set_osi_fetch
  split
  · rfl
  · rename_i len _
    have hl : ∀ b s1,
        fetch_loop K env len 0 { s with fetch_array_length := len } = (b, s1) →
        s1.status_cb_iscomplete = s.status_cb_iscomplete := by
      intro b s1 h
      have h1 := (fetch_loop_frame K env len 0
        { s with fetch_array_length := len }).names_iscomplete
      rw [h] at h1
      exact h1
    dsimp only
    repeat' split
    all_goals
      first
      | rfl
      | (have h1 := hl _ _ ‹_›
         exact h1)

theorem set_osi_iscomplete (K : Consts) (env : Env) (a : Args) (s : Session)
    (h1 : a.module_message ≠ some "exec_cb") (h3 : a.module_message ≠ some "status_cb") :
    (set_osi K env a s).2.1.status_cb_iscomplete = s.status_cb_iscomplete := by
  unfold set_osi
  dsimp only
  split
  · rename_i msg sz hmsg _ _
    rw [hmsg] at h1 h3
    simp only [ne_eq, Option.some.injEq] at h1 h3
    split_ifs with c1 c2 c3 c4 c5 c6 c7 c8
    all_goals
      first
      | rfl
      | exact set_osi_filedesc_iscomplete K env s _
      | (rw [set_osi_write_state])
      | exact set_osi_fetch_iscomplete K env s _
      | exact absurd ‹msg = "status_cb"› h3
      | skip
    have hexec : msg = "exec" := by
      rcases c7 with h | h
      · exact h
      · exact absurd h h1
    subst hexec
    exact set_osi_exec_iscomplete K env s _
  · rfl

/-- C21, counterexample: in the session reached by the owner message
`status_cb [true, 0, 5]`, where `status_cb_iscomplete` is true, a further owner message
`status_cb [false, 0, 5]` is processed with Success and leaves `status_cb_iscomplete`
false; so does one that fails to decode after its first element. -/
theorem status_cb_false_clears_iscomplete :
    (fdo_sys K0 (env_status_cb true) (args_set_osi "status_cb" 4) Session.init).result
      = FDO_SI_SUCCESS ∧
    session_complete.status_cb_iscomplete = true ∧
    (fdo_sys K0 (env_status_cb false) (args_set_osi "status_cb" 4) session_complete).result
      = FDO_SI_SUCCESS ∧
    (fdo_sys K0 (env_status_cb false) (args_set_osi "status_cb" 4)
      session_complete).state.status_cb_iscomplete = false ∧
    (fdo_sys K0 env_status_cb_truncated (args_set_osi "status_cb" 4)
      session_complete).result = FDO_SI_INTERNAL_ERROR ∧
    (fdo_sys K0 env_status_cb_truncated (args_set_osi "status_cb" 4)
      session_complete).state.status_cb_iscomplete = false := by
  decide

/-- C21, amended: `status_cb_iscomplete` is written only by the owner messages `status_cb`
and `exec_cb`. Every other call leaves it as it was, from any session and whatever the
collaborators do, so it stays true through those; a `status_cb` message processed with
Success leaves in it the isComplete value the message carries, true or false. -/
theorem iscomplete_follows_owner (K : Consts) (env : Env) (a : Args) (s : Session) :
    (¬ (a.type = FDO_SI_SET_OSI ∧
        (a.module_message = some "status_cb" ∨ a.module_message = some "exec_cb")) →
      (fdo_sys K env a s).state.status_cb_iscomplete = s.status_cb_iscomplete) ∧
    (a.type = FDO_SI_SET_OSI → a.module_message = some "status_cb" →
      (fdo_sys K env a s).result = FDO_SI_SUCCESS →
      env.fdor_boolean = some (fdo_sys K env a s).state.status_cb_iscomplete) := by
  constructor
  · intro hn
    by_cases h1 : a.type = FDO_SI_GET_DSI
    · rcases hsw : get_dsi env a s with ⟨c, s1, out⟩
      have hs := (get_dsi_shape env a s).1
      rw [hsw] at hs
      have hi := hs.producer_iscomplete
      have hsw2 : fdo_sys_switch K env a s = (c, s1, out) := by
        simp [fdo_sys_switch, h1, hsw]
      cases c with
      | goto_end r e f => rw [fdo_sys_of_goto_end hsw2, end_block_iscomplete, hi]
      | ret r => rw [fdo_sys_of_ret hsw2, hi]
    · by_cases h2 : a.type = FDO_SI_SET_OSI
      · have hcb : a.module_message ≠ some "exec_cb" := fun h => hn ⟨h2, Or.inr h⟩
        have hst : a.module_message ≠ some "status_cb" := fun h => hn ⟨h2, Or.inl h⟩
        rcases hsw : set_osi K env a s with ⟨c, s1, out⟩
        have hi := set_osi_iscomplete K env a s hcb hst
        rw [hsw] at hi
        have hsw2 : fdo_sys_switch K env a s = (c, s1, out) := by
          simp [fdo_sys_switch, h2, hsw]
        cases c with
        | goto_end r e f => rw [fdo_sys_of_goto_end hsw2, end_block_iscomplete, hi]
        | ret r => rw [fdo_sys_of_ret hsw2, hi]
      · obtain ⟨r, out, w, hsw⟩ := simple_switch K env a s h1 h2
        rw [fdo_sys_of_goto_end hsw, end_block_iscomplete]
  · intro htype hmsg hres
    rcases set_osi_status_cb_label K env a s hmsg with hsw | ⟨r, hr, hsw⟩
    · rcases set_osi_status_cb_cases env s (Output.start a) with
        ⟨b, rc, ws, s1, hb, _, _, heq, hi, _⟩ | ⟨s1, heq⟩
      · rw [heq] at hsw
        rw [fdo_sys_set_osi htype hsw]
        dsimp only
        rw [end_block_iscomplete, hi, hb]
      · rw [heq] at hsw
        rw [fdo_sys_set_osi htype hsw] at hres
        dsimp only at hres
        exact absurd hres (by decide)
    · rw [fdo_sys_set_osi htype hsw] at hres
      exact absurd hres hr

theorem iscomplete_follows_owner_witness :
    (fdo_sys K0 (env_ok files0 ["a.bin", "k"]) (args_set_osi "fetch" 10)
      session_complete).state.status_cb_iscomplete = session_complete.status_cb_iscomplete ∧
    (env_status_cb false).fdor_boolean =
      some (fdo_sys K0 (env_status_cb false) (args_set_osi "status_cb" 4)
        session_complete).state.status_cb_iscomplete :=
  ⟨(iscomplete_follows_owner K0 (env_ok files0 ["a.bin", "k"]) (args_set_osi "fetch" 10)
      session_complete).1 (by decide),
   (iscomplete_follows_owner K0 (env_status_cb false) (args_set_osi "status_cb" 4)
      session_complete).2 rfl rfl (by decide)⟩

end FdoSys
